import Mathlib

/-!
# Perceptor fusion engine (`src/src/fuser.cc`)

Shallow embedding of the pose fuser: `t_qfix`, `avg_quaternion_markley`,
`median_quaternions_weiszfeld`, `Fuser::synchronizer`, `Fuser::fuse` and
`Fuser::sensorFusion`.

Conventions.
* A C++ `double` is a rational number (exact arithmetic, no NaN, no rounding).
* Everything that `fuser.cc` uses but does not define (the header constants, the
  `Pose` helper `rotoTranslation`, the Eigen eigen-solver, the libm functions) is a
  field of `Env`; theorems quantify over every `Env`.
* A `std::vector` is a `Buffer`: its `size()` together with the content of its storage,
  slot by slot. `operator[]` does not look at the size, so a write past the end lands in
  the slot and a later read returns it; the engine relies on this for the vectors it only
  `reserve`s. A slot that was never written holds an unspecified value.
-/

namespace Perceptor

/-! ## Data model -/

/-- Translation part of a pose (`Eigen::Vector3d`). -/
structure Vec3 where
  x : ℚ
  y : ℚ
  z : ℚ
  deriving DecidableEq

/-- Quaternion with scalar part `w` (`Eigen::Quaterniond`; also used for an
`Eigen::Vector4d` whose entry 0 is the scalar part). -/
structure Quat where
  w : ℚ
  x : ℚ
  y : ℚ
  z : ℚ
  deriving DecidableEq

/-- Quality tag `LOST` of a pose. `getAccuracy()` is an `unsigned int` that the node fills
with a tracker confidence on the scale 0 (failed) to 3 (high): 0 for a lost secondary
tracker and 3 for a tracking one. -/
abbrev LOST : Nat := 0

/-- Quality tag `LOW` (confidence 1). -/
abbrev LOW : Nat := 1

/-- Quality tag `MED` (confidence 2). -/
abbrev MED : Nat := 2

/-- Quality tag `OK` (confidence 3). -/
abbrev OK : Nat := 3

/-- Modelled from the spec: the `Pose` class (its header is not part of the sources)
is a plain value type holding a translation, a rotation and a quality tag. -/
structure Pose where
  translation : Vec3
  rotation : Quat
  accuracy : Nat
  deriving DecidableEq

/-- Modelled from the spec: `Pose::setTranslation(x, y, z)` stores the three values. -/
def Pose.setTranslation (p : Pose) (x y z : ℚ) : Pose :=
  { p with translation := ⟨x, y, z⟩ }

/-- Modelled from the spec: `Pose::setRotation(w, x, y, z)` stores the four raw
components (no renormalisation). -/
def Pose.setRotation (p : Pose) (w x y z : ℚ) : Pose :=
  { p with rotation := ⟨w, x, y, z⟩ }

/-- Modelled from the spec: `Pose::setRotation(Eigen::Quaterniond)` stores the
quaternion. -/
def Pose.setRotationQ (p : Pose) (q : Quat) : Pose :=
  { p with rotation := q }

/-- Modelled from the spec: `Pose::setAccuracy` stores the quality tag. -/
def Pose.setAccuracy (p : Pose) (a : Nat) : Pose :=
  { p with accuracy := a }

/-- The seven numbers `Pose::X, Y, Z, WQ, XQ, YQ, ZQ` of a delta vector
(`std::vector<double> deltaCamVO`, `deltaOrbVO`). -/
structure Delta where
  X : ℚ
  Y : ℚ
  Z : ℚ
  WQ : ℚ
  XQ : ℚ
  YQ : ℚ
  ZQ : ℚ
  deriving DecidableEq

/-- Engine status. -/
inductive Status where
  | UNINITIALIZED
  | RUNNING
  deriving DecidableEq

/-- What `fuser.cc` takes from its header and from Eigen / libm. -/
structure Env where
  /-- Header constant `RECOVERY_BUFFER`. -/
  RECOVERY_BUFFER : Nat
  /-- Header constant `FILTER_WINDOW`. -/
  FILTER_WINDOW : Nat
  /-- The helper `Pose::rotoTranslation(translation, rotation)`. -/
  rotoTranslation : Pose → Vec3 → Quat → Pose
  /-- A default-constructed `Pose`. -/
  defaultPose : Pose
  /-- Content of a storage slot of a pose vector that was never written. -/
  junkPose : Pose
  /-- Content of slot `i` of `orbQoSPrev` after `reserve`, before it is written. -/
  uninitQoSPrev : Nat → Nat
  /-- Content of slot `i` of `orbQoSFilterReset` after `reserve`, before it is written. -/
  uninitQoSFilterReset : Nat → Nat
  /-- Column 3 of `Eigen::SelfAdjointEigenSolver(A).eigenvectors()`. -/
  eigenvectorTop : Matrix (Fin 4) (Fin 4) ℚ → Quat
  /-- The libm function `acos`. -/
  acos : ℚ → ℚ
  /-- The libm function `sin`. -/
  sin : ℚ → ℚ
  /-- The libm function `cos`. -/
  cos : ℚ → ℚ
  /-- The libm function `sqrt` behind `Eigen::Vector3d::norm`. -/
  sqrt : ℚ → ℚ
  /-- The libm function `pow`. -/
  pow : ℚ → ℚ → ℚ
  /-- The libm function `fmod`. -/
  fmod : ℚ → ℚ → ℚ
  /-- The constant `M_PI`. -/
  pi : ℚ
  /-- Conversion `Eigen::AngleAxisd(q)`: angle and axis of a quaternion. -/
  toAngleAxis : Quat → ℚ × Vec3
  /-- Conversion `Eigen::Quaterniond(Eigen::AngleAxisd(angle, axis))`. -/
  ofAngleAxis : ℚ → Vec3 → Quat

/-! ## Quaternion helpers -/

/-- Hamilton product (`Eigen::Quaterniond::operator*`). -/
def Quat.mul (a b : Quat) : Quat :=
  ⟨a.w * b.w - a.x * b.x - a.y * b.y - a.z * b.z,
   a.w * b.x + a.x * b.w + a.y * b.z - a.z * b.y,
   a.w * b.y + a.y * b.w + a.z * b.x - a.x * b.z,
   a.w * b.z + a.z * b.w + a.x * b.y - a.y * b.x⟩

/-- Conjugate (`Eigen::Quaterniond::conjugate`). -/
def Quat.conjugate (a : Quat) : Quat :=
  ⟨a.w, -a.x, -a.y, -a.z⟩

/-- Squared norm (`Eigen::Quaterniond::squaredNorm`). -/
def Quat.squaredNorm (a : Quat) : ℚ :=
  a.w * a.w + a.x * a.x + a.y * a.y + a.z * a.z

/-- Inverse (`Eigen::Quaterniond::inverse`): conjugate over squared norm, the zero
quaternion when the squared norm is not positive. -/
def Quat.inverse (a : Quat) : Quat :=
  if 0 < a.squaredNorm then
    ⟨a.w / a.squaredNorm, -a.x / a.squaredNorm, -a.y / a.squaredNorm, -a.z / a.squaredNorm⟩
  else ⟨0, 0, 0, 0⟩

/-- Sign fix `t_qfix`: flip all four components when the scalar part is negative. -/
def t_qfix (q : Quat) : Quat :=
  if q.w < 0 then ⟨-q.w, -q.x, -q.y, -q.z⟩ else q

/-! ## Synchronizer -/

/-- The class `SplineInterpolator`: the range of the abscissae and the two
interpolated values (the control points of the fitted curve). -/
structure SplineInterpolator where
  x_min : ℚ
  x_max : ℚ
  y0 : ℚ
  y1 : ℚ

/-- Constructor `SplineInterpolator(x_vec, y_vec)` for two samples. -/
def SplineInterpolator.make (xa xb ya yb : ℚ) : SplineInterpolator :=
  ⟨min xa xb, max xa xb, ya, yb⟩

/-- The private member `scaled_value`. -/
def SplineInterpolator.scaled_value (s : SplineInterpolator) (x : ℚ) : ℚ :=
  (x - s.x_min) / (s.x_max - s.x_min)

/-- Modelled from the spec: the Eigen spline fitted to two samples with degree
`min(2 - 1, 3) = 1` is the straight line through the two values, evaluated at the
normalised abscissa `u` (also outside `[0, 1]`). -/
def splineEval (y0 y1 u : ℚ) : ℚ :=
  (1 - u) * y0 + u * y1

/-- Call operator `SplineInterpolator::operator()(x)`. -/
def SplineInterpolator.eval (s : SplineInterpolator) (x : ℚ) : ℚ :=
  splineEval s.y0 s.y1 (s.scaled_value x)

/-- The function `Fuser::synchronizer`; `s3` is the in/out argument, the result is its
value on return. -/
def synchronizer (E : Env) (timestep1 timestep2 timestep3 : ℚ) (s1 s2 s3 : Pose) : Pose :=
  if timestep1 = -1 then s2
  else if timestep3 < timestep1 then s1
  else if timestep3 < timestep2 ∨ timestep1 = timestep2 then s2
  else
    let sX := SplineInterpolator.make timestep1 timestep2 s1.translation.x s2.translation.x
    let sY := SplineInterpolator.make timestep1 timestep2 s1.translation.y s2.translation.y
    let sZ := SplineInterpolator.make timestep1 timestep2 s1.translation.z s2.translation.z
    let s3a := s3.setTranslation (sX.eval timestep3) (sY.eval timestep3) (sZ.eval timestep3)
    if s1.rotation.w ≠ 0 ∧ s2.rotation.w ≠ 0 ∧ s1.rotation.x ≠ 0 ∧ s2.rotation.x ≠ 0 ∧
        s1.rotation.y ≠ 0 ∧ s2.rotation.y ≠ 0 ∧ s1.rotation.z ≠ 0 ∧ s2.rotation.z ≠ 0 then
      let dt := (timestep3 - timestep1) / (timestep2 - timestep1)
      let rotation := s2.rotation.mul s1.rotation.inverse
      let rotAA := E.toAngleAxis rotation
      let angle1 := if rotAA.1 > E.pi then rotAA.1 - 2 * E.pi else rotAA.1
      let angle2 := E.fmod (angle1 * dt) (2 * E.pi)
      let s3quat := E.ofAngleAxis angle2 rotAA.2
      s3a.setRotationQ (s3quat.mul s1.rotation)
    else s3a

/-! ## Rotation averaging and rotation median -/

/-- Entry `i` of a quaternion seen as an `Eigen::Vector4d`. -/
def Quat.entry (q : Quat) (i : Fin 4) : ℚ :=
  ![q.w, q.x, q.y, q.z] i

/-- Negation of a 4-vector (`q = -q`). -/
def Quat.neg (q : Quat) : Quat :=
  ⟨-q.w, -q.x, -q.y, -q.z⟩

/-- Outer product `q * q.adjoint()`. -/
def Quat.outer (q : Quat) : Matrix (Fin 4) (Fin 4) ℚ :=
  fun i j => q.entry i * q.entry j

/-- The accumulation loop of `avg_quaternion_markley` followed by the scaling
`A = (1.0/M)*A`; `Q` lists the rows. -/
def markleyMatrix (Q : List Quat) : Matrix (Fin 4) (Fin 4) ℚ :=
  let A := Q.foldl (fun A q => (if q.w < 0 then q.neg else q).outer + A) 0
  (1 / (Q.length : ℚ)) • A

/-- The function `avg_quaternion_markley`. -/
def avg_quaternion_markley (E : Env) (Q : List Quat) : Quat :=
  E.eigenvectorTop (markleyMatrix Q)

/-- Sum of two vectors. -/
def Vec3.add (a b : Vec3) : Vec3 :=
  ⟨a.x + b.x, a.y + b.y, a.z + b.z⟩

/-- Vector times scalar. -/
def Vec3.scale (a : Vec3) (k : ℚ) : Vec3 :=
  ⟨a.x * k, a.y * k, a.z * k⟩

/-- Vector over scalar. -/
def Vec3.divide (a : Vec3) (k : ℚ) : Vec3 :=
  ⟨a.x / k, a.y / k, a.z / k⟩

/-- Euclidean norm (`Eigen::Vector3d::norm`). -/
def Vec3.norm (E : Env) (a : Vec3) : ℚ :=
  E.sqrt (a.x * a.x + a.y * a.y + a.z * a.z)

/-- Vector part of a quaternion (`Eigen::Quaterniond::vec`). -/
def Quat.vec (q : Quat) : Vec3 :=
  ⟨q.x, q.y, q.z⟩

/-- The constant `epsAngle` of `median_quaternions_weiszfeld`. -/
def epsAngle : ℚ := 1 / 10000000

/-- The inner `for` loop of `median_quaternions_weiszfeld` for one sample `q`:
accumulates the weighted axis-angle increment and the weight. -/
def weiszfeldAccumulate (E : Env) (p : ℚ) (qMedian : Quat) (acc : Vec3 × ℚ) (q : Quat) :
    Vec3 × ℚ :=
  let qj := q.mul qMedian.conjugate
  let theta := 2 * E.acos qj.w
  if theta > epsAngle then
    let axisAngle := (qj.vec.divide (E.sin (theta / 2))).scale theta
    let weight := 1 / E.pow theta (2 - p)
    (acc.1.add (axisAngle.scale weight), acc.2 + weight)
  else acc

/-- One execution of the body of the `while` loop of `median_quaternions_weiszfeld`
(without the `i++`): the new estimate and the new `theta`. -/
def weiszfeldBody (E : Env) (Q : List Quat) (p : ℚ) (qMedian : Quat) : Quat × ℚ :=
  let acc := Q.foldl (weiszfeldAccumulate E p qMedian) (⟨0, 0, 0⟩, 0)
  if acc.2 > epsAngle then
    let delta := acc.1.divide acc.2
    let theta1 := delta.norm E
    if theta1 > epsAngle then
      let stby2 := E.sin (theta1 * (1 / 2))
      let delta1 := delta.divide theta1
      let q : Quat := ⟨E.cos (theta1 * (1 / 2)), stby2 * delta1.x, stby2 * delta1.y, stby2 * delta1.z⟩
      (t_qfix (q.mul qMedian), theta1)
    else (qMedian, theta1)
  else (qMedian, 0)

/-- The `while (theta > maxAngularUpdate && i <= maxIterations)` loop of
`median_quaternions_weiszfeld`, entered with the current estimate, `theta` and `i`;
returns the final estimate and the final value of `i`. -/
def weiszfeldLoop (E : Env) (Q : List Quat) (p maxAngularUpdate : ℚ) (maxIterations : Int)
    (qMedian : Quat) (theta : ℚ) (i : Int) : Quat × Int :=
  if theta > maxAngularUpdate ∧ i ≤ maxIterations then
    weiszfeldLoop E Q p maxAngularUpdate maxIterations
      (weiszfeldBody E Q p qMedian).1 (weiszfeldBody E Q p qMedian).2 (i + 1)
  else (qMedian, i)
termination_by (maxIterations + 1 - i).toNat
decreasing_by omega

/-- The whole of `median_quaternions_weiszfeld` (columns of `Q` listed), returning the
estimate together with the final value of the counter `i`, which starts at 0 and is
incremented once per execution of the loop body. -/
def weiszfeldRun (E : Env) (Q : List Quat) (p maxAngularUpdate : ℚ) (maxIterations : Int) :
    Quat × Int :=
  let qMedian := avg_quaternion_markley E Q
  let mau := max maxAngularUpdate epsAngle
  weiszfeldLoop E Q p mau maxIterations qMedian (10 * mau) 0

/-- The function `Fuser::median_quaternions_weiszfeld`. -/
def median_quaternions_weiszfeld (E : Env) (Q : List Quat) (p maxAngularUpdate : ℚ)
    (maxIterations : Int) : Quat :=
  (weiszfeldRun E Q p maxAngularUpdate maxIterations).1

/-- Number of executions of the loop body of `median_quaternions_weiszfeld`. -/
def weiszfeldIterations (E : Env) (Q : List Quat) (p maxAngularUpdate : ℚ)
    (maxIterations : Int) : Int :=
  (weiszfeldRun E Q p maxAngularUpdate maxIterations).2

/-- Call `median_quaternions_weiszfeld(qSamples)` with the default arguments
`p = 1`, `maxAngularUpdate = 0.0001`, `maxIterations = 1000`. -/
def medianQuaternionDefault (E : Env) (Q : List Quat) : Quat :=
  median_quaternions_weiszfeld E Q 1 (1 / 10000) 1000

/-! ## Scalar median filter -/

/-- Modelled from the spec: `MedianFilter::addSample` on a window of capacity `N`
(the class is not part of the sources): the oldest sample is evicted on overflow. -/
def MedianFilter.addSample (N : Nat) (window : List ℚ) (v : ℚ) : List ℚ :=
  if window.length < N then window ++ [v] else window.drop 1 ++ [v]

/-- Modelled from the spec: `MedianFilter::getMedian`, the middle of the sorted window
(the mean of the two middles for an even number of samples). -/
def MedianFilter.getMedian (window : List ℚ) : ℚ :=
  let s := window.insertionSort (fun a b => a ≤ b)
  if s.length % 2 = 1 then s.getD (s.length / 2) 0
  else (s.getD (s.length / 2 - 1) 0 + s.getD (s.length / 2) 0) / 2

/-- A fresh `MedianFilter<double, N>` fed with `samples` in order, then `getMedian`. -/
def medianOfSamples (N : Nat) (samples : List ℚ) : ℚ :=
  MedianFilter.getMedian (samples.foldl (MedianFilter.addSample N) [])

/-! ## Vectors -/

/-- A `std::vector`: its `size()` and the content of its storage, slot by slot. -/
structure Buffer (α : Type) where
  size : Nat
  slot : Nat → α

/-- The call `v.push_back(x)`. -/
def Buffer.push_back {α : Type} (b : Buffer α) (x : α) : Buffer α :=
  { size := b.size + 1, slot := Function.update b.slot b.size x }

/-- The assignment `v[i] = x`. -/
def Buffer.assign {α : Type} (b : Buffer α) (i : Nat) (x : α) : Buffer α :=
  { b with slot := Function.update b.slot i x }

/-- The loop `for (j = 0; j < n; j++) v[j] = v[j+1];`. -/
def shiftLeft {α : Type} (b : Buffer α) (n : Nat) : Buffer α :=
  (List.range n).foldl (fun c j => c.assign j (c.slot (j + 1))) b

/-! ## Engine state -/

/-- The data members of `Fuser` that `fuse` and `sensorFusion` read or write. -/
structure Fuser where
  REDUCTION_FACTOR : ℚ
  recovered : Bool
  firstRecover : Bool
  medianFilterReady : Bool
  fuserStatus : Status
  orbQoS : Nat
  camQoS : Nat
  alphaBlending : ℚ
  alphaWeight : ℚ
  counter : Nat
  recoverSteps : Nat
  pose : Pose
  posePrev : Pose
  poseFiltered : Pose
  poseFilteredPrev : Pose
  camRecover : Pose
  firstCamVO : Pose
  camVOPrev : Pose
  orbVOPrev : Pose
  deltaCamVO : Delta
  deltaOrbVO : Delta
  orbQoSPrev : Buffer Nat
  orbQoSFilterReset : Buffer Nat
  orbPoseBuffer : Buffer Pose
  poseBuffer : Buffer Pose

/-- The constructor `Fuser::Fuser()`. The two quality histories are `reserve`d: their size
is 0 and their storage has unspecified content; the two pose buffers start empty; the
delta vectors are written before they are read. -/
def Fuser.fresh (E : Env) : Fuser :=
  { REDUCTION_FACTOR := 1 / 100
    recovered := false
    firstRecover := true
    medianFilterReady := false
    fuserStatus := Status.UNINITIALIZED
    orbQoS := LOST
    camQoS := LOST
    alphaBlending := 3 / 4
    alphaWeight := 7 / 10
    counter := 0
    recoverSteps := E.FILTER_WINDOW + 1
    pose := (E.defaultPose.setTranslation 0 0 0).setRotation 1 0 0 0
    posePrev := (E.defaultPose.setTranslation 0 0 0).setRotation 1 0 0 0
    poseFiltered := (E.defaultPose.setTranslation 0 0 0).setRotation 1 0 0 0
    poseFilteredPrev := (E.defaultPose.setTranslation 0 0 0).setRotation 1 0 0 0
    camRecover := (E.defaultPose.setTranslation 0 0 0).setRotation 1 0 0 0
    firstCamVO := E.defaultPose
    camVOPrev := E.defaultPose
    orbVOPrev := E.defaultPose
    deltaCamVO := ⟨0, 0, 0, 0, 0, 0, 0⟩
    deltaOrbVO := ⟨0, 0, 0, 0, 0, 0, 0⟩
    orbQoSPrev := ⟨0, E.uninitQoSPrev⟩
    orbQoSFilterReset := ⟨0, E.uninitQoSFilterReset⟩
    orbPoseBuffer := ⟨0, fun _ => E.junkPose⟩
    poseBuffer := ⟨0, fun _ => E.junkPose⟩ }

/-- The accessor `Fuser::getFusedPose`. -/
def getFusedPose (f : Fuser) : Pose :=
  f.poseFiltered

/-- The accessor `Fuser::getRecoveredPose`. -/
def getRecoveredPose (f : Fuser) : Pose :=
  f.camRecover

/-! ## Sensor fusion -/

/-- The `switch (camQoS)` of `sensorFusion`. -/
def alphaOfCamQoS (f : Fuser) : ℚ :=
  if f.camQoS = LOST then 0
  else if f.camQoS = LOW then 0
  else if f.camQoS = MED then f.alphaBlending * f.alphaWeight
  else if f.camQoS = OK then f.alphaBlending
  else 0

/-- The weight `alpha` used by `sensorFusion`: the `switch` followed by
`if (orbQoS == LOST) alpha = 1.0`. -/
def sensorFusionAlpha (f : Fuser) : ℚ :=
  if f.orbQoS = LOST then 1 else alphaOfCamQoS f

/-- The local vector `delta` of `sensorFusion`. -/
def blendedDelta (alpha : ℚ) (deltaCamVO deltaOrbVO : Delta) : Delta :=
  { X := deltaCamVO.X * alpha + deltaOrbVO.X * (1 - alpha)
    Y := deltaCamVO.Y * alpha + deltaOrbVO.Y * (1 - alpha)
    Z := deltaCamVO.Z * alpha + deltaOrbVO.Z * (1 - alpha)
    WQ := deltaCamVO.WQ * alpha + deltaOrbVO.WQ * (1 - alpha)
    XQ := deltaCamVO.XQ * alpha + deltaOrbVO.XQ * (1 - alpha)
    YQ := deltaCamVO.YQ * alpha + deltaOrbVO.YQ * (1 - alpha)
    ZQ := deltaCamVO.ZQ * alpha + deltaOrbVO.ZQ * (1 - alpha) }

/-- The function `Fuser::sensorFusion`. -/
def sensorFusion (f : Fuser) (deltaCamVO deltaOrbVO : Delta) : Fuser :=
  let delta := blendedDelta (sensorFusionAlpha f) deltaCamVO deltaOrbVO
  let pose1 := f.pose.setTranslation (f.posePrev.translation.x + delta.X)
    (f.posePrev.translation.y + delta.Y) (f.posePrev.translation.z + delta.Z)
  let pose2 := pose1.setRotation (f.posePrev.rotation.w + delta.WQ)
    (f.posePrev.rotation.x + delta.XQ) (f.posePrev.rotation.y + delta.YQ)
    (f.posePrev.rotation.z + delta.ZQ)
  { f with pose := pose2 }

/-! ## One fusion step -/

/-- The loop `for (i = 1; i < RECOVERY_BUFFER; i++) if (orbQoSPrev[i] == OK) okCounter++;`. -/
def okCounter (E : Env) (orbQoSPrev : Buffer Nat) : Nat :=
  (List.range' 1 (E.RECOVERY_BUFFER - 1)).countP (fun i => decide (orbQoSPrev.slot i = OK))

/-- Whether the loop `for (i = 1; i < RECOVERY_BUFFER; i++) if (orbQoSPrev[i] == LOST) ...`
reaches its `break`. -/
def lostInHistory (E : Env) (orbQoSPrev : Buffer Nat) : Bool :=
  (List.range' 1 (E.RECOVERY_BUFFER - 1)).any (fun i => decide (orbQoSPrev.slot i = LOST))

/-- The block `if (counter > RECOVERY_BUFFER) ...` of `fuse`: recovery detection and
the override of `orbQoS`. -/
def recoveryCheck (E : Env) (f : Fuser) : Fuser :=
  if f.counter > E.RECOVERY_BUFFER then
    let f1 :=
      if f.orbQoS = OK ∧ f.orbQoSPrev.slot 0 = LOST then
        if okCounter E f.orbQoSPrev = E.RECOVERY_BUFFER - 1 then
          { f with recovered := true, firstRecover := true, camRecover := f.poseFilteredPrev }
        else f
      else f
    if lostInHistory E f1.orbQoSPrev then { f1 with orbQoS := LOST, recovered := false }
    else f1
  else f

/-- The block `if (recovered) ... else if (orbQoS != LOST) ...` of `fuse`: returns the
engine and the local `_orbPose`. -/
def recoverOrbPose (E : Env) (f : Fuser) (_orbPose : Pose) : Fuser × Pose :=
  if f.recovered then
    let o := E.rotoTranslation _orbPose f.camRecover.translation f.camRecover.rotation
    let f1 :=
      if f.firstRecover then
        { f with
          orbVOPrev := E.rotoTranslation f.orbVOPrev f.camRecover.translation f.camRecover.rotation
          firstRecover := false
          recoverSteps := 0 }
      else f
    ({ f1 with recoverSteps := f1.recoverSteps + 1 }, o)
  else if f.orbQoS ≠ LOST then
    (f, E.rotoTranslation _orbPose f.firstCamVO.translation f.firstCamVO.rotation)
  else (f, _orbPose)

/-- The buffer update shared by the two median-filtering blocks: shift slots
`0 .. FILTER_WINDOW-2` left by one, then store `p` in slot `FILTER_WINDOW-1`. -/
def rotateBuffer (E : Env) (buf : Buffer Pose) (p : Pose) : Buffer Pose :=
  (shiftLeft buf (E.FILTER_WINDOW - 1)).assign (E.FILTER_WINDOW - 1) p

/-- The `FILTER_WINDOW` poses fed to the median filters: slot `j` of the rotated buffer
for `j = 0 .. FILTER_WINDOW-1` (each slot is read right after it is written and is not
written again in the loop). -/
def windowSamples (E : Env) (buf : Buffer Pose) : List Pose :=
  (List.range E.FILTER_WINDOW).map buf.slot

/-- Translation produced by the three `MedianFilter`s over the window. -/
def medianTranslation (E : Env) (samples : List Pose) : Vec3 :=
  ⟨medianOfSamples E.FILTER_WINDOW (samples.map (fun s => s.translation.x)),
   medianOfSamples E.FILTER_WINDOW (samples.map (fun s => s.translation.y)),
   medianOfSamples E.FILTER_WINDOW (samples.map (fun s => s.translation.z))⟩

/-- Rotation produced by `median_quaternions_weiszfeld(qSamples)` over the window. -/
def medianRotation (E : Env) (samples : List Pose) : Quat :=
  medianQuaternionDefault E (samples.map (fun s => s.rotation))

/-- The block `Filtering orb Pose` of `fuse`: returns the engine and `_orbPose`. -/
def filterOrbPose (E : Env) (f : Fuser) (_orbPose : Pose) : Fuser × Pose :=
  if f.medianFilterReady then
    let buf := rotateBuffer E f.orbPoseBuffer _orbPose
    let samples := windowSamples E buf
    let t := medianTranslation E samples
    ({ f with orbPoseBuffer := buf },
     (_orbPose.setTranslation t.x t.y t.z).setRotationQ (medianRotation E samples))
  else
    let buf := f.orbPoseBuffer.push_back _orbPose
    ({ f with orbPoseBuffer := buf
              medianFilterReady := if buf.size = E.FILTER_WINDOW then true else f.medianFilterReady },
     _orbPose)

/-- Delta of the camera stream: the `deltaCamVO[...]` assignments of `fuse`. -/
def cameraDelta (f : Fuser) (camVO : Pose) : Delta :=
  if f.fuserStatus = Status.UNINITIALIZED then
    { X := camVO.translation.x
      Y := camVO.translation.y
      Z := camVO.translation.z
      WQ := camVO.rotation.w - 1
      XQ := camVO.rotation.x
      YQ := camVO.rotation.y
      ZQ := camVO.rotation.z }
  else
    { X := camVO.translation.x - f.camVOPrev.translation.x
      Y := camVO.translation.y - f.camVOPrev.translation.y
      Z := camVO.translation.z - f.camVOPrev.translation.z
      WQ := camVO.rotation.w - f.camVOPrev.rotation.w
      XQ := camVO.rotation.x - f.camVOPrev.rotation.x
      YQ := camVO.rotation.y - f.camVOPrev.rotation.y
      ZQ := camVO.rotation.z - f.camVOPrev.rotation.z }

/-- Delta of the secondary stream: the `deltaOrbVO[...]` assignments of `fuse`. -/
def secondaryDelta (f : Fuser) (orbVO : Pose) : Delta :=
  if f.fuserStatus = Status.UNINITIALIZED then
    { X := orbVO.translation.x
      Y := orbVO.translation.y
      Z := orbVO.translation.z
      WQ := orbVO.rotation.w - 1
      XQ := orbVO.rotation.x
      YQ := orbVO.rotation.y
      ZQ := orbVO.rotation.z }
  else
    { X := orbVO.translation.x - f.orbVOPrev.translation.x
      Y := orbVO.translation.y - f.orbVOPrev.translation.y
      Z := orbVO.translation.z - f.orbVOPrev.translation.z
      WQ := orbVO.rotation.w - f.orbVOPrev.rotation.w
      XQ := orbVO.rotation.x - f.orbVOPrev.rotation.x
      YQ := orbVO.rotation.y - f.orbVOPrev.rotation.y
      ZQ := orbVO.rotation.z - f.orbVOPrev.rotation.z }

/-- The element `poseBuffer[poseBuffer.size()-2]` (the unsigned index wraps around, far
past the storage, when the vector has fewer than two elements). -/
def bufferedPrev (E : Env) (buf : Buffer Pose) : Pose :=
  if 2 ≤ buf.size then buf.slot (buf.size - 2) else E.junkPose

/-- The pose built from `_x, _y, _z, _wq, _xq, _yq, _zq` in the smoothing block:
`poseFiltered` with translation and rotation replaced by
`poseFilteredPrev + (poseBuffer[size-2] - pose) * REDUCTION_FACTOR`. -/
def smoothedPose (E : Env) (f : Fuser) : Pose :=
  let b := bufferedPrev E f.poseBuffer
  let pf1 := f.poseFiltered.setTranslation
    (f.poseFilteredPrev.translation.x + (b.translation.x - f.pose.translation.x) * f.REDUCTION_FACTOR)
    (f.poseFilteredPrev.translation.y + (b.translation.y - f.pose.translation.y) * f.REDUCTION_FACTOR)
    (f.poseFilteredPrev.translation.z + (b.translation.z - f.pose.translation.z) * f.REDUCTION_FACTOR)
  pf1.setRotation
    (f.poseFilteredPrev.rotation.w + (b.rotation.w - f.pose.rotation.w) * f.REDUCTION_FACTOR)
    (f.poseFilteredPrev.rotation.x + (b.rotation.x - f.pose.rotation.x) * f.REDUCTION_FACTOR)
    (f.poseFilteredPrev.rotation.y + (b.rotation.y - f.pose.rotation.y) * f.REDUCTION_FACTOR)
    (f.poseFilteredPrev.rotation.z + (b.rotation.z - f.pose.rotation.z) * f.REDUCTION_FACTOR)

/-- The block `if (counter > FILTER_WINDOW) ...` of the unfiltered branch: smoothing
during the filter reset phase. -/
def resetSmoothing (E : Env) (f : Fuser) : Fuser :=
  if f.counter > E.FILTER_WINDOW then
    if f.orbQoSFilterReset.slot 0 ≠ LOST then
      { f with poseFiltered := smoothedPose E f }
    else { f with poseFiltered := f.poseFilteredPrev }
  else f

/-- The pose stored in `poseFiltered` by the median branch: translation from the three
`MedianFilter`s and rotation from `median_quaternions_weiszfeld`, over the window. -/
def medianFilteredPose (E : Env) (current : Pose) (buf : Buffer Pose) : Pose :=
  let samples := windowSamples E buf
  let t := medianTranslation E samples
  (current.setTranslation t.x t.y t.z).setRotationQ (medianRotation E samples)

/-- The `else` part of the block `Filtering fused Pose`, before the smoothing: the raw
fused pose is buffered and published. -/
def bufferRawPose (E : Env) (f : Fuser) : Fuser :=
  let buf :=
    if f.poseBuffer.size ≠ E.FILTER_WINDOW then f.poseBuffer.push_back f.pose
    else rotateBuffer E f.poseBuffer f.pose
  { f with
    poseBuffer := buf
    poseFiltered := f.pose
    medianFilterReady := if buf.size = E.FILTER_WINDOW then true else f.medianFilterReady }

/-- The block `Filtering fused Pose` of `fuse`. -/
def filterFusedPose (E : Env) (f : Fuser) : Fuser :=
  if f.medianFilterReady = true ∧ f.recoverSteps > E.FILTER_WINDOW then
    { f with
      poseBuffer := rotateBuffer E f.poseBuffer f.pose
      poseFiltered := medianFilteredPose E f.poseFiltered (rotateBuffer E f.poseBuffer f.pose) }
  else resetSmoothing E (bufferRawPose E f)

/-- The two blocks `Buffering orb QoS ...` of `fuse`. -/
def bufferQoS (E : Env) (f : Fuser) (orbQoSNow : Nat) : Fuser :=
  { f with
    orbQoSPrev :=
      (shiftLeft f.orbQoSPrev (E.RECOVERY_BUFFER - 1)).assign (E.RECOVERY_BUFFER - 1) orbQoSNow
    orbQoSFilterReset :=
      (shiftLeft f.orbQoSFilterReset (E.FILTER_WINDOW - 1)).assign (E.FILTER_WINDOW - 1)
        orbQoSNow }

/-- The entry of `Fuser::fuse`: the two qualities are cached and, on the first call,
`firstCamVO` is set. -/
def ingest (f : Fuser) (camVO orbVO : Pose) : Fuser :=
  if f.fuserStatus = Status.UNINITIALIZED then
    { f with camQoS := camVO.accuracy, orbQoS := orbVO.accuracy, firstCamVO := camVO }
  else { f with camQoS := camVO.accuracy, orbQoS := orbVO.accuracy }

/-- The part of `Fuser::fuse` before the deltas are computed: recovery check,
re-anchoring and filtering of the secondary pose. Returns the engine and the local
`orbVO` (the filtered secondary pose). -/
def beforeFusion (E : Env) (f : Fuser) (camVO orbVO : Pose) : Fuser × Pose :=
  let f2 := recoveryCheck E (ingest f camVO orbVO)
  let r3 := recoverOrbPose E f2 orbVO
  filterOrbPose E r3.1 r3.2

/-- The first part of `Fuser::fuse`, from its entry to the call of `sensorFusion`
included: returns the engine and the local `orbVO`. -/
def fuseThroughFusion (E : Env) (f : Fuser) (camVO orbVO : Pose) : Fuser × Pose :=
  let r4 := beforeFusion E f camVO orbVO
  let f5 : Fuser :=
    { r4.1 with deltaCamVO := cameraDelta r4.1 camVO, deltaOrbVO := secondaryDelta r4.1 r4.2 }
  (sensorFusion f5 f5.deltaCamVO f5.deltaOrbVO, r4.2)

/-- The end of `Fuser::fuse`: the final `if (fuserStatus == UNINITIALIZED)` and
`counter++`. -/
def markRunning (f : Fuser) : Fuser :=
  if f.fuserStatus = Status.UNINITIALIZED then
    { f with fuserStatus := Status.RUNNING, counter := f.counter + 1 }
  else { f with counter := f.counter + 1 }

/-- The function `Fuser::fuse` (its return value is always `true`; the result here is
the engine after the call). The NaN checks only print. -/
def fuse (E : Env) (f : Fuser) (camVO orbVO : Pose) : Fuser :=
  let orbQoSNow := orbVO.accuracy
  let r6 := fuseThroughFusion E f camVO orbVO
  let f7 := filterFusedPose E r6.1
  let f8 : Fuser :=
    { f7 with
      camVOPrev := camVO
      orbVOPrev := r6.2
      posePrev := f7.pose
      poseFilteredPrev := f7.poseFiltered }
  markRunning (bufferQoS E f8 orbQoSNow)

/-- A run: `fuse` called once per input pair (camera pose, secondary pose), in order. -/
def fuseAll (E : Env) (f : Fuser) (inputs : List (Pose × Pose)) : Fuser :=
  inputs.foldl (fun g io => fuse E g io.1 io.2) f

/-! ## Concrete inputs used to evaluate the definitions -/

/-- An environment for evaluating the definitions on concrete inputs, with the two
window constants as arguments. `rotoTranslation` rotates and shifts the pose; the
library functions get simple rational stand-ins (the values quoted from this
environment never depend on them); every unspecified value is zero. -/
def exampleEnv (recoveryBuffer filterWindow : Nat) : Env :=
  { RECOVERY_BUFFER := recoveryBuffer
    FILTER_WINDOW := filterWindow
    rotoTranslation := fun p t q =>
      { p with
        translation := ((q.mul ⟨0, p.translation.x, p.translation.y, p.translation.z⟩).mul
          q.conjugate).vec.add t
        rotation := q.mul p.rotation }
    defaultPose := ⟨⟨0, 0, 0⟩, ⟨1, 0, 0, 0⟩, 0⟩
    junkPose := ⟨⟨0, 0, 0⟩, ⟨1, 0, 0, 0⟩, 0⟩
    uninitQoSPrev := fun _ => 0
    uninitQoSFilterReset := fun _ => 0
    eigenvectorTop := fun _ => ⟨1, 0, 0, 0⟩
    acos := fun _ => 0
    sin := fun x => x
    cos := fun _ => 1
    sqrt := fun x => x
    pow := fun x _ => x
    fmod := fun x _ => x
    pi := 22 / 7
    toAngleAxis := fun q => (0, q.vec)
    ofAngleAxis := fun _ _ => ⟨1, 0, 0, 0⟩ }

/-- A pose at `(x, 0, 0)` with rotation `(1/2, 1/2, 1/2, 1/2)` and the given quality. -/
def poseAt (x : ℚ) (quality : Nat) : Pose :=
  ⟨⟨x, 0, 0⟩, ⟨1 / 2, 1 / 2, 1 / 2, 1 / 2⟩, quality⟩

/-! ## Auxiliary predicates -/

/-- The condition under which the recovery block sets `recovered = true`: the incoming
quality is OK, slot 0 of the history is LOST and the loop counted
`RECOVERY_BUFFER - 1` OK slots. -/
def transitionFires (E : Env) (f : Fuser) : Prop :=
  f.orbQoS = OK ∧ f.orbQoSPrev.slot 0 = LOST ∧
    okCounter E f.orbQoSPrev = E.RECOVERY_BUFFER - 1

instance (E : Env) (f : Fuser) : Decidable (transitionFires E f) := by
  unfold transitionFires
  infer_instance

/-- One step with both poses at the origin: camera quality OK, secondary quality as
given. -/
def stepWith (secondaryQuality : Nat) : Pose × Pose :=
  (poseAt 0 OK, poseAt 0 secondaryQuality)

/-- The raw fused pose follows the camera: `recovered` is false and the previous raw
fused pose is the previous camera pose (the initial pose `(0,0,0; 1,0,0,0)` before the
first step), translation and rotation. -/
def TracksCamera (f : Fuser) : Prop :=
  f.recovered = false ∧
  ((f.fuserStatus = Status.UNINITIALIZED ∧ f.posePrev.translation = ⟨0, 0, 0⟩ ∧
      f.posePrev.rotation = ⟨1, 0, 0, 0⟩) ∨
    (f.fuserStatus = Status.RUNNING ∧ f.posePrev.translation = f.camVOPrev.translation ∧
      f.posePrev.rotation = f.camVOPrev.rotation))

/-- Warm-up state after `n` steps: the median filter is not ready and both pose buffers
hold `n` poses. -/
def WarmingUp (f : Fuser) (n : Nat) : Prop :=
  f.medianFilterReady = false ∧ f.orbPoseBuffer.size = n ∧ f.poseBuffer.size = n ∧
    f.counter = n

/-- A fresh engine with the two blending parameters set to the given values. -/
def Fuser.freshWith (E : Env) (alphaBlending alphaWeight : ℚ) : Fuser :=
  { Fuser.fresh E with alphaBlending := alphaBlending, alphaWeight := alphaWeight }

/-- Seven steps with the camera at `x = 1, 2, ..., 7` (quality OK) and the secondary
stream LOST. -/
def cameraOnlyRun : List (Pose × Pose) :=
  [(poseAt 1 OK, poseAt 0 LOST), (poseAt 2 OK, poseAt 0 LOST), (poseAt 3 OK, poseAt 0 LOST),
   (poseAt 4 OK, poseAt 0 LOST), (poseAt 5 OK, poseAt 0 LOST), (poseAt 6 OK, poseAt 0 LOST),
   (poseAt 7 OK, poseAt 0 LOST)]

/-- A camera pose at the origin whose unit quaternion has a negative scalar part. -/
def flippedCamera : Pose :=
  ⟨⟨0, 0, 0⟩, ⟨-1, 0, 0, 0⟩, OK⟩

/-- Modelled from the spec: `v` is a unit eigenvector of `A` for its largest eigenvalue.
This is what `Eigen::SelfAdjointEigenSolver` documents for the last column of
`eigenvectors()`: the eigenvalues are sorted in increasing order and the eigenvectors are
normalised. -/
def IsTopUnitEigenvector (A : Matrix (Fin 4) (Fin 4) ℚ) (v : Quat) : Prop :=
  v.squaredNorm = 1 ∧
    ∃ lam : ℚ, A.mulVec v.entry = lam • v.entry ∧
      ∀ (mu : ℚ) (w : Fin 4 → ℚ), w ≠ 0 → A.mulVec w = mu • w → mu ≤ lam

/-- The condition under which a call of `fuse` with secondary pose `orbVO` executes
`recovered = true`: more than `RECOVERY_BUFFER` completed steps, incoming quality OK,
slot 0 of the history LOST and `RECOVERY_BUFFER - 1` OK slots counted. -/
def recoveryFires (E : Env) (f : Fuser) (orbVO : Pose) : Prop :=
  E.RECOVERY_BUFFER < f.counter ∧ orbVO.accuracy = OK ∧ f.orbQoSPrev.slot 0 = LOST ∧
    okCounter E f.orbQoSPrev = E.RECOVERY_BUFFER - 1

instance (E : Env) (f : Fuser) (orbVO : Pose) : Decidable (recoveryFires E f orbVO) := by
  unfold recoveryFires
  infer_instance

/-- Five steps with the camera at `x = 1, 2, 3, 4, 5` (quality OK) and the secondary
qualities OK, LOST, OK, OK, OK. -/
def reacquisitionRun : List (Pose × Pose) :=
  [(poseAt 1 OK, poseAt 0 OK), (poseAt 2 OK, poseAt 0 LOST), (poseAt 3 OK, poseAt 0 OK),
   (poseAt 4 OK, poseAt 0 OK), (poseAt 5 OK, poseAt 0 OK)]

/-! ## Theorems -/

/-! ### C1: blending rule of `sensorFusion` -/

/-- C1: `sensorFusion` picks `alpha = 1` when the effective secondary quality is LOST
and otherwise 0 for camera quality LOST or LOW, `alphaBlending * alphaWeight` for MED
and `alphaBlending` for OK (0.75 and 0.7 on a fresh engine); each of the seven
components of the new raw fused pose is the previous raw fused value plus
`alpha * cameraDelta + (1 - alpha) * secondaryDelta`. -/
theorem sensorFusion_blend (E : Env) (f : Fuser) (dC dO : Delta) :
    (Fuser.fresh E).alphaBlending = 3 / 4 ∧ (Fuser.fresh E).alphaWeight = 7 / 10 ∧
    ∃ alpha : ℚ,
      (f.orbQoS = LOST → alpha = 1) ∧
      (f.orbQoS ≠ LOST →
        (f.camQoS = LOST ∨ f.camQoS = LOW → alpha = 0) ∧
        (f.camQoS = MED → alpha = f.alphaBlending * f.alphaWeight) ∧
        (f.camQoS = OK → alpha = f.alphaBlending)) ∧
      (sensorFusion f dC dO).pose.translation.x
        = f.posePrev.translation.x + alpha * dC.X + (1 - alpha) * dO.X ∧
      (sensorFusion f dC dO).pose.translation.y
        = f.posePrev.translation.y + alpha * dC.Y + (1 - alpha) * dO.Y ∧
      (sensorFusion f dC dO).pose.translation.z
        = f.posePrev.translation.z + alpha * dC.Z + (1 - alpha) * dO.Z ∧
      (sensorFusion f dC dO).pose.rotation.w
        = f.posePrev.rotation.w + alpha * dC.WQ + (1 - alpha) * dO.WQ ∧
      (sensorFusion f dC dO).pose.rotation.x
        = f.posePrev.rotation.x + alpha * dC.XQ + (1 - alpha) * dO.XQ ∧
      (sensorFusion f dC dO).pose.rotation.y
        = f.posePrev.rotation.y + alpha * dC.YQ + (1 - alpha) * dO.YQ ∧
      (sensorFusion f dC dO).pose.rotation.z
        = f.posePrev.rotation.z + alpha * dC.ZQ + (1 - alpha) * dO.ZQ := by
  refine ⟨rfl, rfl, sensorFusionAlpha f, ?_, ?_, ?_⟩
  · intro h
    simp [sensorFusionAlpha, h]
  · intro h
    refine ⟨?_, ?_, ?_⟩
    · rintro (hc | hc) <;> simp [sensorFusionAlpha, alphaOfCamQoS, h, hc]
    · intro hc
      simp [sensorFusionAlpha, alphaOfCamQoS, h, hc]
    · intro hc
      simp [sensorFusionAlpha, alphaOfCamQoS, h, hc]
  · simp only [sensorFusion, blendedDelta, Pose.setTranslation, Pose.setRotation]
    refine ⟨?_, ?_, ?_, ?_, ?_, ?_, ?_⟩ <;> ring

/-! ### C3, C4, C5: `synchronizer` -/

/-- C3: `synchronizer` follows its clamp rules in priority order: the sentinel
`t1 = -1` gives `s2`; otherwise `t3 < t1` gives `s1`; otherwise `t3 < t2` or `t1 = t2`
gives `s2` (whole pose: translation, rotation and quality). -/
theorem synchronizer_clamp_rules (E : Env) (t1 t2 t3 : ℚ) (s1 s2 s3 : Pose) :
    (t1 = -1 → synchronizer E t1 t2 t3 s1 s2 s3 = s2) ∧
    (t1 ≠ -1 → t3 < t1 → synchronizer E t1 t2 t3 s1 s2 s3 = s1) ∧
    (t1 ≠ -1 → ¬ t3 < t1 → (t3 < t2 ∨ t1 = t2) → synchronizer E t1 t2 t3 s1 s2 s3 = s2) := by
  refine ⟨?_, ?_, ?_⟩
  · intro h
    simp [synchronizer, h]
  · intro h1 h2
    simp [synchronizer, h1, h2]
  · intro h1 h2 h3
    unfold synchronizer
    rw [if_neg h1, if_neg h2, if_pos h3]

/-- C4 fails as stated: with the sentinel `t1 = -1` and `t3 = -2 < t1` the result is
`s2`, not `s1`. -/
theorem synchronizer_sentinel_precedes_clamp :
    (-2 : ℚ) < -1 ∧
    synchronizer (exampleEnv 3 5) (-1) 0 (-2) (poseAt 1 OK) (poseAt 2 OK) (poseAt 3 OK)
      = poseAt 2 OK ∧
    poseAt 2 OK ≠ poseAt 1 OK := by
  refine ⟨by norm_num, ?_, ?_⟩
  · simp [synchronizer]
  · simp [poseAt]

/-- C4 (amended): when `t1` is not the sentinel `-1` and `t3 < t1`, `synchronizer`
returns `s1`. -/
theorem synchronizer_clamp_before (E : Env) (t1 t2 t3 : ℚ) (s1 s2 s3 : Pose)
    (h1 : t1 ≠ -1) (h3 : t3 < t1) : synchronizer E t1 t2 t3 s1 s2 s3 = s1 := by
  simp [synchronizer, h1, h3]

/-- Witness of `synchronizer_clamp_before` at `t1 = 1`, `t2 = 2`, `t3 = 0`. -/
theorem synchronizer_clamp_before_witness :
    synchronizer (exampleEnv 3 5) 1 2 0 (poseAt 1 OK) (poseAt 2 LOST) (poseAt 3 OK)
      = poseAt 1 OK :=
  synchronizer_clamp_before (exampleEnv 3 5) 1 2 0 (poseAt 1 OK) (poseAt 2 LOST) (poseAt 3 OK)
    (by norm_num) (by norm_num)

/-- Translation of the output of `synchronizer` in its last branch. -/
theorem synchronizer_translation_of_interpolate (E : Env) (t1 t2 t3 : ℚ) (s1 s2 s3 : Pose)
    (h1 : t1 ≠ -1) (h2 : ¬ t3 < t1) (h3 : ¬ (t3 < t2 ∨ t1 = t2)) :
    (synchronizer E t1 t2 t3 s1 s2 s3).translation =
      ⟨(SplineInterpolator.make t1 t2 s1.translation.x s2.translation.x).eval t3,
       (SplineInterpolator.make t1 t2 s1.translation.y s2.translation.y).eval t3,
       (SplineInterpolator.make t1 t2 s1.translation.z s2.translation.z).eval t3⟩ := by
  unfold synchronizer
  rw [if_neg h1, if_neg h2, if_neg h3]
  simp only []
  split <;> simp [Pose.setRotationQ, Pose.setTranslation]

/-- C5 fails as stated: for `t1 = 0 < t2 = 1 < t3 = 2`, `s1` at `x = 0` and `s2` at
`x = 1` the output is at `x = 2`, which no `lambda` in `[0, 1]` reaches. -/
theorem synchronizer_extrapolates :
    (synchronizer (exampleEnv 3 5) 0 1 2 (poseAt 0 OK) (poseAt 1 OK) (poseAt 7 OK)).translation.x
      = 2 ∧
    ¬ ∃ l : ℚ, 0 ≤ l ∧ l ≤ 1 ∧
      (synchronizer (exampleEnv 3 5) 0 1 2 (poseAt 0 OK) (poseAt 1 OK)
        (poseAt 7 OK)).translation.x
        = (1 - l) * (poseAt 0 OK).translation.x + l * (poseAt 1 OK).translation.x := by
  have h : (synchronizer (exampleEnv 3 5) 0 1 2 (poseAt 0 OK) (poseAt 1 OK)
      (poseAt 7 OK)).translation.x = 2 := by
    rw [synchronizer_translation_of_interpolate _ _ _ _ _ _ _ (by norm_num) (by norm_num)
      (by norm_num)]
    norm_num [SplineInterpolator.make, SplineInterpolator.eval,
      SplineInterpolator.scaled_value, splineEval, poseAt]
  refine ⟨h, ?_⟩
  rintro ⟨l, -, hl1, hl⟩
  rw [h] at hl
  simp only [poseAt] at hl
  linarith

/-- C5 (amended): for `t1 < t2 < t3` with `t1` not the sentinel, the translation of the
output is `(1 - lambda) * trans(s1) + lambda * trans(s2)` on every axis for
`lambda = (t3 - t1) / (t2 - t1)`, and this `lambda` is greater than 1: the output lies
on the straight line through `s1` and `s2`, beyond `s2`. -/
theorem synchronizer_translation_on_line (E : Env) (t1 t2 t3 : ℚ) (s1 s2 s3 : Pose)
    (h1 : t1 ≠ -1) (h12 : t1 < t2) (h23 : t2 < t3) :
    1 < (t3 - t1) / (t2 - t1) ∧
    (synchronizer E t1 t2 t3 s1 s2 s3).translation.x
      = (1 - (t3 - t1) / (t2 - t1)) * s1.translation.x
        + (t3 - t1) / (t2 - t1) * s2.translation.x ∧
    (synchronizer E t1 t2 t3 s1 s2 s3).translation.y
      = (1 - (t3 - t1) / (t2 - t1)) * s1.translation.y
        + (t3 - t1) / (t2 - t1) * s2.translation.y ∧
    (synchronizer E t1 t2 t3 s1 s2 s3).translation.z
      = (1 - (t3 - t1) / (t2 - t1)) * s1.translation.z
        + (t3 - t1) / (t2 - t1) * s2.translation.z := by
  have hpos : 0 < t2 - t1 := by linarith
  have hlam : 1 < (t3 - t1) / (t2 - t1) := by
    rw [lt_div_iff₀ hpos]
    linarith
  have hA : ¬ t3 < t1 := by
    intro h
    linarith
  have hB : ¬ (t3 < t2 ∨ t1 = t2) := by
    rintro (h | h)
    · linarith
    · exact absurd h (ne_of_lt h12)
  rw [synchronizer_translation_of_interpolate E t1 t2 t3 s1 s2 s3 h1 hA hB]
  refine ⟨hlam, ?_, ?_, ?_⟩ <;>
    simp only [SplineInterpolator.make, SplineInterpolator.eval,
      SplineInterpolator.scaled_value, splineEval, min_eq_left h12.le, max_eq_right h12.le]

/-- Witness of `synchronizer_translation_on_line` at `t1 = 0`, `t2 = 1`, `t3 = 2`. -/
theorem synchronizer_translation_on_line_witness :
    1 < ((2 : ℚ) - 0) / (1 - 0) ∧
    (synchronizer (exampleEnv 3 5) 0 1 2 (poseAt 0 OK) (poseAt 1 OK) (poseAt 7 OK)).translation.x
      = (1 - ((2 : ℚ) - 0) / (1 - 0)) * (poseAt 0 OK).translation.x
        + ((2 : ℚ) - 0) / (1 - 0) * (poseAt 1 OK).translation.x :=
  ⟨(synchronizer_translation_on_line (exampleEnv 3 5) 0 1 2 (poseAt 0 OK) (poseAt 1 OK)
      (poseAt 7 OK) (by norm_num) (by norm_num) (by norm_num)).1,
   (synchronizer_translation_on_line (exampleEnv 3 5) 0 1 2 (poseAt 0 OK) (poseAt 1 OK)
      (poseAt 7 OK) (by norm_num) (by norm_num) (by norm_num)).2.1⟩

/-! ### Ring-buffer shift -/

/-- One more iteration of the shifting loop. -/
theorem shiftLeft_succ {α : Type} (b : Buffer α) (n : Nat) :
    shiftLeft b (n + 1) = (shiftLeft b n).assign n ((shiftLeft b n).slot (n + 1)) := by
  simp [shiftLeft, List.range_succ, List.foldl_append]

/-- The shifting loop keeps the size of the vector. -/
theorem shiftLeft_size {α : Type} (b : Buffer α) (n : Nat) : (shiftLeft b n).size = b.size := by
  induction n with
  | zero => rfl
  | succ n ih =>
    rw [shiftLeft_succ]
    exact ih

/-- Slot `i` after `n` iterations of the shifting loop. -/
theorem shiftLeft_slot {α : Type} (b : Buffer α) (n i : Nat) :
    (shiftLeft b n).slot i = if i < n then b.slot (i + 1) else b.slot i := by
  induction n generalizing i with
  | zero => rfl
  | succ n ih =>
    rw [shiftLeft_succ]
    show Function.update (shiftLeft b n).slot n ((shiftLeft b n).slot (n + 1)) i = _
    by_cases hin : i = n
    · subst hin
      rw [Function.update_same, ih, if_neg (by omega), if_pos (by omega)]
    · rw [Function.update_noteq hin, ih]
      by_cases h1 : i < n
      · rw [if_pos h1, if_pos (by omega)]
      · rw [if_neg h1, if_neg (by omega)]

/-- Slot `i` after shifting `n` slots and storing `v` in slot `n`. -/
theorem shiftLeft_assign_slot {α : Type} (b : Buffer α) (n i : Nat) (v : α) :
    ((shiftLeft b n).assign n v).slot i
      = if i < n then b.slot (i + 1) else if i = n then v else b.slot i := by
  show Function.update (shiftLeft b n).slot n v i = _
  by_cases hin : i = n
  · subst hin
    rw [Function.update_same, if_neg (by omega), if_pos rfl]
  · rw [Function.update_noteq hin, shiftLeft_slot, if_neg hin]

/-! ### Normal forms of the stages of `fuse` -/

/-- The recovery block only touches `recovered`, `firstRecover`, `camRecover` and
`orbQoS`. -/
theorem recoveryCheck_eq (E : Env) (f : Fuser) :
    recoveryCheck E f =
      { f with
        recovered :=
          if E.RECOVERY_BUFFER < f.counter then
            if lostInHistory E f.orbQoSPrev = true then false
            else if transitionFires E f then true else f.recovered
          else f.recovered
        firstRecover :=
          if E.RECOVERY_BUFFER < f.counter ∧ transitionFires E f then true else f.firstRecover
        camRecover :=
          if E.RECOVERY_BUFFER < f.counter ∧ transitionFires E f then f.poseFilteredPrev
          else f.camRecover
        orbQoS :=
          if E.RECOVERY_BUFFER < f.counter ∧ lostInHistory E f.orbQoSPrev = true then LOST
          else f.orbQoS } := by
  unfold recoveryCheck transitionFires
  simp only [gt_iff_lt]
  split_ifs <;> first | rfl | (exfalso; tauto)

/-- Engine after the re-anchoring block. -/
theorem recoverOrbPose_fst (E : Env) (f : Fuser) (o : Pose) :
    (recoverOrbPose E f o).1 =
      { f with
        orbVOPrev :=
          if f.recovered = true then
            if f.firstRecover = true then
              E.rotoTranslation f.orbVOPrev f.camRecover.translation f.camRecover.rotation
            else f.orbVOPrev
          else f.orbVOPrev
        firstRecover :=
          if f.recovered = true then
            if f.firstRecover = true then false else f.firstRecover
          else f.firstRecover
        recoverSteps :=
          if f.recovered = true then
            if f.firstRecover = true then 0 + 1 else f.recoverSteps + 1
          else f.recoverSteps } := by
  unfold recoverOrbPose
  split_ifs <;> rfl

/-- Secondary pose after the re-anchoring block. -/
theorem recoverOrbPose_snd (E : Env) (f : Fuser) (o : Pose) :
    (recoverOrbPose E f o).2 =
      if f.recovered = true then
        E.rotoTranslation o f.camRecover.translation f.camRecover.rotation
      else if f.orbQoS ≠ LOST then
        E.rotoTranslation o f.firstCamVO.translation f.firstCamVO.rotation
      else o := by
  unfold recoverOrbPose
  split_ifs <;> rfl

/-- Engine after the secondary-pose filtering block. -/
theorem filterOrbPose_fst (E : Env) (f : Fuser) (o : Pose) :
    (filterOrbPose E f o).1 =
      { f with
        orbPoseBuffer :=
          if f.medianFilterReady = true then rotateBuffer E f.orbPoseBuffer o
          else f.orbPoseBuffer.push_back o
        medianFilterReady :=
          if f.medianFilterReady = true then f.medianFilterReady
          else if (f.orbPoseBuffer.push_back o).size = E.FILTER_WINDOW then true
          else f.medianFilterReady } := by
  unfold filterOrbPose
  dsimp only
  split_ifs <;> rfl

/-- Engine after the smoothing block. -/
theorem resetSmoothing_eq (E : Env) (f : Fuser) :
    resetSmoothing E f =
      { f with
        poseFiltered :=
          if f.counter > E.FILTER_WINDOW then
            if f.orbQoSFilterReset.slot 0 ≠ LOST then smoothedPose E f
            else f.poseFilteredPrev
          else f.poseFiltered } := by
  unfold resetSmoothing
  split_ifs <;> rfl

/-- Engine after the fused-pose filtering block. -/
theorem filterFusedPose_eq (E : Env) (f : Fuser) :
    filterFusedPose E f =
      { f with
        poseBuffer :=
          if f.medianFilterReady = true ∧ f.recoverSteps > E.FILTER_WINDOW then
            rotateBuffer E f.poseBuffer f.pose
          else (bufferRawPose E f).poseBuffer
        poseFiltered :=
          if f.medianFilterReady = true ∧ f.recoverSteps > E.FILTER_WINDOW then
            medianFilteredPose E f.poseFiltered (rotateBuffer E f.poseBuffer f.pose)
          else if f.counter > E.FILTER_WINDOW then
            if f.orbQoSFilterReset.slot 0 ≠ LOST then smoothedPose E (bufferRawPose E f)
            else f.poseFilteredPrev
          else f.pose
        medianFilterReady :=
          if f.medianFilterReady = true ∧ f.recoverSteps > E.FILTER_WINDOW then
            f.medianFilterReady
          else (bufferRawPose E f).medianFilterReady } := by
  unfold filterFusedPose
  rw [resetSmoothing_eq]
  have h1 : (bufferRawPose E f).counter = f.counter := rfl
  have h2 : (bufferRawPose E f).orbQoSFilterReset = f.orbQoSFilterReset := rfl
  rw [h1, h2]
  split_ifs <;> rfl

/-- Engine after the entry block of `fuse`. -/
theorem ingest_eq (f : Fuser) (camVO orbVO : Pose) :
    ingest f camVO orbVO =
      { f with
        camQoS := camVO.accuracy
        orbQoS := orbVO.accuracy
        firstCamVO := if f.fuserStatus = Status.UNINITIALIZED then camVO else f.firstCamVO } := by
  unfold ingest
  split_ifs <;> rfl

/-- Engine after the final block of `fuse`. -/
theorem markRunning_eq (f : Fuser) :
    markRunning f =
      { f with
        fuserStatus := Status.RUNNING
        counter := f.counter + 1 } := by
  unfold markRunning
  split_ifs with h
  · rfl
  · cases f with
    | mk a1 a2 a3 a4 a5 a6 a7 a8 a9 a10 a11 a12 a13 a14 a15 a16 a17 a18 a19 a20 a21 a22 a23 a24 a25 =>
      cases a5 with
      | UNINITIALIZED => exact absurd rfl h
      | RUNNING => rfl

/-- The step counter advances by one per call of `fuse`. -/
theorem fuse_counter (E : Env) (f : Fuser) (camVO orbVO : Pose) :
    (fuse E f camVO orbVO).counter = f.counter + 1 := by
  simp only [fuse, fuseThroughFusion, beforeFusion, bufferQoS, sensorFusion, filterFusedPose_eq,
    filterOrbPose_fst, recoverOrbPose_fst, recoveryCheck_eq, ingest_eq, markRunning_eq]

/-- The engine is RUNNING after every call of `fuse`. -/
theorem fuse_fuserStatus (E : Env) (f : Fuser) (camVO orbVO : Pose) :
    (fuse E f camVO orbVO).fuserStatus = Status.RUNNING := by
  simp only [fuse, fuseThroughFusion, beforeFusion, bufferQoS, sensorFusion, filterFusedPose_eq,
    filterOrbPose_fst, recoverOrbPose_fst, recoveryCheck_eq, ingest_eq, markRunning_eq]

/-- The quality history after a call of `fuse`: shifted by one slot, the incoming
quality stored in the last slot. -/
theorem fuse_orbQoSPrev (E : Env) (f : Fuser) (camVO orbVO : Pose) :
    (fuse E f camVO orbVO).orbQoSPrev =
      (shiftLeft f.orbQoSPrev (E.RECOVERY_BUFFER - 1)).assign (E.RECOVERY_BUFFER - 1)
        orbVO.accuracy := by
  simp only [fuse, fuseThroughFusion, beforeFusion, bufferQoS, sensorFusion, filterFusedPose_eq,
    filterOrbPose_fst, recoverOrbPose_fst, recoveryCheck_eq, ingest_eq, markRunning_eq]

/-- The flag `recovered` after a call of `fuse`, from the state before the call and the
incoming secondary quality. -/
theorem fuse_recovered (E : Env) (f : Fuser) (camVO orbVO : Pose) :
    (fuse E f camVO orbVO).recovered =
      if E.RECOVERY_BUFFER < f.counter then
        if lostInHistory E f.orbQoSPrev = true then false
        else if orbVO.accuracy = OK ∧ f.orbQoSPrev.slot 0 = LOST ∧
            okCounter E f.orbQoSPrev = E.RECOVERY_BUFFER - 1 then true
        else f.recovered
      else f.recovered := by
  simp only [fuse, fuseThroughFusion, beforeFusion, bufferQoS, sensorFusion, filterFusedPose_eq,
    filterOrbPose_fst, recoverOrbPose_fst, recoveryCheck_eq, ingest_eq, markRunning_eq,
    transitionFires]

/-- The previous raw fused pose stored by `fuse` is the raw fused pose. -/
theorem fuse_posePrev (E : Env) (f : Fuser) (camVO orbVO : Pose) :
    (fuse E f camVO orbVO).posePrev = (fuse E f camVO orbVO).pose := by
  simp only [fuse, fuseThroughFusion, beforeFusion, bufferQoS, sensorFusion, filterFusedPose_eq,
    filterOrbPose_fst, recoverOrbPose_fst, recoveryCheck_eq, ingest_eq, markRunning_eq]

/-- The previous camera pose stored by `fuse` is the camera pose of the call. -/
theorem fuse_camVOPrev (E : Env) (f : Fuser) (camVO orbVO : Pose) :
    (fuse E f camVO orbVO).camVOPrev = camVO := by
  simp only [fuse, fuseThroughFusion, beforeFusion, bufferQoS, sensorFusion, filterFusedPose_eq,
    filterOrbPose_fst, recoverOrbPose_fst, recoveryCheck_eq, ingest_eq, markRunning_eq]

/-! ### Runs -/

/-- A run starts with its first step. -/
theorem fuseAll_cons (E : Env) (f : Fuser) (io : Pose × Pose) (inputs : List (Pose × Pose)) :
    fuseAll E f (io :: inputs) = fuseAll E (fuse E f io.1 io.2) inputs := rfl

/-- A run ends with its last step. -/
theorem fuseAll_concat (E : Env) (f : Fuser) (inputs : List (Pose × Pose)) (io : Pose × Pose) :
    fuseAll E f (inputs ++ [io]) = fuse E (fuseAll E f inputs) io.1 io.2 := by
  simp [fuseAll, List.foldl_append]

/-- The step counter counts the calls of `fuse`. -/
theorem fuseAll_counter (E : Env) (f : Fuser) (inputs : List (Pose × Pose)) :
    (fuseAll E f inputs).counter = f.counter + inputs.length := by
  induction inputs generalizing f with
  | nil => rfl
  | cons io rest ih =>
    rw [fuseAll_cons, ih, fuse_counter, List.length_cons]
    omega

/-- Slot `i` of the quality history after a call of `fuse`. -/
theorem fuse_history_slot (E : Env) (f : Fuser) (camVO orbVO : Pose) (i : Nat) :
    (fuse E f camVO orbVO).orbQoSPrev.slot i =
      if i < E.RECOVERY_BUFFER - 1 then f.orbQoSPrev.slot (i + 1)
      else if i = E.RECOVERY_BUFFER - 1 then orbVO.accuracy
      else f.orbQoSPrev.slot i := by
  rw [fuse_orbQoSPrev, shiftLeft_assign_slot]

/-- Slot `i < RECOVERY_BUFFER` of the quality history after a run: an older slot of the
history while fewer than `RECOVERY_BUFFER - i` steps were taken, afterwards the
incoming quality of the step that wrote it. -/
theorem fuseAll_history_slot (E : Env) (f : Fuser) (inputs : List (Pose × Pose)) (i : Nat)
    (hi : i < E.RECOVERY_BUFFER) :
    (fuseAll E f inputs).orbQoSPrev.slot i =
      if i + inputs.length < E.RECOVERY_BUFFER then f.orbQoSPrev.slot (i + inputs.length)
      else (inputs.map (fun io => io.2.accuracy)).getD
        (i + inputs.length - E.RECOVERY_BUFFER) LOST := by
  induction inputs generalizing f with
  | nil => simp [fuseAll, hi]
  | cons io rest ih =>
    rw [fuseAll_cons, ih, List.length_cons, List.map_cons]
    by_cases h1 : i + rest.length < E.RECOVERY_BUFFER
    · rw [if_pos h1, fuse_history_slot]
      by_cases h2 : i + (rest.length + 1) < E.RECOVERY_BUFFER
      · rw [if_pos h2, if_pos (by omega)]
        rfl
      · rw [if_neg h2, if_neg (by omega), if_pos (by omega)]
        have h3 : i + (rest.length + 1) - E.RECOVERY_BUFFER = 0 := by omega
        rw [h3]
        rfl
    · rw [if_neg h1, if_neg (by omega)]
      have h3 : i + (rest.length + 1) - E.RECOVERY_BUFFER
          = (i + rest.length - E.RECOVERY_BUFFER) + 1 := by omega
      rw [h3, List.getD_cons_succ]

/-- While at most `RECOVERY_BUFFER` steps are completed before each call, the flag
`recovered` keeps its value. -/
theorem fuseAll_recovered_of_gate_closed (E : Env) (f : Fuser) (inputs : List (Pose × Pose))
    (h : f.counter + inputs.length ≤ E.RECOVERY_BUFFER + 1) :
    (fuseAll E f inputs).recovered = f.recovered := by
  induction inputs generalizing f with
  | nil => rfl
  | cons io rest ih =>
    rw [List.length_cons] at h
    rw [fuseAll_cons, ih _ (by rw [fuse_counter]; omega), fuse_recovered,
      if_neg (by omega)]

/-! ### C6, C7: the recovery transition -/

/-- A history whose slots `1 .. RECOVERY_BUFFER - 1` all hold OK passes the count of the
recovery block. -/
theorem okCounter_of_ok_slots (E : Env) (hist : Buffer Nat)
    (h : ∀ i, 1 ≤ i → i < E.RECOVERY_BUFFER → hist.slot i = OK) :
    okCounter E hist = E.RECOVERY_BUFFER - 1 := by
  unfold okCounter
  have hl : (List.range' 1 (E.RECOVERY_BUFFER - 1)).length = E.RECOVERY_BUFFER - 1 := by simp
  refine Eq.trans (List.countP_eq_length.mpr ?_) hl
  intro i hi
  rw [List.mem_range'_1] at hi
  exact decide_eq_true (h i hi.1 (by omega))

/-- A history whose slots `1 .. RECOVERY_BUFFER - 1` all hold OK does not trigger the
override. -/
theorem lostInHistory_of_ok_slots (E : Env) (hist : Buffer Nat)
    (h : ∀ i, 1 ≤ i → i < E.RECOVERY_BUFFER → hist.slot i = OK) :
    lostInHistory E hist = false := by
  unfold lostInHistory
  rw [List.any_eq_false]
  intro i hi
  rw [List.mem_range'_1] at hi
  rw [h i hi.1 (by omega)]
  decide

/-- A LOST in a slot `1 .. RECOVERY_BUFFER - 1` of the history triggers the override. -/
theorem lostInHistory_of_lost_slot (E : Env) (hist : Buffer Nat) (i : Nat) (h1 : 1 ≤ i)
    (h2 : i < E.RECOVERY_BUFFER) (h : hist.slot i = LOST) :
    lostInHistory E hist = true := by
  unfold lostInHistory
  rw [List.any_eq_true]
  refine ⟨i, ?_, decide_eq_true h⟩
  rw [List.mem_range'_1]
  omega

/-- C6 fails as stated: with `RECOVERY_BUFFER = 2`, after the three steps LOST, OK, OK
on a fresh engine the flag `recovered` is still false. -/
theorem recovery_not_fired_on_fresh_run :
    [stepWith LOST, stepWith OK, stepWith OK].map (fun io => io.2.accuracy)
      = LOST :: List.replicate (exampleEnv 2 5).RECOVERY_BUFFER OK ∧
    (fuseAll (exampleEnv 2 5) (Fuser.fresh (exampleEnv 2 5))
      [stepWith LOST, stepWith OK, stepWith OK]).recovered = false := by
  refine ⟨rfl, ?_⟩
  rw [fuseAll_recovered_of_gate_closed]
  · rfl
  · decide

/-- C6 (amended): on a fresh engine the run LOST, OK x `RECOVERY_BUFFER` leaves
`recovered` false after every step, the last included, because the recovery block only
runs with more than `RECOVERY_BUFFER` completed steps. When one more step of any quality
precedes that run, `recovered` is false after every step before the last and true after
the last: the current quality is OK, the oldest slot is LOST and every other slot is
OK. -/
theorem recovery_fires_after_gate (E : Env) (first lostStep lastStep : Pose × Pose)
    (okSteps : List (Pose × Pose)) (hlen : okSteps.length + 1 = E.RECOVERY_BUFFER)
    (hlost : lostStep.2.accuracy = LOST) (hok : ∀ io ∈ okSteps, io.2.accuracy = OK)
    (hlast : lastStep.2.accuracy = OK) :
    (∀ k, k ≤ E.RECOVERY_BUFFER + 1 →
      (fuseAll E (Fuser.fresh E) ((lostStep :: okSteps ++ [lastStep]).take k)).recovered
        = false) ∧
    (∀ k, k ≤ E.RECOVERY_BUFFER + 1 →
      (fuseAll E (Fuser.fresh E)
        ((first :: lostStep :: okSteps ++ [lastStep]).take k)).recovered = false) ∧
    (fuseAll E (Fuser.fresh E) (first :: lostStep :: okSteps ++ [lastStep])).recovered
      = true := by
  have hgate : ∀ (l : List (Pose × Pose)) (k : Nat), k ≤ E.RECOVERY_BUFFER + 1 →
      (fuseAll E (Fuser.fresh E) (l.take k)).recovered = false := by
    intro l k hk
    rw [fuseAll_recovered_of_gate_closed]
    · rfl
    · have h0 : (Fuser.fresh E).counter = 0 := rfl
      have h1 : (l.take k).length ≤ k := by
        rw [List.length_take]
        exact Nat.min_le_left _ _
      omega
  refine ⟨hgate _, hgate _, ?_⟩
  have hsplit : first :: lostStep :: okSteps ++ [lastStep]
      = (first :: lostStep :: okSteps) ++ [lastStep] := rfl
  have hcount : (fuseAll E (Fuser.fresh E) (first :: lostStep :: okSteps)).counter
      = E.RECOVERY_BUFFER + 1 := by
    rw [fuseAll_counter]
    simp only [List.length_cons]
    have h0 : (Fuser.fresh E).counter = 0 := rfl
    omega
  have hqs : okSteps.map (fun io => io.2.accuracy) = List.replicate okSteps.length OK :=
    List.map_eq_replicate_iff.mpr hok
  have hslot : ∀ i, i < E.RECOVERY_BUFFER →
      (fuseAll E (Fuser.fresh E) (first :: lostStep :: okSteps)).orbQoSPrev.slot i
        = (LOST :: List.replicate okSteps.length OK).getD i LOST := by
    intro i hi
    rw [fuseAll_history_slot E _ _ i hi, if_neg (by simp only [List.length_cons]; omega)]
    have h1 : i + (first :: lostStep :: okSteps).length - E.RECOVERY_BUFFER = i + 1 := by
      simp only [List.length_cons]
      omega
    rw [h1, List.map_cons, List.map_cons, hqs, hlost, List.getD_cons_succ]
  have hold : (fuseAll E (Fuser.fresh E) (first :: lostStep :: okSteps)).orbQoSPrev.slot 0
      = LOST := by
    rw [hslot 0 (by omega)]
    rfl
  have hrest : ∀ i, 1 ≤ i → i < E.RECOVERY_BUFFER →
      (fuseAll E (Fuser.fresh E) (first :: lostStep :: okSteps)).orbQoSPrev.slot i = OK := by
    intro i h1 h2
    obtain ⟨j, rfl⟩ : ∃ j, i = j + 1 := ⟨i - 1, by omega⟩
    have hj : j < okSteps.length := by omega
    rw [hslot _ h2, List.getD_cons_succ, List.getD_eq_getElem?_getD, List.getElem?_replicate,
      if_pos hj]
    rfl
  rw [hsplit, fuseAll_concat, fuse_recovered, hcount, hold,
    lostInHistory_of_ok_slots E _ hrest, okCounter_of_ok_slots E _ hrest, hlast]
  simp

/-- Witness of `recovery_fires_after_gate` with `RECOVERY_BUFFER = 2`: the run
OK, LOST, OK, OK sets `recovered` at its last step. -/
theorem recovery_fires_after_gate_witness :
    (fuseAll (exampleEnv 2 5) (Fuser.fresh (exampleEnv 2 5))
      [stepWith OK, stepWith LOST, stepWith OK, stepWith OK]).recovered = true :=
  (recovery_fires_after_gate (exampleEnv 2 5) (stepWith OK) (stepWith LOST) (stepWith OK)
    [stepWith OK] rfl rfl (by simp [stepWith, poseAt]) rfl).2.2

/-- C7 fails as stated for `RECOVERY_BUFFER = 1`: after the three steps OK, LOST, OK on a
fresh engine the flag `recovered` is true. -/
theorem single_slot_history_recovers :
    [stepWith OK, stepWith LOST, stepWith OK].map (fun io => io.2.accuracy)
      = List.replicate (exampleEnv 1 5).RECOVERY_BUFFER OK ++ [LOST, OK] ∧
    (fuseAll (exampleEnv 1 5) (Fuser.fresh (exampleEnv 1 5))
      [stepWith OK, stepWith LOST, stepWith OK]).recovered = true := by
  refine ⟨rfl, ?_⟩
  have hsplit : [stepWith OK, stepWith LOST, stepWith OK]
      = [stepWith OK, stepWith LOST] ++ [stepWith OK] := rfl
  have hold : (fuseAll (exampleEnv 1 5) (Fuser.fresh (exampleEnv 1 5))
      [stepWith OK, stepWith LOST]).orbQoSPrev.slot 0 = LOST := by
    rw [fuseAll_history_slot (exampleEnv 1 5) _ _ 0 (by decide)]
    rfl
  rw [hsplit, fuseAll_concat, fuse_recovered, fuseAll_counter, hold]
  simp [exampleEnv, Fuser.fresh, lostInHistory, okCounter, stepWith, poseAt]

/-- C7 (amended): for `RECOVERY_BUFFER >= 2`, after a run of `RECOVERY_BUFFER` steps, a
step with secondary quality LOST and one more step on a fresh engine, the flag
`recovered` is false (whatever the qualities of the other steps, OK included). -/
theorem no_recovery_right_after_loss (E : Env) (okSteps : List (Pose × Pose))
    (lostStep lastStep : Pose × Pose) (hRB : 2 ≤ E.RECOVERY_BUFFER)
    (hlen : okSteps.length = E.RECOVERY_BUFFER) (hlost : lostStep.2.accuracy = LOST) :
    (fuseAll E (Fuser.fresh E) (okSteps ++ [lostStep, lastStep])).recovered = false := by
  have hsplit : okSteps ++ [lostStep, lastStep] = (okSteps ++ [lostStep]) ++ [lastStep] := by
    simp
  have hcount : (fuseAll E (Fuser.fresh E) (okSteps ++ [lostStep])).counter
      = E.RECOVERY_BUFFER + 1 := by
    rw [fuseAll_counter, List.length_append, hlen]
    have h0 : (Fuser.fresh E).counter = 0 := rfl
    simp [h0]
  have hslot : (fuseAll E (Fuser.fresh E) (okSteps ++ [lostStep])).orbQoSPrev.slot
      (E.RECOVERY_BUFFER - 1) = LOST := by
    rw [fuseAll_history_slot E _ _ _ (by omega),
      if_neg (by rw [List.length_append, hlen, List.length_singleton]; omega)]
    have h1 : E.RECOVERY_BUFFER - 1 + (okSteps ++ [lostStep]).length - E.RECOVERY_BUFFER
        = okSteps.length := by
      rw [List.length_append, hlen, List.length_singleton]
      omega
    rw [h1, List.map_append, List.getD_eq_getElem?_getD,
      List.getElem?_append_right (by simp)]
    simp [hlost]
  rw [hsplit, fuseAll_concat, fuse_recovered, hcount,
    lostInHistory_of_lost_slot E _ (E.RECOVERY_BUFFER - 1) (by omega) (by omega) hslot]
  simp

/-- Witness of `no_recovery_right_after_loss` with `RECOVERY_BUFFER = 2`: the run
OK, OK, LOST, OK. -/
theorem no_recovery_right_after_loss_witness :
    (fuseAll (exampleEnv 2 5) (Fuser.fresh (exampleEnv 2 5))
      ([stepWith OK, stepWith OK] ++ [stepWith LOST, stepWith OK])).recovered = false :=
  no_recovery_right_after_loss (exampleEnv 2 5) [stepWith OK, stepWith OK] (stepWith LOST)
    (stepWith OK) (by decide) rfl rfl

/-! ### C10: iteration cap of `median_quaternions_weiszfeld` -/

/-- The threshold used by the loop is positive. -/
theorem threshold_pos (maxAngularUpdate : ℚ) : 0 < max maxAngularUpdate epsAngle :=
  lt_of_lt_of_le (by norm_num [epsAngle]) (le_max_right _ _)

/-- The counter `i` never decreases in the loop and ends at most at
`maxIterations + 1` when it starts at or below that value. -/
theorem weiszfeldLoop_counter (E : Env) (Q : List Quat) (p mau : ℚ) (maxIterations : Int) :
    ∀ (n : Nat) (q : Quat) (theta : ℚ) (i : Int), (maxIterations + 1 - i).toNat = n →
      i ≤ (weiszfeldLoop E Q p mau maxIterations q theta i).2 ∧
      (weiszfeldLoop E Q p mau maxIterations q theta i).2 ≤ max i (maxIterations + 1) := by
  intro n
  induction n with
  | zero =>
    intro q theta i hn
    rw [weiszfeldLoop, if_neg (by omega)]
    exact ⟨le_refl _, le_max_left _ _⟩
  | succ n ih =>
    intro q theta i hn
    rw [weiszfeldLoop]
    split_ifs with hc
    · obtain ⟨h1, h2⟩ := ih (weiszfeldBody E Q p q).1 (weiszfeldBody E Q p q).2 (i + 1)
        (by omega)
      refine ⟨by omega, le_trans h2 ?_⟩
      have : i + 1 ≤ maxIterations + 1 := by omega
      rw [max_eq_right this]
      exact le_max_right _ _
    · exact ⟨le_refl _, le_max_left _ _⟩

/-- When no execution of the body brings `theta` down to the threshold, the body is
executed `maxIterations + 1` times. -/
theorem weiszfeldLoop_of_no_convergence (E : Env) (Q : List Quat) (p mau : ℚ)
    (maxIterations : Int) (hbody : ∀ q, mau < (weiszfeldBody E Q p q).2) :
    ∀ (n : Nat) (q : Quat) (theta : ℚ) (i : Int), (maxIterations + 1 - i).toNat = n →
      mau < theta → i ≤ maxIterations + 1 →
      (weiszfeldLoop E Q p mau maxIterations q theta i).2 = maxIterations + 1 := by
  intro n
  induction n with
  | zero =>
    intro q theta i hn _ hi
    rw [weiszfeldLoop, if_neg (by omega)]
    show i = maxIterations + 1
    omega
  | succ n ih =>
    intro q theta i hn hth hi
    rw [weiszfeldLoop, if_pos ⟨hth, by omega⟩]
    exact ih _ _ (i + 1) (by omega) (hbody _) (by omega)

/-- C10: `median_quaternions_weiszfeld` terminates (the model is a total function) and
its loop body runs at most `maxIterations + 1` times, not at most `maxIterations`
times: with `maxIterations = 0` the body runs exactly once, for every batch and every
other parameter. -/
theorem weiszfeld_iteration_cap (E : Env) (Q : List Quat) (p maxAngularUpdate : ℚ)
    (maxIterations : Int) :
    0 ≤ weiszfeldIterations E Q p maxAngularUpdate maxIterations ∧
    weiszfeldIterations E Q p maxAngularUpdate maxIterations ≤ max 0 (maxIterations + 1) ∧
    weiszfeldIterations E Q p maxAngularUpdate 0 = 1 := by
  refine ⟨?_, ?_, ?_⟩
  · exact (weiszfeldLoop_counter E Q p _ maxIterations _ _ _ 0 rfl).1
  · exact (weiszfeldLoop_counter E Q p _ maxIterations _ _ _ 0 rfl).2
  · have hpos := threshold_pos maxAngularUpdate
    unfold weiszfeldIterations weiszfeldRun
    simp only []
    rw [weiszfeldLoop, if_pos ⟨by linarith, le_refl _⟩, weiszfeldLoop,
      if_neg (by rintro ⟨-, h⟩; omega)]
    rfl

/-! ### The state handed to `sensorFusion` and to the fused-pose filter -/

/-- Rotating a buffer keeps its size. -/
theorem rotateBuffer_size (E : Env) (buf : Buffer Pose) (p : Pose) :
    (rotateBuffer E buf p).size = buf.size :=
  shiftLeft_size buf (E.FILTER_WINDOW - 1)

/-- Slot `i` of a rotated buffer. -/
theorem rotateBuffer_slot (E : Env) (buf : Buffer Pose) (p : Pose) (i : Nat) :
    (rotateBuffer E buf p).slot i
      = if i < E.FILTER_WINDOW - 1 then buf.slot (i + 1)
        else if i = E.FILTER_WINDOW - 1 then p else buf.slot i :=
  shiftLeft_assign_slot buf (E.FILTER_WINDOW - 1) i p

/-- Fields of the engine that the blocks before the deltas leave unchanged. -/
theorem beforeFusion_frame (E : Env) (f : Fuser) (camVO orbVO : Pose) :
    (beforeFusion E f camVO orbVO).1.counter = f.counter ∧
    (beforeFusion E f camVO orbVO).1.posePrev = f.posePrev ∧
    (beforeFusion E f camVO orbVO).1.pose = f.pose ∧
    (beforeFusion E f camVO orbVO).1.poseFiltered = f.poseFiltered ∧
    (beforeFusion E f camVO orbVO).1.poseFilteredPrev = f.poseFilteredPrev ∧
    (beforeFusion E f camVO orbVO).1.poseBuffer = f.poseBuffer ∧
    (beforeFusion E f camVO orbVO).1.fuserStatus = f.fuserStatus ∧
    (beforeFusion E f camVO orbVO).1.camVOPrev = f.camVOPrev ∧
    (beforeFusion E f camVO orbVO).1.camQoS = camVO.accuracy ∧
    (beforeFusion E f camVO orbVO).1.alphaBlending = f.alphaBlending ∧
    (beforeFusion E f camVO orbVO).1.alphaWeight = f.alphaWeight ∧
    (beforeFusion E f camVO orbVO).1.REDUCTION_FACTOR = f.REDUCTION_FACTOR ∧
    (beforeFusion E f camVO orbVO).1.orbQoSFilterReset = f.orbQoSFilterReset ∧
    (beforeFusion E f camVO orbVO).1.orbQoSPrev = f.orbQoSPrev := by
  simp only [beforeFusion, filterOrbPose_fst, recoverOrbPose_fst, recoveryCheck_eq, ingest_eq,
    and_self]

/-- The flag `medianFilterReady` after the filtering of the secondary pose. -/
theorem beforeFusion_medianFilterReady (E : Env) (f : Fuser) (camVO orbVO : Pose) :
    (beforeFusion E f camVO orbVO).1.medianFilterReady =
      if f.medianFilterReady = true then f.medianFilterReady
      else if f.orbPoseBuffer.size + 1 = E.FILTER_WINDOW then true
      else f.medianFilterReady := by
  simp only [beforeFusion, filterOrbPose_fst, recoverOrbPose_fst, recoveryCheck_eq, ingest_eq,
    Buffer.push_back]

/-- Size of `orbPoseBuffer` after the filtering of the secondary pose. -/
theorem beforeFusion_orbPoseBuffer_size (E : Env) (f : Fuser) (camVO orbVO : Pose) :
    (beforeFusion E f camVO orbVO).1.orbPoseBuffer.size =
      if f.medianFilterReady = true then f.orbPoseBuffer.size
      else f.orbPoseBuffer.size + 1 := by
  have hm : (recoverOrbPose E (recoveryCheck E (ingest f camVO orbVO)) orbVO).1.medianFilterReady
      = f.medianFilterReady := by
    simp only [recoverOrbPose_fst, recoveryCheck_eq, ingest_eq]
  have hb : (recoverOrbPose E (recoveryCheck E (ingest f camVO orbVO)) orbVO).1.orbPoseBuffer
      = f.orbPoseBuffer := by
    simp only [recoverOrbPose_fst, recoveryCheck_eq, ingest_eq]
  simp only [beforeFusion, filterOrbPose_fst, hm, hb]
  by_cases h : f.medianFilterReady = true
  · rw [if_pos h, if_pos h, rotateBuffer_size]
  · rw [if_neg h, if_neg h]
    rfl

/-- With an incoming secondary quality LOST and `recovered` false, the recovery block
leaves `recovered` false, the effective quality LOST and `recoverSteps` unchanged. -/
theorem beforeFusion_of_lost (E : Env) (f : Fuser) (camVO orbVO : Pose)
    (ho : orbVO.accuracy = LOST) (hr : f.recovered = false) :
    (beforeFusion E f camVO orbVO).1.recovered = false ∧
    (beforeFusion E f camVO orbVO).1.orbQoS = LOST ∧
    (beforeFusion E f camVO orbVO).1.recoverSteps = f.recoverSteps := by
  have hi1 : (ingest f camVO orbVO).orbQoS = LOST := by
    rw [ingest_eq]
    exact ho
  have hi2 : (ingest f camVO orbVO).recovered = false := by
    rw [ingest_eq]
    exact hr
  have hnf : ¬ transitionFires E (ingest f camVO orbVO) := fun h =>
    absurd (h.1.symm.trans hi1) (by decide)
  have hR1 : (recoveryCheck E (ingest f camVO orbVO)).recovered = false := by
    rw [recoveryCheck_eq]
    simp only [hnf, hi2, if_false, ite_self]
  have hR2 : (recoveryCheck E (ingest f camVO orbVO)).orbQoS = LOST := by
    rw [recoveryCheck_eq]
    simp only [hi1, ite_self]
  have hR3 : (recoveryCheck E (ingest f camVO orbVO)).recoverSteps = f.recoverSteps := by
    simp only [recoveryCheck_eq, ingest_eq]
  simp only [beforeFusion, filterOrbPose_fst, recoverOrbPose_fst, hR1, hR2, hR3,
    Bool.false_eq_true, if_false, and_self]
/-- The camera delta only reads the engine status and the previous camera pose. -/
theorem cameraDelta_congr (f g : Fuser) (camVO : Pose) (h1 : g.fuserStatus = f.fuserStatus)
    (h2 : g.camVOPrev = f.camVOPrev) : cameraDelta g camVO = cameraDelta f camVO := by
  unfold cameraDelta
  rw [h1, h2]

/-- The raw fused pose computed by a call of `fuse` is the one computed by
`sensorFusion`. -/
theorem fuse_pose (E : Env) (f : Fuser) (camVO orbVO : Pose) :
    (fuse E f camVO orbVO).pose = (fuseThroughFusion E f camVO orbVO).1.pose := by
  simp only [fuse, bufferQoS, markRunning_eq, filterFusedPose_eq]

/-- The published pose after a call of `fuse` is the one left by the fused-pose
filtering block. -/
theorem fuse_poseFiltered (E : Env) (f : Fuser) (camVO orbVO : Pose) :
    (fuse E f camVO orbVO).poseFiltered
      = (filterFusedPose E (fuseThroughFusion E f camVO orbVO).1).poseFiltered := by
  simp only [fuse, bufferQoS, markRunning_eq]

/-- With an incoming secondary quality LOST and `recovered` false, the raw fused pose
advances by the camera delta alone. -/
theorem fuseThroughFusion_pose_of_lost (E : Env) (f : Fuser) (camVO orbVO : Pose)
    (ho : orbVO.accuracy = LOST) (hr : f.recovered = false) :
    (fuseThroughFusion E f camVO orbVO).1.pose.translation =
      ⟨f.posePrev.translation.x + (cameraDelta f camVO).X,
       f.posePrev.translation.y + (cameraDelta f camVO).Y,
       f.posePrev.translation.z + (cameraDelta f camVO).Z⟩ ∧
    (fuseThroughFusion E f camVO orbVO).1.pose.rotation =
      ⟨f.posePrev.rotation.w + (cameraDelta f camVO).WQ,
       f.posePrev.rotation.x + (cameraDelta f camVO).XQ,
       f.posePrev.rotation.y + (cameraDelta f camVO).YQ,
       f.posePrev.rotation.z + (cameraDelta f camVO).ZQ⟩ := by
  obtain ⟨-, hp, -, -, -, -, hs, hc, -⟩ := beforeFusion_frame E f camVO orbVO
  obtain ⟨-, hq, -⟩ := beforeFusion_of_lost E f camVO orbVO ho hr
  have hd := cameraDelta_congr f (beforeFusion E f camVO orbVO).1 camVO hs hc
  simp only [fuseThroughFusion, sensorFusion, sensorFusionAlpha, blendedDelta,
    Pose.setTranslation, Pose.setRotation, hq, hp, hd, if_true, mul_one, sub_self, mul_zero,
    add_zero, and_self]

/-! ### Runs with the secondary stream LOST -/

/-- One step with secondary quality LOST: the raw fused pose becomes the camera pose. -/
theorem fuse_tracks_camera (E : Env) (f : Fuser) (camVO orbVO : Pose) (h : TracksCamera f)
    (ho : orbVO.accuracy = LOST) :
    (fuse E f camVO orbVO).pose.translation = camVO.translation ∧
    (fuse E f camVO orbVO).pose.rotation = camVO.rotation ∧
    TracksCamera (fuse E f camVO orbVO) := by
  obtain ⟨hr, hs⟩ := h
  obtain ⟨ht, hq⟩ := fuseThroughFusion_pose_of_lost E f camVO orbVO ho hr
  have hpt : (fuse E f camVO orbVO).pose.translation = camVO.translation := by
    rw [fuse_pose, ht]
    rcases hs with ⟨h1, h2, -⟩ | ⟨h1, h2, -⟩
    · simp [cameraDelta, h1, h2]
    · have h3 : f.fuserStatus ≠ Status.UNINITIALIZED := by
        rw [h1]
        decide
      simp [cameraDelta, h3, h2]
  have hpq : (fuse E f camVO orbVO).pose.rotation = camVO.rotation := by
    rw [fuse_pose, hq]
    rcases hs with ⟨h1, -, h2⟩ | ⟨h1, -, h2⟩
    · simp [cameraDelta, h1, h2]
    · have h3 : f.fuserStatus ≠ Status.UNINITIALIZED := by
        rw [h1]
        decide
      simp [cameraDelta, h3, h2]
  refine ⟨hpt, hpq, ?_, Or.inr ⟨fuse_fuserStatus E f camVO orbVO, ?_, ?_⟩⟩
  · rw [fuse_recovered, hr, ho]
    simp
  · rw [fuse_posePrev, fuse_camVOPrev, hpt]
  · rw [fuse_posePrev, fuse_camVOPrev, hpq]

/-- A run with every secondary quality LOST keeps the raw fused pose on the camera. -/
theorem fuseAll_tracks_camera (E : Env) (f : Fuser) (inputs : List (Pose × Pose))
    (h : TracksCamera f) (hlost : ∀ io ∈ inputs, io.2.accuracy = LOST) :
    TracksCamera (fuseAll E f inputs) := by
  induction inputs generalizing f with
  | nil => exact h
  | cons io rest ih =>
    rw [fuseAll_cons]
    exact ih _ (fuse_tracks_camera E f io.1 io.2 h (hlost io (List.mem_cons_self _ _))).2.2
      (fun x hx => hlost x (List.mem_cons_of_mem _ hx))

/-- A fresh engine tracks the camera, whatever its blending parameters. -/
theorem freshWith_tracksCamera (E : Env) (a w : ℚ) : TracksCamera (Fuser.freshWith E a w) :=
  ⟨rfl, Or.inl ⟨rfl, rfl, rfl⟩⟩

/-- A fresh engine is warming up with empty buffers. -/
theorem freshWith_warmingUp (E : Env) (a w : ℚ) : WarmingUp (Fuser.freshWith E a w) 0 :=
  ⟨rfl, rfl, rfl, rfl⟩

/-! ### Warm-up of the pose buffers -/

/-- The flag `medianFilterReady` after a call of `fuse`. -/
theorem fuse_medianFilterReady (E : Env) (f : Fuser) (camVO orbVO : Pose) :
    (fuse E f camVO orbVO).medianFilterReady
      = (filterFusedPose E (fuseThroughFusion E f camVO orbVO).1).medianFilterReady := by
  simp only [fuse, bufferQoS, markRunning_eq]

/-- The fused-pose buffer after a call of `fuse`. -/
theorem fuse_poseBuffer (E : Env) (f : Fuser) (camVO orbVO : Pose) :
    (fuse E f camVO orbVO).poseBuffer
      = (filterFusedPose E (fuseThroughFusion E f camVO orbVO).1).poseBuffer := by
  simp only [fuse, bufferQoS, markRunning_eq]

/-- The secondary-pose buffer after a call of `fuse`. -/
theorem fuse_orbPoseBuffer (E : Env) (f : Fuser) (camVO orbVO : Pose) :
    (fuse E f camVO orbVO).orbPoseBuffer = (beforeFusion E f camVO orbVO).1.orbPoseBuffer := by
  simp only [fuse, bufferQoS, markRunning_eq, filterFusedPose_eq, fuseThroughFusion,
    sensorFusion]

/-- The count `recoverSteps` after a call of `fuse`. -/
theorem fuse_recoverSteps (E : Env) (f : Fuser) (camVO orbVO : Pose) :
    (fuse E f camVO orbVO).recoverSteps = (beforeFusion E f camVO orbVO).1.recoverSteps := by
  simp only [fuse, bufferQoS, markRunning_eq, filterFusedPose_eq, fuseThroughFusion,
    sensorFusion]

/-- A warm-up step that does not fill the buffers: both buffers grow by one pose (the
fused-pose buffer by the raw fused pose of the step), the median filter stays off and
the raw fused pose is published. -/
theorem fuse_warmingUp (E : Env) (f : Fuser) (camVO orbVO : Pose) (n : Nat)
    (h : WarmingUp f n) (hn : n + 1 < E.FILTER_WINDOW) :
    WarmingUp (fuse E f camVO orbVO) (n + 1) ∧
    (fuse E f camVO orbVO).poseFiltered = (fuse E f camVO orbVO).pose ∧
    (fuse E f camVO orbVO).poseBuffer = f.poseBuffer.push_back (fuse E f camVO orbVO).pose := by
  obtain ⟨hm, ho, hp, hc⟩ := h
  obtain ⟨hBc, -, -, -, -, hBp, -⟩ := beforeFusion_frame E f camVO orbVO
  have hBm : (beforeFusion E f camVO orbVO).1.medianFilterReady = false := by
    rw [beforeFusion_medianFilterReady, hm, ho]
    simp
    omega
  have hTm : (fuseThroughFusion E f camVO orbVO).1.medianFilterReady = false := hBm
  have hTc : (fuseThroughFusion E f camVO orbVO).1.counter = n := hBc.trans hc
  have hTp : (fuseThroughFusion E f camVO orbVO).1.poseBuffer = f.poseBuffer := hBp
  have hraw : (bufferRawPose E (fuseThroughFusion E f camVO orbVO).1).poseBuffer
      = f.poseBuffer.push_back (fuseThroughFusion E f camVO orbVO).1.pose := by
    unfold bufferRawPose
    simp only []
    rw [hTp, if_pos (by omega)]
  have hrawm : (bufferRawPose E (fuseThroughFusion E f camVO orbVO).1).medianFilterReady
      = false := by
    have h1 := hraw
    unfold bufferRawPose at h1 ⊢
    simp only [] at h1 ⊢
    rw [h1, hTm, if_neg]
    show ¬ f.poseBuffer.size + 1 = E.FILTER_WINDOW
    omega
  have hbuf : (fuse E f camVO orbVO).poseBuffer
      = f.poseBuffer.push_back (fuse E f camVO orbVO).pose := by
    rw [fuse_poseBuffer, fuse_pose, filterFusedPose_eq]
    simp only [hTm, Bool.false_eq_true, false_and, if_false, hraw]
  refine ⟨⟨?_, ?_, ?_, ?_⟩, ?_, hbuf⟩
  · rw [fuse_medianFilterReady, filterFusedPose_eq]
    simp only [hTm, Bool.false_eq_true, false_and, if_false, hrawm]
  · rw [fuse_orbPoseBuffer, beforeFusion_orbPoseBuffer_size, hm, ho]
    simp
  · rw [hbuf]
    show f.poseBuffer.size + 1 = n + 1
    rw [hp]
  · rw [fuse_counter, hc]
  · rw [fuse_poseFiltered, fuse_pose, filterFusedPose_eq]
    simp only [hTm, Bool.false_eq_true, false_and, if_false, hTc]
    rw [if_neg (by omega)]

/-- During the warm-up both buffers hold one pose per completed step. -/
theorem fuseAll_warmingUp (E : Env) (f : Fuser) (inputs : List (Pose × Pose)) (n : Nat)
    (h : WarmingUp f n) (hn : n + inputs.length < E.FILTER_WINDOW) :
    WarmingUp (fuseAll E f inputs) (n + inputs.length) := by
  induction inputs generalizing f n with
  | nil => exact h
  | cons io rest ih =>
    rw [List.length_cons] at hn
    rw [fuseAll_cons, List.length_cons,
      show n + (rest.length + 1) = (n + 1) + rest.length by omega]
    exact ih _ (n + 1) (fuse_warmingUp E f io.1 io.2 n h (by omega)).1 (by omega)

/-- With secondary quality LOST and `recovered` false, `recoverSteps` keeps its value. -/
theorem fuse_recoverSteps_of_lost (E : Env) (f : Fuser) (camVO orbVO : Pose)
    (ho : orbVO.accuracy = LOST) (hr : f.recovered = false) :
    (fuse E f camVO orbVO).recoverSteps = f.recoverSteps := by
  rw [fuse_recoverSteps, (beforeFusion_of_lost E f camVO orbVO ho hr).2.2]

/-- A run with every secondary quality LOST keeps `recoverSteps`. -/
theorem fuseAll_recoverSteps_of_lost (E : Env) (f : Fuser) (inputs : List (Pose × Pose))
    (h : TracksCamera f) (hlost : ∀ io ∈ inputs, io.2.accuracy = LOST) :
    (fuseAll E f inputs).recoverSteps = f.recoverSteps := by
  induction inputs generalizing f with
  | nil => rfl
  | cons io rest ih =>
    have ho := hlost io (List.mem_cons_self _ _)
    rw [fuseAll_cons, ih _ (fuse_tracks_camera E f io.1 io.2 h ho).2.2
      (fun x hx => hlost x (List.mem_cons_of_mem _ hx)),
      fuse_recoverSteps_of_lost E f io.1 io.2 ho h.1]

/-- A step taken with secondary quality LOST, `recovered` false and
`recoverSteps > FILTER_WINDOW` in which the median filter is ready once the secondary
pose is buffered (it was ready before, or this step fills `orbPoseBuffer`): the fused-pose
block takes its median branch, which rotates `poseBuffer` without changing its size. -/
theorem fuse_filtered_of_lost (E : Env) (f : Fuser) (camVO orbVO : Pose)
    (hready : f.medianFilterReady = true ∨ f.orbPoseBuffer.size + 1 = E.FILTER_WINDOW)
    (ho : orbVO.accuracy = LOST) (hr : f.recovered = false)
    (hs : E.FILTER_WINDOW < f.recoverSteps) :
    (fuse E f camVO orbVO).medianFilterReady = true ∧
    (fuse E f camVO orbVO).poseBuffer
      = rotateBuffer E f.poseBuffer (fuse E f camVO orbVO).pose ∧
    (fuse E f camVO orbVO).poseFiltered
      = medianFilteredPose E f.poseFiltered
          (rotateBuffer E f.poseBuffer (fuse E f camVO orbVO).pose) := by
  obtain ⟨-, -, -, hBf, -, hBp, -⟩ := beforeFusion_frame E f camVO orbVO
  have hBm : (beforeFusion E f camVO orbVO).1.medianFilterReady = true := by
    rw [beforeFusion_medianFilterReady]
    rcases hready with h | h
    · rw [if_pos h, h]
    · by_cases h1 : f.medianFilterReady = true
      · rw [if_pos h1, h1]
      · rw [if_neg h1, if_pos h]
  have hTm : (fuseThroughFusion E f camVO orbVO).1.medianFilterReady = true := hBm
  have hTp : (fuseThroughFusion E f camVO orbVO).1.poseBuffer = f.poseBuffer := hBp
  have hTf : (fuseThroughFusion E f camVO orbVO).1.poseFiltered = f.poseFiltered := hBf
  have hTs : (fuseThroughFusion E f camVO orbVO).1.recoverSteps > E.FILTER_WINDOW := by
    show (beforeFusion E f camVO orbVO).1.recoverSteps > E.FILTER_WINDOW
    rw [(beforeFusion_of_lost E f camVO orbVO ho hr).2.2]
    exact hs
  have hcond : (fuseThroughFusion E f camVO orbVO).1.medianFilterReady = true ∧
      (fuseThroughFusion E f camVO orbVO).1.recoverSteps > E.FILTER_WINDOW := ⟨hTm, hTs⟩
  refine ⟨?_, ?_, ?_⟩
  · rw [fuse_medianFilterReady, filterFusedPose_eq]
    simp only [if_pos hcond]
    exact hTm
  · rw [fuse_poseBuffer, fuse_pose, filterFusedPose_eq]
    simp only [if_pos hcond]
    rw [hTp]
  · rw [fuse_poseFiltered, fuse_pose, filterFusedPose_eq]
    simp only [if_pos hcond]
    rw [hTp, hTf]

/-! ### C2: camera-only trajectory -/

/-- C2 fails as stated: with `FILTER_WINDOW = 4`, camera quality OK and secondary quality
LOST at every step, and the camera at `x = 1, 2, ..., 7`, the pose published after
step 7 is the output of the median filter over the last four raw fused poses, at
`x = 11/2`, while the camera pose is at `x = 7`. -/
theorem published_pose_is_filtered :
    (∀ io ∈ cameraOnlyRun, io.1.accuracy = OK ∧ io.2.accuracy = LOST) ∧
    (getFusedPose (fuseAll (exampleEnv 3 4) (Fuser.fresh (exampleEnv 3 4))
      cameraOnlyRun)).translation.x = 11 / 2 ∧
    (poseAt 7 OK).translation.x = 7 := by
  refine ⟨by simp [cameraOnlyRun, poseAt], ?_, rfl⟩
  have hlost : ∀ io ∈ [(poseAt 1 OK, poseAt 0 LOST), (poseAt 2 OK, poseAt 0 LOST),
      (poseAt 3 OK, poseAt 0 LOST)], io.2.accuracy = LOST := by
    simp [poseAt]
  have hw3 := fuseAll_warmingUp (exampleEnv 3 4) _
    [(poseAt 1 OK, poseAt 0 LOST), (poseAt 2 OK, poseAt 0 LOST), (poseAt 3 OK, poseAt 0 LOST)]
    0 (freshWith_warmingUp (exampleEnv 3 4) (3 / 4) (7 / 10)) (by decide)
  have ht3 := fuseAll_tracks_camera (exampleEnv 3 4) _ _
    (freshWith_tracksCamera (exampleEnv 3 4) (3 / 4) (7 / 10)) hlost
  have hs3 := fuseAll_recoverSteps_of_lost (exampleEnv 3 4) _ _
    (freshWith_tracksCamera (exampleEnv 3 4) (3 / 4) (7 / 10)) hlost
  have hfresh : Fuser.fresh (exampleEnv 3 4)
      = Fuser.freshWith (exampleEnv 3 4) (3 / 4) (7 / 10) := rfl
  have hsplit : cameraOnlyRun
      = [(poseAt 1 OK, poseAt 0 LOST), (poseAt 2 OK, poseAt 0 LOST),
          (poseAt 3 OK, poseAt 0 LOST)] ++ [(poseAt 4 OK, poseAt 0 LOST)]
        ++ [(poseAt 5 OK, poseAt 0 LOST)] ++ [(poseAt 6 OK, poseAt 0 LOST)]
        ++ [(poseAt 7 OK, poseAt 0 LOST)] := rfl
  unfold getFusedPose
  rw [hfresh, hsplit, fuseAll_concat, fuseAll_concat, fuseAll_concat, fuseAll_concat]
  simp only []
  generalize fuseAll (exampleEnv 3 4) (Fuser.freshWith (exampleEnv 3 4) (3 / 4) (7 / 10))
    [(poseAt 1 OK, poseAt 0 LOST), (poseAt 2 OK, poseAt 0 LOST),
      (poseAt 3 OK, poseAt 0 LOST)] = g3 at hw3 ht3 hs3
  have hr3 : (exampleEnv 3 4).FILTER_WINDOW < g3.recoverSteps := by
    rw [hs3]
    decide
  have hk3 : TracksCamera g3 := ht3
  have hy3 : g3.medianFilterReady = true ∨
      g3.orbPoseBuffer.size + 1 = (exampleEnv 3 4).FILTER_WINDOW :=
    Or.inr (by rw [hw3.2.1]; rfl)
  -- step 4
  have ht4 := fuse_tracks_camera (exampleEnv 3 4) g3 (poseAt 4 OK) (poseAt 0 LOST) hk3 rfl
  have hf4 := fuse_filtered_of_lost (exampleEnv 3 4) g3 (poseAt 4 OK) (poseAt 0 LOST) hy3 rfl hk3.1 hr3
  have hr4 : (exampleEnv 3 4).FILTER_WINDOW
      < (fuse (exampleEnv 3 4) g3 (poseAt 4 OK) (poseAt 0 LOST)).recoverSteps := by
    rw [fuse_recoverSteps_of_lost _ _ _ _ rfl hk3.1]
    exact hr3
  generalize fuse (exampleEnv 3 4) g3 (poseAt 4 OK) (poseAt 0 LOST) = g4 at ht4 hf4 hr4
  have hk4 : TracksCamera g4 := ht4.2.2
  have hy4 : g4.medianFilterReady = true ∨
      g4.orbPoseBuffer.size + 1 = (exampleEnv 3 4).FILTER_WINDOW := Or.inl hf4.1
  have h4 : g4.pose.translation.x = 4 := by
    rw [ht4.1]
    rfl
  -- step 5
  have ht5 := fuse_tracks_camera (exampleEnv 3 4) g4 (poseAt 5 OK) (poseAt 0 LOST) hk4 rfl
  have hf5 := fuse_filtered_of_lost (exampleEnv 3 4) g4 (poseAt 5 OK) (poseAt 0 LOST) hy4 rfl hk4.1 hr4
  have hr5 : (exampleEnv 3 4).FILTER_WINDOW
      < (fuse (exampleEnv 3 4) g4 (poseAt 5 OK) (poseAt 0 LOST)).recoverSteps := by
    rw [fuse_recoverSteps_of_lost _ _ _ _ rfl hk4.1]
    exact hr4
  generalize fuse (exampleEnv 3 4) g4 (poseAt 5 OK) (poseAt 0 LOST) = g5 at ht5 hf5 hr5
  have hk5 : TracksCamera g5 := ht5.2.2
  have hy5 : g5.medianFilterReady = true ∨
      g5.orbPoseBuffer.size + 1 = (exampleEnv 3 4).FILTER_WINDOW := Or.inl hf5.1
  have h5 : g5.pose.translation.x = 5 := by
    rw [ht5.1]
    rfl
  -- step 6
  have ht6 := fuse_tracks_camera (exampleEnv 3 4) g5 (poseAt 6 OK) (poseAt 0 LOST) hk5 rfl
  have hf6 := fuse_filtered_of_lost (exampleEnv 3 4) g5 (poseAt 6 OK) (poseAt 0 LOST) hy5 rfl hk5.1 hr5
  have hr6 : (exampleEnv 3 4).FILTER_WINDOW
      < (fuse (exampleEnv 3 4) g5 (poseAt 6 OK) (poseAt 0 LOST)).recoverSteps := by
    rw [fuse_recoverSteps_of_lost _ _ _ _ rfl hk5.1]
    exact hr5
  generalize fuse (exampleEnv 3 4) g5 (poseAt 6 OK) (poseAt 0 LOST) = g6 at ht6 hf6 hr6
  have hk6 : TracksCamera g6 := ht6.2.2
  have hy6 : g6.medianFilterReady = true ∨
      g6.orbPoseBuffer.size + 1 = (exampleEnv 3 4).FILTER_WINDOW := Or.inl hf6.1
  have h6 : g6.pose.translation.x = 6 := by
    rw [ht6.1]
    rfl
  -- step 7
  have ht7 := fuse_tracks_camera (exampleEnv 3 4) g6 (poseAt 7 OK) (poseAt 0 LOST) hk6 rfl
  have hf7 := fuse_filtered_of_lost (exampleEnv 3 4) g6 (poseAt 7 OK) (poseAt 0 LOST) hy6 rfl hk6.1 hr6
  have h7 : (fuse (exampleEnv 3 4) g6 (poseAt 7 OK) (poseAt 0 LOST)).pose.translation.x = 7 := by
    rw [ht7.1]
    rfl
  rw [hf7.2.2, hf6.2.1, hf5.2.1, hf4.2.1]
  have hFW : (exampleEnv 3 4).FILTER_WINDOW = 4 := rfl
  simp only [medianFilteredPose, medianTranslation, windowSamples, Pose.setTranslation,
    Pose.setRotationQ, hFW, List.range_succ, List.range_zero, List.nil_append,
    List.cons_append, List.map_cons, List.map_nil, rotateBuffer_slot]
  norm_num [h4, h5, h6, h7, medianOfSamples, MedianFilter.addSample, MedianFilter.getMedian,
    List.insertionSort, List.orderedInsert]

/-- C2 (amended): on a fresh engine with any blending parameters, in a run whose
secondary poses all have quality LOST (whatever the camera quality), after every step
the raw fused pose equals the camera pose of that step, translation and rotation, and
for every step before step `FILTER_WINDOW` the pose returned by `getFusedPose` equals it
as well (from step `FILTER_WINDOW` on the published pose is the output of the median
filter over the fused-pose window). -/
theorem camera_only_trajectory (E : Env) (alphaBlending alphaWeight : ℚ)
    (inputs : List (Pose × Pose)) (camVO orbVO : Pose)
    (hlost : ∀ io ∈ inputs, io.2.accuracy = LOST) (ho : orbVO.accuracy = LOST) :
    (fuseAll E (Fuser.freshWith E alphaBlending alphaWeight)
      (inputs ++ [(camVO, orbVO)])).pose.translation = camVO.translation ∧
    (fuseAll E (Fuser.freshWith E alphaBlending alphaWeight)
      (inputs ++ [(camVO, orbVO)])).pose.rotation = camVO.rotation ∧
    (inputs.length + 1 < E.FILTER_WINDOW →
      (getFusedPose (fuseAll E (Fuser.freshWith E alphaBlending alphaWeight)
        (inputs ++ [(camVO, orbVO)]))).translation = camVO.translation ∧
      (getFusedPose (fuseAll E (Fuser.freshWith E alphaBlending alphaWeight)
        (inputs ++ [(camVO, orbVO)]))).rotation = camVO.rotation) := by
  have ht := fuseAll_tracks_camera E _ inputs
    (freshWith_tracksCamera E alphaBlending alphaWeight) hlost
  have hstep := fuse_tracks_camera E _ camVO orbVO ht ho
  rw [fuseAll_concat]
  refine ⟨hstep.1, hstep.2.1, ?_⟩
  intro hn
  have hw := fuseAll_warmingUp E _ inputs 0 (freshWith_warmingUp E alphaBlending alphaWeight)
    (by omega)
  have hpub := (fuse_warmingUp E _ camVO orbVO _ hw (by omega)).2.1
  unfold getFusedPose
  rw [hpub]
  exact ⟨hstep.1, hstep.2.1⟩

/-- Witness of `camera_only_trajectory` with `FILTER_WINDOW = 5`: second step of a run,
camera at `x = 2`. -/
theorem camera_only_trajectory_witness :
    (getFusedPose (fuseAll (exampleEnv 3 5) (Fuser.freshWith (exampleEnv 3 5) (1 / 2) (1 / 3))
      ([(poseAt 1 OK, poseAt 0 LOST)] ++ [(poseAt 2 OK, poseAt 7 LOST)]))).translation
      = (poseAt 2 OK).translation :=
  ((camera_only_trajectory (exampleEnv 3 5) (1 / 2) (1 / 3) [(poseAt 1 OK, poseAt 0 LOST)]
    (poseAt 2 OK) (poseAt 7 LOST) (by simp [poseAt]) rfl).2.2 (by decide)).1

/-! ### C9: size of the pose buffers -/

/-- C9, the code at the failing input: after `FILTER_WINDOW` steps with secondary quality
LOST on a fresh engine, `medianFilterReady` is true and `orbPoseBuffer` holds
`FILTER_WINDOW` poses, but `poseBuffer` holds only `FILTER_WINDOW - 1`: the step that
filled `orbPoseBuffer` took the median branch of the fused-pose block, which indexes
`poseBuffer[FILTER_WINDOW-1]` and does not extend the buffer. -/
theorem poseBuffer_short_when_ready (E : Env) (inputs : List (Pose × Pose))
    (hFW : 1 ≤ E.FILTER_WINDOW) (hlen : inputs.length = E.FILTER_WINDOW)
    (hlost : ∀ io ∈ inputs, io.2.accuracy = LOST) :
    (fuseAll E (Fuser.fresh E) inputs).medianFilterReady = true ∧
    (fuseAll E (Fuser.fresh E) inputs).orbPoseBuffer.size = E.FILTER_WINDOW ∧
    (fuseAll E (Fuser.fresh E) inputs).poseBuffer.size = E.FILTER_WINDOW - 1 := by
  have hne : inputs ≠ [] := by
    intro h
    rw [h] at hlen
    simp at hlen
    omega
  obtain ⟨init, last, rfl⟩ : ∃ init last, inputs = init ++ [last] :=
    ⟨inputs.dropLast, inputs.getLast hne, (List.dropLast_append_getLast hne).symm⟩
  rw [List.length_append, List.length_singleton] at hlen
  have hl1 : ∀ io ∈ init, io.2.accuracy = LOST := fun io hio =>
    hlost io (List.mem_append_left _ hio)
  have hl2 : last.2.accuracy = LOST := hlost last (by simp)
  have hfresh : Fuser.fresh E = Fuser.freshWith E (3 / 4) (7 / 10) := rfl
  have hw := fuseAll_warmingUp E _ init 0 (freshWith_warmingUp E (3 / 4) (7 / 10)) (by omega)
  have ht := fuseAll_tracks_camera E _ init (freshWith_tracksCamera E (3 / 4) (7 / 10)) hl1
  have hs := fuseAll_recoverSteps_of_lost E _ init
    (freshWith_tracksCamera E (3 / 4) (7 / 10)) hl1
  have hf := fuse_filtered_of_lost E _ last.1 last.2 (Or.inr (by rw [hw.2.1]; omega)) hl2 ht.1
    (by rw [hs]; exact Nat.lt_succ_self _)
  rw [hfresh, fuseAll_concat]
  refine ⟨hf.1, ?_, ?_⟩
  · rw [fuse_orbPoseBuffer, beforeFusion_orbPoseBuffer_size, hw.1, hw.2.1]
    simp
    omega
  · rw [hf.2.1, rotateBuffer_size, hw.2.2.1]
    omega

/-- Witness of `poseBuffer_short_when_ready` with `FILTER_WINDOW = 2`: two steps. -/
theorem poseBuffer_short_when_ready_witness :
    (fuseAll (exampleEnv 3 2) (Fuser.fresh (exampleEnv 3 2))
      [stepWith LOST, stepWith LOST]).medianFilterReady = true ∧
    (fuseAll (exampleEnv 3 2) (Fuser.fresh (exampleEnv 3 2))
      [stepWith LOST, stepWith LOST]).orbPoseBuffer.size = 2 ∧
    (fuseAll (exampleEnv 3 2) (Fuser.fresh (exampleEnv 3 2))
      [stepWith LOST, stepWith LOST]).poseBuffer.size = 1 :=
  poseBuffer_short_when_ready (exampleEnv 3 2) [stepWith LOST, stepWith LOST] (by decide) rfl
    (by simp [stepWith, poseAt])

/-! ### C8: sign of the published rotation -/

/-- The sign fix `t_qfix` yields a non-negative scalar part. -/
theorem t_qfix_w_nonneg (q : Quat) : 0 ≤ (t_qfix q).w := by
  unfold t_qfix
  split_ifs with h
  · show 0 ≤ -q.w
    linarith
  · exact not_lt.mp h

/-- One execution of the loop body either keeps the estimate or leaves one with a
non-negative scalar part. -/
theorem weiszfeldBody_sign (E : Env) (Q : List Quat) (p : ℚ) (q : Quat) :
    (weiszfeldBody E Q p q).1 = q ∨ 0 ≤ (weiszfeldBody E Q p q).1.w := by
  unfold weiszfeldBody
  simp only []
  split_ifs
  · exact Or.inr (t_qfix_w_nonneg _)
  · exact Or.inl rfl
  · exact Or.inl rfl

/-- The loop either returns the estimate it was entered with or one with a non-negative
scalar part. -/
theorem weiszfeldLoop_sign (E : Env) (Q : List Quat) (p mau : ℚ) (maxIterations : Int) :
    ∀ (n : Nat) (q : Quat) (theta : ℚ) (i : Int), (maxIterations + 1 - i).toNat = n →
      (weiszfeldLoop E Q p mau maxIterations q theta i).1 = q ∨
      0 ≤ (weiszfeldLoop E Q p mau maxIterations q theta i).1.w := by
  intro n
  induction n with
  | zero =>
    intro q theta i hn
    rw [weiszfeldLoop, if_neg (by omega)]
    exact Or.inl rfl
  | succ n ih =>
    intro q theta i hn
    rw [weiszfeldLoop]
    split_ifs with hc
    · rcases ih (weiszfeldBody E Q p q).1 (weiszfeldBody E Q p q).2 (i + 1) (by omega)
        with h | h
      · rw [h]
        exact weiszfeldBody_sign E Q p q
      · exact Or.inr h
    · exact Or.inl rfl

/-- C8 fails as stated: on a fresh engine (`FILTER_WINDOW = 5`) one step with the unit
camera quaternion `(-1, 0, 0, 0)` and the secondary stream LOST publishes a rotation
with scalar part `-1`. -/
theorem published_rotation_not_canonical :
    flippedCamera.rotation.squaredNorm = 1 ∧ (poseAt 0 LOST).rotation.squaredNorm = 1 ∧
    (getFusedPose (fuse (exampleEnv 3 5) (Fuser.fresh (exampleEnv 3 5)) flippedCamera
      (poseAt 0 LOST))).rotation.w = -1 := by
  refine ⟨by norm_num [flippedCamera, Quat.squaredNorm],
    by norm_num [poseAt, Quat.squaredNorm], ?_⟩
  have h1 := fuse_tracks_camera (exampleEnv 3 5) (Fuser.freshWith (exampleEnv 3 5) (3 / 4)
    (7 / 10)) flippedCamera (poseAt 0 LOST) (freshWith_tracksCamera _ _ _) rfl
  have h2 := fuse_warmingUp (exampleEnv 3 5) (Fuser.freshWith (exampleEnv 3 5) (3 / 4)
    (7 / 10)) flippedCamera (poseAt 0 LOST) 0 (freshWith_warmingUp _ _ _) (by decide)
  show (fuse (exampleEnv 3 5) (Fuser.freshWith (exampleEnv 3 5) (3 / 4) (7 / 10))
    flippedCamera (poseAt 0 LOST)).poseFiltered.rotation.w = -1
  rw [h2.2.1, h1.2.1]
  rfl

/-- C8 (amended): the sign is canonicalized only inside `median_quaternions_weiszfeld`,
whose result is either the unchanged seed of `avg_quaternion_markley` or a quaternion
with `w >= 0`. A step that takes the unfiltered branch with at most `FILTER_WINDOW`
completed steps publishes the raw fused rotation, whose scalar part is the previous raw
value plus `alpha * cameraDelta + (1 - alpha) * secondaryDelta`, with no sign fix. -/
theorem sign_fixed_only_in_median (E : Env) (Q : List Quat) (p maxAngularUpdate : ℚ)
    (maxIterations : Int) (f : Fuser) (camVO orbVO : Pose)
    (hbranch : ¬ ((fuseThroughFusion E f camVO orbVO).1.medianFilterReady = true ∧
      (fuseThroughFusion E f camVO orbVO).1.recoverSteps > E.FILTER_WINDOW))
    (hcount : f.counter ≤ E.FILTER_WINDOW) :
    (median_quaternions_weiszfeld E Q p maxAngularUpdate maxIterations
        = avg_quaternion_markley E Q ∨
      0 ≤ (median_quaternions_weiszfeld E Q p maxAngularUpdate maxIterations).w) ∧
    (getFusedPose (fuse E f camVO orbVO)).rotation
      = (fuseThroughFusion E f camVO orbVO).1.pose.rotation ∧
    (fuseThroughFusion E f camVO orbVO).1.pose.rotation.w
      = f.posePrev.rotation.w
        + (fuseThroughFusion E f camVO orbVO).1.deltaCamVO.WQ
            * sensorFusionAlpha (fuseThroughFusion E f camVO orbVO).1
        + (fuseThroughFusion E f camVO orbVO).1.deltaOrbVO.WQ
            * (1 - sensorFusionAlpha (fuseThroughFusion E f camVO orbVO).1) := by
  obtain ⟨hBc, hBp, -⟩ := beforeFusion_frame E f camVO orbVO
  refine ⟨?_, ?_, ?_⟩
  · exact weiszfeldLoop_sign E Q p _ maxIterations _ _ _ 0 rfl
  · have hTc : (fuseThroughFusion E f camVO orbVO).1.counter = f.counter := hBc
    unfold getFusedPose
    rw [fuse_poseFiltered, filterFusedPose_eq]
    simp only [if_neg hbranch, hTc]
    rw [if_neg (by omega)]
  · show (beforeFusion E f camVO orbVO).1.posePrev.rotation.w + _ = _
    rw [hBp, add_assoc]
    rfl

/-- Witness of `sign_fixed_only_in_median`: first step of a fresh engine with
`FILTER_WINDOW = 5`. -/
theorem sign_fixed_only_in_median_witness :
    (getFusedPose (fuse (exampleEnv 3 5) (Fuser.fresh (exampleEnv 3 5)) flippedCamera
      (poseAt 0 LOST))).rotation
      = (fuseThroughFusion (exampleEnv 3 5) (Fuser.fresh (exampleEnv 3 5)) flippedCamera
          (poseAt 0 LOST)).1.pose.rotation :=
  (sign_fixed_only_in_median (exampleEnv 3 5) [] 1 (1 / 10000) 1000
    (Fuser.fresh (exampleEnv 3 5)) flippedCamera (poseAt 0 LOST)
    (by
      intro h
      have h1 : (beforeFusion (exampleEnv 3 5) (Fuser.fresh (exampleEnv 3 5)) flippedCamera
          (poseAt 0 LOST)).1.medianFilterReady = true := h.1
      rw [beforeFusion_medianFilterReady] at h1
      simp [Fuser.fresh, exampleEnv] at h1)
    (by decide)).2.1

/-! ### C11: `avg_quaternion_markley` on identical rows -/

/-- The outer product does not see the sign of the vector. -/
theorem outer_neg (q : Quat) : q.neg.outer = q.outer := by
  funext i j
  simp [Quat.outer, Quat.entry, Quat.neg]
  fin_cases i <;> fin_cases j <;> simp

/-- The accumulation loop of `avg_quaternion_markley` over `n` rows equal to `q` adds
`n` times the outer product of `q`. -/
theorem markley_accumulate_replicate (q : Quat) (n : Nat) (A : Matrix (Fin 4) (Fin 4) ℚ) :
    (List.replicate n q).foldl (fun A q => (if q.w < 0 then q.neg else q).outer + A) A
      = (n : ℚ) • q.outer + A := by
  induction n generalizing A with
  | zero => simp
  | succ n ih =>
    rw [List.replicate_succ, List.foldl_cons, ih]
    have h : (if q.w < 0 then q.neg else q).outer = q.outer := by
      split_ifs
      · exact outer_neg q
      · rfl
    rw [h]
    push_cast
    rw [add_smul, one_smul]
    abel

/-- The averaged matrix of `M >= 1` rows equal to `q` is the outer product of `q`. -/
theorem markleyMatrix_replicate (q : Quat) (M : Nat) (hM : 1 ≤ M) :
    markleyMatrix (List.replicate M q) = q.outer := by
  unfold markleyMatrix
  simp only [markley_accumulate_replicate, List.length_replicate, add_zero]
  have h : (M : ℚ) ≠ 0 := by
    have : 0 < M := hM
    exact_mod_cast this.ne'
  rw [smul_smul, one_div, inv_mul_cancel₀ h, one_smul]

/-- Row `i` of the outer product of `q` applied to `w`. -/
theorem outer_mulVec (q : Quat) (w : Fin 4 → ℚ) (i : Fin 4) :
    q.outer.mulVec w i = q.entry i * (q.w * w 0 + q.x * w 1 + q.y * w 2 + q.z * w 3) := by
  simp [Matrix.mulVec, Matrix.dotProduct, Fin.sum_univ_four, Quat.outer, Quat.entry]
  ring

/-- C11: for `M >= 1` and a unit quaternion `q`, `avg_quaternion_markley` on `M` rows equal
to `q` builds the matrix `q * q^T` and returns `q` or `-q`, the solver returning a unit
eigenvector of that matrix for its largest eigenvalue. -/
theorem markley_identical_rows (E : Env) (M : Nat) (q : Quat) (hM : 1 ≤ M)
    (hq : q.squaredNorm = 1)
    (hsolver : IsTopUnitEigenvector (markleyMatrix (List.replicate M q))
      (E.eigenvectorTop (markleyMatrix (List.replicate M q)))) :
    markleyMatrix (List.replicate M q) = q.outer ∧
    (avg_quaternion_markley E (List.replicate M q) = q ∨
      avg_quaternion_markley E (List.replicate M q) = q.neg) := by
  refine ⟨markleyMatrix_replicate q M hM, ?_⟩
  unfold avg_quaternion_markley
  rw [markleyMatrix_replicate q M hM] at hsolver ⊢
  generalize E.eigenvectorTop q.outer = v at hsolver ⊢
  obtain ⟨hv, lam, hlam, hmax⟩ := hsolver
  obtain ⟨qw, qx, qy, qz⟩ := q
  obtain ⟨vw, vx, vy, vz⟩ := v
  simp only [Quat.squaredNorm] at hq hv
  -- `q` itself is an eigenvector for the eigenvalue 1
  have hq0 : (Quat.mk qw qx qy qz).entry ≠ 0 := by
    intro h
    have h0 := congrFun h 0
    have h1 := congrFun h 1
    have h2 := congrFun h 2
    have h3 := congrFun h 3
    simp [Quat.entry] at h0 h1 h2 h3
    rw [h0, h1, h2, h3] at hq
    norm_num at hq
  have hone : (1 : ℚ) ≤ lam := by
    apply hmax 1 _ hq0
    funext i
    rw [outer_mulVec]
    simp only [Pi.smul_apply, smul_eq_mul, one_mul]
    have : qw * (Quat.mk qw qx qy qz).entry 0 + qx * (Quat.mk qw qx qy qz).entry 1
        + qy * (Quat.mk qw qx qy qz).entry 2 + qz * (Quat.mk qw qx qy qz).entry 3 = 1 := by
      simp [Quat.entry]
      linarith
    rw [this, mul_one]
  have hpos : lam ≠ 0 := by linarith
  have e0 := congrFun hlam 0
  have e1 := congrFun hlam 1
  have e2 := congrFun hlam 2
  have e3 := congrFun hlam 3
  rw [outer_mulVec] at e0 e1 e2 e3
  simp [Quat.entry] at e0 e1 e2 e3
  set d := qw * vw + qx * vx + qy * vy + qz * vz with hd
  have hvw : vw = d / lam * qw := by field_simp; linarith
  have hvx : vx = d / lam * qx := by field_simp; linarith
  have hvy : vy = d / lam * qy := by field_simp; linarith
  have hvz : vz = d / lam * qz := by field_simp; linarith
  have hc : (d / lam) * (d / lam) = 1 := by
    have : vw * vw + vx * vx + vy * vy + vz * vz
        = (d / lam) * (d / lam) * (qw * qw + qx * qx + qy * qy + qz * qz) := by
      rw [hvw, hvx, hvy, hvz]
      ring
    rw [hv, hq, mul_one] at this
    exact this.symm
  rcases mul_self_eq_one_iff.mp hc with h | h
  · left
    rw [hvw, hvx, hvy, hvz, h]
    simp
  · right
    rw [hvw, hvx, hvy, hvz, h]
    simp [Quat.neg]

/-- Witness of `markley_identical_rows`: two rows equal to `(1, 0, 0, 0)`, for which the
solver of the example environment returns `(1, 0, 0, 0)`. -/
theorem markley_identical_rows_witness :
    avg_quaternion_markley (exampleEnv 3 5) (List.replicate 2 ⟨1, 0, 0, 0⟩) = ⟨1, 0, 0, 0⟩ ∨
    avg_quaternion_markley (exampleEnv 3 5) (List.replicate 2 ⟨1, 0, 0, 0⟩)
      = (Quat.mk 1 0 0 0).neg :=
  (markley_identical_rows (exampleEnv 3 5) 2 ⟨1, 0, 0, 0⟩ (by decide)
    (by norm_num [Quat.squaredNorm])
    (by
      rw [markleyMatrix_replicate _ 2 (by decide)]
      refine ⟨by norm_num [exampleEnv, Quat.squaredNorm], 1, ?_, ?_⟩
      · funext i
        rw [outer_mulVec]
        fin_cases i <;> simp [exampleEnv, Quat.entry]
      · intro mu w hw h
        have e0 := congrFun h 0
        have e1 := congrFun h 1
        have e2 := congrFun h 2
        have e3 := congrFun h 3
        rw [outer_mulVec] at e0 e1 e2 e3
        simp [Quat.entry] at e0 e1 e2 e3
        by_contra hmu
        have hne : mu ≠ 0 := by
          intro h0
          rw [h0] at hmu
          norm_num at hmu
        have h1 : w 1 = 0 := by
          rcases e1 with h | h
          · exact absurd h hne
          · exact h
        have h2 : w 2 = 0 := by
          rcases e2 with h | h
          · exact absurd h hne
          · exact h
        have h3 : w 3 = 0 := by
          rcases e3 with h | h
          · exact absurd h hne
          · exact h
        have h0 : w 0 ≠ 0 := by
          intro h0
          apply hw
          funext i
          fin_cases i <;> simp [h0, h1, h2, h3]
        have : mu = 1 := by
          have := mul_right_cancel₀ h0 (show mu * w 0 = 1 * w 0 by rw [one_mul]; exact e0.symm)
          exact this
        rw [this] at hmu
        exact hmu (le_refl _))).2

/-! ### C12, C13: leaving and entering the recovered state -/

/-- The effective secondary quality handed to `sensorFusion`: LOST when the override
loop fires, the incoming quality otherwise. -/
theorem beforeFusion_orbQoS (E : Env) (f : Fuser) (camVO orbVO : Pose) :
    (beforeFusion E f camVO orbVO).1.orbQoS =
      if E.RECOVERY_BUFFER < f.counter ∧ lostInHistory E f.orbQoSPrev = true then LOST
      else orbVO.accuracy := by
  simp only [beforeFusion, filterOrbPose_fst, recoverOrbPose_fst, recoveryCheck_eq, ingest_eq]

/-- The recovery anchor after a call of `fuse`. -/
theorem fuse_camRecover (E : Env) (f : Fuser) (camVO orbVO : Pose) :
    (fuse E f camVO orbVO).camRecover =
      if recoveryFires E f orbVO then f.poseFilteredPrev else f.camRecover := by
  simp only [fuse, fuseThroughFusion, beforeFusion, bufferQoS, sensorFusion, filterFusedPose_eq,
    filterOrbPose_fst, recoverOrbPose_fst, recoveryCheck_eq, ingest_eq, markRunning_eq,
    transitionFires, recoveryFires]

/-- The flag `firstRecover` after a call of `fuse`. -/
theorem fuse_firstRecover (E : Env) (f : Fuser) (camVO orbVO : Pose) :
    (fuse E f camVO orbVO).firstRecover =
      if (fuse E f camVO orbVO).recovered = true then false
      else if recoveryFires E f orbVO then true else f.firstRecover := by
  rw [fuse_recovered]
  simp only [fuse, fuseThroughFusion, beforeFusion, bufferQoS, sensorFusion, filterFusedPose_eq,
    filterOrbPose_fst, recoverOrbPose_fst, recoveryCheck_eq, ingest_eq, markRunning_eq,
    transitionFires, recoveryFires]
  split_ifs <;> simp_all

/-- The count `recoverSteps` after a call of `fuse`. -/
theorem fuse_recoverSteps_eq (E : Env) (f : Fuser) (camVO orbVO : Pose) :
    (fuse E f camVO orbVO).recoverSteps =
      if (fuse E f camVO orbVO).recovered = true then
        if recoveryFires E f orbVO ∨ f.firstRecover = true then 0 + 1 else f.recoverSteps + 1
      else f.recoverSteps := by
  rw [fuse_recovered]
  simp only [fuse, fuseThroughFusion, beforeFusion, bufferQoS, sensorFusion, filterFusedPose_eq,
    filterOrbPose_fst, recoverOrbPose_fst, recoveryCheck_eq, ingest_eq, markRunning_eq,
    transitionFires, recoveryFires]
  split_ifs <;> first | rfl | omega | (simp_all; done) | (exfalso; simp_all; omega)

/-- When the count of the recovery block is full, no slot `1 .. RECOVERY_BUFFER - 1` holds
LOST. -/
theorem lostInHistory_of_okCounter (E : Env) (hist : Buffer Nat)
    (h : okCounter E hist = E.RECOVERY_BUFFER - 1) : lostInHistory E hist = false := by
  unfold okCounter at h
  have hl : (List.range' 1 (E.RECOVERY_BUFFER - 1)).length = E.RECOVERY_BUFFER - 1 := by simp
  have h := List.countP_eq_length.mp (h.trans hl.symm)
  unfold lostInHistory
  rw [List.any_eq_false]
  intro i hi
  have h1 := of_decide_eq_true (h i hi)
  rw [h1]
  decide

/-- A step in which the transition fires: the flag is set and stays set, the anchor is
the previous published pose, `firstRecover` is consumed and `recoverSteps` ends at 1. -/
theorem fuse_of_recoveryFires (E : Env) (f : Fuser) (camVO orbVO : Pose)
    (h : recoveryFires E f orbVO) :
    (fuse E f camVO orbVO).recovered = true ∧
    (fuse E f camVO orbVO).camRecover = f.poseFilteredPrev ∧
    (fuse E f camVO orbVO).firstRecover = false ∧
    (fuse E f camVO orbVO).recoverSteps = 1 := by
  have hr : (fuse E f camVO orbVO).recovered = true := by
    rw [fuse_recovered, if_pos h.1, lostInHistory_of_okCounter E _ h.2.2.2]
    simp only [Bool.false_eq_true, if_false]
    rw [if_pos h.2]
  refine ⟨hr, ?_, ?_, ?_⟩
  · rw [fuse_camRecover, if_pos h]
  · rw [fuse_firstRecover, if_pos hr]
  · rw [fuse_recoverSteps_eq, if_pos hr, if_pos (Or.inl h)]

/-- The previous published pose stored by `fuse` is the published pose. -/
theorem fuse_poseFilteredPrev (E : Env) (f : Fuser) (camVO orbVO : Pose) :
    (fuse E f camVO orbVO).poseFilteredPrev = (fuse E f camVO orbVO).poseFiltered := by
  simp only [fuse, fuseThroughFusion, beforeFusion, bufferQoS, sensorFusion, filterFusedPose_eq,
    filterOrbPose_fst, recoverOrbPose_fst, recoveryCheck_eq, ingest_eq, markRunning_eq]

/-- In every state reached from a fresh engine the previous published pose is the pose
returned by `getFusedPose`. -/
theorem fuseAll_poseFilteredPrev (E : Env) (inputs : List (Pose × Pose)) :
    (fuseAll E (Fuser.fresh E) inputs).poseFilteredPrev
      = getFusedPose (fuseAll E (Fuser.fresh E) inputs) := by
  rcases List.eq_nil_or_concat inputs with h | ⟨init, last, h⟩
  · rw [h]
    rfl
  · rw [h, List.concat_eq_append, fuseAll_concat]
    exact fuse_poseFilteredPrev E _ _ _

/-- C12 fails as stated: with `RECOVERY_BUFFER = 2`, after the steps OK, LOST, OK on a
fresh engine three steps are completed and slot 0 of the history (a slot among
`0 .. RECOVERY_BUFFER-2`) holds LOST, yet a further step with incoming quality OK leaves
`recovered` true. -/
theorem lost_in_oldest_slot_keeps_recovered :
    (exampleEnv 2 5).RECOVERY_BUFFER
      < (fuseAll (exampleEnv 2 5) (Fuser.fresh (exampleEnv 2 5))
          [stepWith OK, stepWith LOST, stepWith OK]).counter ∧
    0 ≤ (exampleEnv 2 5).RECOVERY_BUFFER - 2 ∧
    (fuseAll (exampleEnv 2 5) (Fuser.fresh (exampleEnv 2 5))
      [stepWith OK, stepWith LOST, stepWith OK]).orbQoSPrev.slot 0 = LOST ∧
    (fuse (exampleEnv 2 5)
      (fuseAll (exampleEnv 2 5) (Fuser.fresh (exampleEnv 2 5))
        [stepWith OK, stepWith LOST, stepWith OK])
      (poseAt 0 OK) (poseAt 0 OK)).recovered = true := by
  have hc : (fuseAll (exampleEnv 2 5) (Fuser.fresh (exampleEnv 2 5))
      [stepWith OK, stepWith LOST, stepWith OK]).counter = 3 := by
    rw [fuseAll_counter]
    rfl
  have h0 : (fuseAll (exampleEnv 2 5) (Fuser.fresh (exampleEnv 2 5))
      [stepWith OK, stepWith LOST, stepWith OK]).orbQoSPrev.slot 0 = LOST := by
    rw [fuseAll_history_slot (exampleEnv 2 5) _ _ 0 (by decide)]
    rfl
  have h1 : (fuseAll (exampleEnv 2 5) (Fuser.fresh (exampleEnv 2 5))
      [stepWith OK, stepWith LOST, stepWith OK]).orbQoSPrev.slot 1 = OK := by
    rw [fuseAll_history_slot (exampleEnv 2 5) _ _ 1 (by decide)]
    rfl
  refine ⟨by rw [hc]; decide, Nat.zero_le _, h0, ?_⟩
  refine (fuse_of_recoveryFires (exampleEnv 2 5) _ (poseAt 0 OK) (poseAt 0 OK)
    ⟨by rw [hc]; decide, rfl, h0, ?_⟩).1
  apply okCounter_of_ok_slots
  intro i hi1 hi2
  have hi : i = 1 := by
    have : (exampleEnv 2 5).RECOVERY_BUFFER = 2 := rfl
    omega
  rw [hi]
  exact h1

/-- C12 (amended): in a `fuse` step taken with more than `RECOVERY_BUFFER` completed
steps, if one of the slots `1 .. RECOVERY_BUFFER-1` of `orbQoSPrev` (the newest sample,
in slot `RECOVERY_BUFFER-1`, included; the oldest, in slot 0, excluded) holds LOST, then
`recovered` is false after the step and the effective secondary quality of the step is
LOST, whatever the incoming poses and qualities. -/
theorem lost_in_recent_history_clears (E : Env) (f : Fuser) (camVO orbVO : Pose) (i : Nat)
    (hgate : E.RECOVERY_BUFFER < f.counter) (h1 : 1 ≤ i) (h2 : i < E.RECOVERY_BUFFER)
    (hlost : f.orbQoSPrev.slot i = LOST) :
    (fuse E f camVO orbVO).recovered = false ∧
    (beforeFusion E f camVO orbVO).1.orbQoS = LOST := by
  have hl := lostInHistory_of_lost_slot E f.orbQoSPrev i h1 h2 hlost
  refine ⟨?_, ?_⟩
  · rw [fuse_recovered, if_pos hgate, if_pos hl]
  · rw [beforeFusion_orbQoS, if_pos ⟨hgate, hl⟩]

/-- Witness of `lost_in_recent_history_clears` with `RECOVERY_BUFFER = 2`: after the steps
OK, OK, LOST the newest slot (slot 1) holds LOST, and a step with incoming quality OK
leaves `recovered` false. -/
theorem lost_in_recent_history_clears_witness :
    (fuse (exampleEnv 2 5)
      (fuseAll (exampleEnv 2 5) (Fuser.fresh (exampleEnv 2 5))
        [stepWith OK, stepWith OK, stepWith LOST])
      (poseAt 0 OK) (poseAt 0 OK)).recovered = false :=
  (lost_in_recent_history_clears (exampleEnv 2 5)
    (fuseAll (exampleEnv 2 5) (Fuser.fresh (exampleEnv 2 5))
      [stepWith OK, stepWith OK, stepWith LOST])
    (poseAt 0 OK) (poseAt 0 OK) 1
    (by rw [fuseAll_counter]; decide) (by decide) (by decide)
    (by
      rw [fuseAll_history_slot (exampleEnv 2 5) _ _ 1 (by decide)]
      rfl)).1

/-- C13: in every state reached from a fresh engine, a `fuse` step in which the
transition fires leaves `recovered` true, `camRecover` equal to the pose `getFusedPose`
returned before the step, `firstRecover` false and `recoverSteps` equal to 1 (reset to 0
and incremented in the same step). -/
theorem recovery_anchor (E : Env) (inputs : List (Pose × Pose)) (camVO orbVO : Pose)
    (hfire : recoveryFires E (fuseAll E (Fuser.fresh E) inputs) orbVO) :
    (fuse E (fuseAll E (Fuser.fresh E) inputs) camVO orbVO).recovered = true ∧
    getRecoveredPose (fuse E (fuseAll E (Fuser.fresh E) inputs) camVO orbVO)
      = getFusedPose (fuseAll E (Fuser.fresh E) inputs) ∧
    (fuse E (fuseAll E (Fuser.fresh E) inputs) camVO orbVO).firstRecover = false ∧
    (fuse E (fuseAll E (Fuser.fresh E) inputs) camVO orbVO).recoverSteps = 1 := by
  obtain ⟨h1, h2, h3, h4⟩ := fuse_of_recoveryFires E _ camVO orbVO hfire
  refine ⟨h1, ?_, h3, h4⟩
  unfold getRecoveredPose
  rw [h2, fuseAll_poseFilteredPrev]

/-- Witness of `recovery_anchor` with `RECOVERY_BUFFER = 2`: the transition fires in the
fourth step of the run OK, LOST, OK, OK. -/
theorem recovery_anchor_witness :
    getRecoveredPose (fuse (exampleEnv 2 5)
      (fuseAll (exampleEnv 2 5) (Fuser.fresh (exampleEnv 2 5))
        [stepWith OK, stepWith LOST, stepWith OK]) (poseAt 0 OK) (poseAt 0 OK))
      = getFusedPose (fuseAll (exampleEnv 2 5) (Fuser.fresh (exampleEnv 2 5))
        [stepWith OK, stepWith LOST, stepWith OK]) :=
  (recovery_anchor (exampleEnv 2 5) [stepWith OK, stepWith LOST, stepWith OK] (poseAt 0 OK)
    (poseAt 0 OK)
    ⟨by rw [fuseAll_counter]; decide, rfl,
      by
        rw [fuseAll_history_slot (exampleEnv 2 5) _ _ 0 (by decide)]
        rfl,
      by
        apply okCounter_of_ok_slots
        intro i hi1 hi2
        have hi : i = 1 := by
          have : (exampleEnv 2 5).RECOVERY_BUFFER = 2 := rfl
          omega
        rw [hi, fuseAll_history_slot (exampleEnv 2 5) _ _ 1 (by decide)]
        rfl⟩).2.1

/-! ### C14: deltas of the first step -/

/-- Secondary pose after the secondary-pose filtering block. -/
theorem filterOrbPose_snd (E : Env) (f : Fuser) (o : Pose) :
    (filterOrbPose E f o).2 =
      if f.medianFilterReady = true then
        medianFilteredPose E o (rotateBuffer E f.orbPoseBuffer o)
      else o := by
  unfold filterOrbPose medianFilteredPose
  dsimp only
  split_ifs <;> rfl

/-- The camera delta stored by a call of `fuse`. -/
theorem fuse_deltaCamVO (E : Env) (f : Fuser) (camVO orbVO : Pose) :
    (fuse E f camVO orbVO).deltaCamVO = cameraDelta f camVO := by
  obtain ⟨-, -, -, -, -, -, hs, hc, -⟩ := beforeFusion_frame E f camVO orbVO
  rw [← cameraDelta_congr f (beforeFusion E f camVO orbVO).1 camVO hs hc]
  simp only [fuse, fuseThroughFusion, bufferQoS, sensorFusion, filterFusedPose_eq,
    markRunning_eq]

/-- The secondary delta stored by a call of `fuse`: computed from the re-anchored and
filtered secondary pose. -/
theorem fuse_deltaOrbVO (E : Env) (f : Fuser) (camVO orbVO : Pose) :
    (fuse E f camVO orbVO).deltaOrbVO
      = secondaryDelta (beforeFusion E f camVO orbVO).1 (beforeFusion E f camVO orbVO).2 := by
  simp only [fuse, fuseThroughFusion, bufferQoS, sensorFusion, filterFusedPose_eq,
    markRunning_eq]

/-- On a fresh engine the secondary pose handed to the delta computation is the input
pose, anchored on the camera pose of the call when its quality is not LOST. -/
theorem beforeFusion_snd_fresh (E : Env) (camVO orbVO : Pose) :
    (beforeFusion E (Fuser.fresh E) camVO orbVO).2 =
      if orbVO.accuracy ≠ LOST then E.rotoTranslation orbVO camVO.translation camVO.rotation
      else orbVO := by
  have hm : (recoverOrbPose E (recoveryCheck E (ingest (Fuser.fresh E) camVO orbVO))
      orbVO).1.medianFilterReady = false := by
    simp only [recoverOrbPose_fst, recoveryCheck_eq, ingest_eq]
    rfl
  have hr : (recoveryCheck E (ingest (Fuser.fresh E) camVO orbVO)).recovered = false := by
    rw [recoveryCheck_eq]
    have h0 : (ingest (Fuser.fresh E) camVO orbVO).counter = 0 := by
      rw [ingest_eq]
      rfl
    simp only [h0, Nat.not_lt_zero, if_false]
    rw [ingest_eq]
    rfl
  have hq : (recoveryCheck E (ingest (Fuser.fresh E) camVO orbVO)).orbQoS = orbVO.accuracy := by
    rw [recoveryCheck_eq]
    have h0 : (ingest (Fuser.fresh E) camVO orbVO).counter = 0 := by
      rw [ingest_eq]
      rfl
    simp only [h0, Nat.not_lt_zero, false_and, if_false]
    rw [ingest_eq]
  have hf : (recoveryCheck E (ingest (Fuser.fresh E) camVO orbVO)).firstCamVO = camVO := by
    simp only [recoveryCheck_eq, ingest_eq]
    rfl
  unfold beforeFusion
  simp only []
  rw [filterOrbPose_snd, hm, recoverOrbPose_snd, hr, hq, hf]
  simp only [Bool.false_eq_true, if_false]

/-- C14 fails as stated: on the first step of a fresh engine with the camera pose
`poseAt 1 OK` and the secondary pose `poseAt 2 LOST` (both with `w = 1/2`; the LOST
secondary pose is not re-anchored), the `w` component of both deltas is `-1/2`. -/
theorem first_step_delta_subtracts_one :
    (Fuser.fresh (exampleEnv 3 5)).fuserStatus = Status.UNINITIALIZED ∧
    (poseAt 1 OK).rotation.w = 1 / 2 ∧
    (fuse (exampleEnv 3 5) (Fuser.fresh (exampleEnv 3 5)) (poseAt 1 OK)
      (poseAt 2 LOST)).deltaCamVO.WQ = -1 / 2 ∧
    (beforeFusion (exampleEnv 3 5) (Fuser.fresh (exampleEnv 3 5)) (poseAt 1 OK)
      (poseAt 2 LOST)).2.rotation.w = 1 / 2 ∧
    (fuse (exampleEnv 3 5) (Fuser.fresh (exampleEnv 3 5)) (poseAt 1 OK)
      (poseAt 2 LOST)).deltaOrbVO.WQ = -1 / 2 := by
  have hs : (beforeFusion (exampleEnv 3 5) (Fuser.fresh (exampleEnv 3 5)) (poseAt 1 OK)
      (poseAt 2 LOST)).1.fuserStatus = Status.UNINITIALIZED :=
    (beforeFusion_frame _ _ _ _).2.2.2.2.2.2.1
  have ho : (beforeFusion (exampleEnv 3 5) (Fuser.fresh (exampleEnv 3 5)) (poseAt 1 OK)
      (poseAt 2 LOST)).2 = poseAt 2 LOST := by
    rw [beforeFusion_snd_fresh]
    rfl
  refine ⟨rfl, rfl, ?_, ?_, ?_⟩
  · rw [fuse_deltaCamVO]
    norm_num [cameraDelta, Fuser.fresh, poseAt]
  · rw [ho]
    rfl
  · rw [fuse_deltaOrbVO, ho]
    unfold secondaryDelta
    rw [if_pos hs]
    norm_num [poseAt]

/-- C14 (amended): on a `fuse` step taken with `fuserStatus = UNINITIALIZED`, the
components x, y, z, qx, qy, qz of the camera delta are those of the camera pose and its
`w` component is `w - 1` (the scalar part of the identity rotation is subtracted); the
same holds for the secondary delta and the re-anchored, filtered secondary pose. On a
fresh engine that pose is the input pose, anchored on the camera pose of the call when
its quality is not LOST. -/
theorem first_step_deltas (E : Env) (f : Fuser) (camVO orbVO : Pose)
    (h : f.fuserStatus = Status.UNINITIALIZED) :
    (fuse E f camVO orbVO).deltaCamVO =
      ⟨camVO.translation.x, camVO.translation.y, camVO.translation.z,
        camVO.rotation.w - 1, camVO.rotation.x, camVO.rotation.y, camVO.rotation.z⟩ ∧
    (fuse E f camVO orbVO).deltaOrbVO =
      ⟨(beforeFusion E f camVO orbVO).2.translation.x,
        (beforeFusion E f camVO orbVO).2.translation.y,
        (beforeFusion E f camVO orbVO).2.translation.z,
        (beforeFusion E f camVO orbVO).2.rotation.w - 1,
        (beforeFusion E f camVO orbVO).2.rotation.x,
        (beforeFusion E f camVO orbVO).2.rotation.y,
        (beforeFusion E f camVO orbVO).2.rotation.z⟩ ∧
    (beforeFusion E (Fuser.fresh E) camVO orbVO).2 =
      (if orbVO.accuracy ≠ LOST then E.rotoTranslation orbVO camVO.translation camVO.rotation
        else orbVO) := by
  have hs : (beforeFusion E f camVO orbVO).1.fuserStatus = Status.UNINITIALIZED :=
    ((beforeFusion_frame E f camVO orbVO).2.2.2.2.2.2.1).trans h
  refine ⟨?_, ?_, beforeFusion_snd_fresh E camVO orbVO⟩
  · rw [fuse_deltaCamVO]
    unfold cameraDelta
    rw [if_pos h]
  · rw [fuse_deltaOrbVO]
    unfold secondaryDelta
    rw [if_pos hs]

/-- Witness of `first_step_deltas`: first step of a fresh engine. -/
theorem first_step_deltas_witness :
    (fuse (exampleEnv 3 5) (Fuser.fresh (exampleEnv 3 5)) (poseAt 1 OK)
      (poseAt 2 OK)).deltaCamVO =
      ⟨(poseAt 1 OK).translation.x, (poseAt 1 OK).translation.y, (poseAt 1 OK).translation.z,
        (poseAt 1 OK).rotation.w - 1, (poseAt 1 OK).rotation.x, (poseAt 1 OK).rotation.y,
        (poseAt 1 OK).rotation.z⟩ :=
  (first_step_deltas (exampleEnv 3 5) (Fuser.fresh (exampleEnv 3 5)) (poseAt 1 OK)
    (poseAt 2 OK) rfl).1

/-! ### C16: zero-component guard of `synchronizer` -/

/-- C16: in the last branch of `synchronizer` (`t1` not the sentinel, `t3 >= t1`,
`t3 >= t2`, `t1 != t2`), when one of the eight rotation components of `s1` and `s2` is 0
the output keeps the rotation and the quality that `s3` had on entry, and its translation
is the value of the three interpolators at `t3`. -/
theorem synchronizer_zero_guard (E : Env) (t1 t2 t3 : ℚ) (s1 s2 s3 : Pose)
    (h1 : t1 ≠ -1) (h2 : t1 ≤ t3) (h3 : t2 ≤ t3) (h4 : t1 ≠ t2)
    (hzero : s1.rotation.w = 0 ∨ s1.rotation.x = 0 ∨ s1.rotation.y = 0 ∨ s1.rotation.z = 0 ∨
      s2.rotation.w = 0 ∨ s2.rotation.x = 0 ∨ s2.rotation.y = 0 ∨ s2.rotation.z = 0) :
    (synchronizer E t1 t2 t3 s1 s2 s3).rotation = s3.rotation ∧
    (synchronizer E t1 t2 t3 s1 s2 s3).accuracy = s3.accuracy ∧
    (synchronizer E t1 t2 t3 s1 s2 s3).translation =
      ⟨(SplineInterpolator.make t1 t2 s1.translation.x s2.translation.x).eval t3,
       (SplineInterpolator.make t1 t2 s1.translation.y s2.translation.y).eval t3,
       (SplineInterpolator.make t1 t2 s1.translation.z s2.translation.z).eval t3⟩ := by
  have hA : ¬ t3 < t1 := not_lt.mpr h2
  have hB : ¬ (t3 < t2 ∨ t1 = t2) := by
    rintro (h | h)
    · exact absurd h (not_lt.mpr h3)
    · exact h4 h
  have hC : ¬ (s1.rotation.w ≠ 0 ∧ s2.rotation.w ≠ 0 ∧ s1.rotation.x ≠ 0 ∧ s2.rotation.x ≠ 0 ∧
      s1.rotation.y ≠ 0 ∧ s2.rotation.y ≠ 0 ∧ s1.rotation.z ≠ 0 ∧ s2.rotation.z ≠ 0) := by
    rintro ⟨a1, b1, a2, b2, a3, b3, a4, b4⟩
    rcases hzero with h | h | h | h | h | h | h | h
    · exact a1 h
    · exact a2 h
    · exact a3 h
    · exact a4 h
    · exact b1 h
    · exact b2 h
    · exact b3 h
    · exact b4 h
  unfold synchronizer
  rw [if_neg h1, if_neg hA, if_neg hB]
  simp only []
  rw [if_neg hC]
  exact ⟨rfl, rfl, rfl⟩

/-- Witness of `synchronizer_zero_guard` at `t1 = 0`, `t2 = 1`, `t3 = 2` with
`rot(s1) = (-1, 0, 0, 0)`: the output keeps the rotation of `s3`. -/
theorem synchronizer_zero_guard_witness :
    (synchronizer (exampleEnv 3 5) 0 1 2 flippedCamera (poseAt 1 OK) (poseAt 7 LOW)).rotation
      = (poseAt 7 LOW).rotation ∧
    (synchronizer (exampleEnv 3 5) 0 1 2 flippedCamera (poseAt 1 OK) (poseAt 7 LOW)).accuracy
      = LOW :=
  ⟨(synchronizer_zero_guard (exampleEnv 3 5) 0 1 2 flippedCamera (poseAt 1 OK) (poseAt 7 LOW)
      (by norm_num) (by norm_num) (by norm_num) (by norm_num) (Or.inr (Or.inl rfl))).1,
   (synchronizer_zero_guard (exampleEnv 3 5) 0 1 2 flippedCamera (poseAt 1 OK) (poseAt 7 LOW)
      (by norm_num) (by norm_num) (by norm_num) (by norm_num) (Or.inr (Or.inl rfl))).2.1⟩

/-! ### C17: recovery latency -/

/-- When the effective secondary quality is LOST, `sensorFusion` uses `alpha = 1` and the
raw fused pose advances by the camera delta alone. -/
theorem fuse_pose_of_effective_lost (E : Env) (f : Fuser) (camVO orbVO : Pose)
    (hq : (beforeFusion E f camVO orbVO).1.orbQoS = LOST) :
    sensorFusionAlpha (beforeFusion E f camVO orbVO).1 = 1 ∧
    (fuse E f camVO orbVO).pose.translation =
      ⟨f.posePrev.translation.x + (cameraDelta f camVO).X,
       f.posePrev.translation.y + (cameraDelta f camVO).Y,
       f.posePrev.translation.z + (cameraDelta f camVO).Z⟩ ∧
    (fuse E f camVO orbVO).pose.rotation =
      ⟨f.posePrev.rotation.w + (cameraDelta f camVO).WQ,
       f.posePrev.rotation.x + (cameraDelta f camVO).XQ,
       f.posePrev.rotation.y + (cameraDelta f camVO).YQ,
       f.posePrev.rotation.z + (cameraDelta f camVO).ZQ⟩ := by
  obtain ⟨-, hp, -, -, -, -, hs, hc, -⟩ := beforeFusion_frame E f camVO orbVO
  have hd := cameraDelta_congr f (beforeFusion E f camVO orbVO).1 camVO hs hc
  refine ⟨?_, ?_, ?_⟩
  · unfold sensorFusionAlpha
    rw [if_pos hq]
  · rw [fuse_pose]
    simp only [fuseThroughFusion, sensorFusion, sensorFusionAlpha, blendedDelta,
      Pose.setTranslation, Pose.setRotation, hq, hp, hd, if_true, mul_one, sub_self, mul_zero,
      add_zero]
  · rw [fuse_pose]
    simp only [fuseThroughFusion, sensorFusion, sensorFusionAlpha, blendedDelta,
      Pose.setTranslation, Pose.setRotation, hq, hp, hd, if_true, mul_one, sub_self, mul_zero,
      add_zero]

/-- C17: let `RECOVERY_BUFFER >= 2`, let at least `RECOVERY_BUFFER + 1` steps be completed,
and let the next steps be one step with secondary quality LOST (step `s`) followed by
`RECOVERY_BUFFER` steps with secondary quality OK. In each of the OK steps but the last
(steps `s+1 .. s+RECOVERY_BUFFER-1`) the effective secondary quality is LOST, `alpha` is
1, the raw fused pose advances by the camera delta, `recovered` is false after the step
and the newest history slot records OK, the incoming quality. After the last OK step
`recovered` is true. After every call of `fuse` the newest history slot holds the
incoming quality. -/
theorem recovery_latency (E : Env) (f : Fuser) (lostStep : Pose × Pose)
    (okSteps : List (Pose × Pose)) (hRB : 2 ≤ E.RECOVERY_BUFFER)
    (hcount : E.RECOVERY_BUFFER + 1 ≤ f.counter) (hlost : lostStep.2.accuracy = LOST)
    (hlen : okSteps.length = E.RECOVERY_BUFFER) (hok : ∀ io ∈ okSteps, io.2.accuracy = OK) :
    (∀ (pre post : List (Pose × Pose)) (io : Pose × Pose),
      okSteps = pre ++ io :: post → post ≠ [] →
        (beforeFusion E (fuseAll E f (lostStep :: pre)) io.1 io.2).1.orbQoS = LOST ∧
        sensorFusionAlpha (beforeFusion E (fuseAll E f (lostStep :: pre)) io.1 io.2).1 = 1 ∧
        (fuse E (fuseAll E f (lostStep :: pre)) io.1 io.2).pose.translation =
          ⟨(fuseAll E f (lostStep :: pre)).posePrev.translation.x
              + (cameraDelta (fuseAll E f (lostStep :: pre)) io.1).X,
           (fuseAll E f (lostStep :: pre)).posePrev.translation.y
              + (cameraDelta (fuseAll E f (lostStep :: pre)) io.1).Y,
           (fuseAll E f (lostStep :: pre)).posePrev.translation.z
              + (cameraDelta (fuseAll E f (lostStep :: pre)) io.1).Z⟩ ∧
        (fuse E (fuseAll E f (lostStep :: pre)) io.1 io.2).pose.rotation =
          ⟨(fuseAll E f (lostStep :: pre)).posePrev.rotation.w
              + (cameraDelta (fuseAll E f (lostStep :: pre)) io.1).WQ,
           (fuseAll E f (lostStep :: pre)).posePrev.rotation.x
              + (cameraDelta (fuseAll E f (lostStep :: pre)) io.1).XQ,
           (fuseAll E f (lostStep :: pre)).posePrev.rotation.y
              + (cameraDelta (fuseAll E f (lostStep :: pre)) io.1).YQ,
           (fuseAll E f (lostStep :: pre)).posePrev.rotation.z
              + (cameraDelta (fuseAll E f (lostStep :: pre)) io.1).ZQ⟩ ∧
        (fuse E (fuseAll E f (lostStep :: pre)) io.1 io.2).recovered = false ∧
        (fuse E (fuseAll E f (lostStep :: pre)) io.1 io.2).orbQoSPrev.slot
          (E.RECOVERY_BUFFER - 1) = OK) ∧
    (fuseAll E f (lostStep :: okSteps)).recovered = true ∧
    (∀ (g : Fuser) (camVO orbVO : Pose),
      (fuse E g camVO orbVO).orbQoSPrev.slot (E.RECOVERY_BUFFER - 1) = orbVO.accuracy) := by
  have hnewest : ∀ (g : Fuser) (camVO orbVO : Pose),
      (fuse E g camVO orbVO).orbQoSPrev.slot (E.RECOVERY_BUFFER - 1) = orbVO.accuracy := by
    intro g camVO orbVO
    rw [fuse_history_slot, if_neg (lt_irrefl _), if_pos rfl]
  refine ⟨?_, ?_, hnewest⟩
  · intro pre post io hsplit hpost
    have hio : io.2.accuracy = OK := hok io (by rw [hsplit]; simp)
    have hpl : 1 ≤ post.length := by
      cases post with
      | nil => exact absurd rfl hpost
      | cons a l => simp
    have hl : pre.length + 1 + post.length = E.RECOVERY_BUFFER := by
      rw [← hlen, hsplit]
      simp
      omega
    have hgate : E.RECOVERY_BUFFER < (fuseAll E f (lostStep :: pre)).counter := by
      rw [fuseAll_counter, List.length_cons]
      omega
    have hslot : (fuseAll E f (lostStep :: pre)).orbQoSPrev.slot
        (E.RECOVERY_BUFFER - (pre.length + 1)) = LOST := by
      rw [fuseAll_history_slot E _ _ _ (by omega),
        if_neg (by rw [List.length_cons]; omega)]
      have h0 : E.RECOVERY_BUFFER - (pre.length + 1) + (lostStep :: pre).length
          - E.RECOVERY_BUFFER = 0 := by
        rw [List.length_cons]
        omega
      rw [h0, List.map_cons, List.getD_cons_zero]
      exact hlost
    have hlh := lostInHistory_of_lost_slot E _ (E.RECOVERY_BUFFER - (pre.length + 1))
      (by omega) (by omega) hslot
    have hq : (beforeFusion E (fuseAll E f (lostStep :: pre)) io.1 io.2).1.orbQoS = LOST := by
      rw [beforeFusion_orbQoS, if_pos ⟨hgate, hlh⟩]
    obtain ⟨ha, ht, hr⟩ := fuse_pose_of_effective_lost E _ io.1 io.2 hq
    refine ⟨hq, ha, ht, hr, ?_, ?_⟩
    · rw [fuse_recovered, if_pos hgate, if_pos hlh]
    · rw [hnewest, hio]
  · have hne : okSteps ≠ [] := by
      intro h
      rw [h] at hlen
      simp at hlen
      omega
    obtain ⟨init, last, rfl⟩ : ∃ init last, okSteps = init ++ [last] :=
      ⟨okSteps.dropLast, okSteps.getLast hne, (List.dropLast_append_getLast hne).symm⟩
    rw [List.length_append, List.length_singleton] at hlen
    have hok1 : ∀ io ∈ init, io.2.accuracy = OK := fun io hio =>
      hok io (List.mem_append_left _ hio)
    have hok2 : last.2.accuracy = OK := hok last (by simp)
    have hsplit : lostStep :: (init ++ [last]) = (lostStep :: init) ++ [last] := rfl
    have hqs : init.map (fun io => io.2.accuracy) = List.replicate init.length OK :=
      List.map_eq_replicate_iff.mpr hok1
    have hslot : ∀ i, i < E.RECOVERY_BUFFER →
        (fuseAll E f (lostStep :: init)).orbQoSPrev.slot i
          = (LOST :: List.replicate init.length OK).getD i LOST := by
      intro i hi
      rw [fuseAll_history_slot E _ _ i hi, if_neg (by rw [List.length_cons]; omega)]
      have h1 : i + (lostStep :: init).length - E.RECOVERY_BUFFER = i := by
        rw [List.length_cons]
        omega
      rw [h1, List.map_cons, hqs, hlost]
    have hold : (fuseAll E f (lostStep :: init)).orbQoSPrev.slot 0 = LOST := by
      rw [hslot 0 (by omega)]
      rfl
    have hrest : ∀ i, 1 ≤ i → i < E.RECOVERY_BUFFER →
        (fuseAll E f (lostStep :: init)).orbQoSPrev.slot i = OK := by
      intro i h1 h2
      obtain ⟨j, rfl⟩ : ∃ j, i = j + 1 := ⟨i - 1, by omega⟩
      have hj : j < init.length := by omega
      rw [hslot _ h2, List.getD_cons_succ, List.getD_eq_getElem?_getD, List.getElem?_replicate,
        if_pos hj]
      rfl
    rw [hsplit, fuseAll_concat]
    refine (fuse_of_recoveryFires E _ last.1 last.2 ⟨?_, hok2, hold, ?_⟩).1
    · rw [fuseAll_counter, List.length_cons]
      omega
    · exact okCounter_of_ok_slots E _ hrest

/-- Witness of `recovery_latency` with `RECOVERY_BUFFER = 2`: after three completed
steps, the steps LOST, OK, OK end with `recovered` true. -/
theorem recovery_latency_witness :
    (fuseAll (exampleEnv 2 5)
      (fuseAll (exampleEnv 2 5) (Fuser.fresh (exampleEnv 2 5))
        [stepWith OK, stepWith OK, stepWith OK])
      (stepWith LOST :: [stepWith OK, stepWith OK])).recovered = true :=
  (recovery_latency (exampleEnv 2 5)
    (fuseAll (exampleEnv 2 5) (Fuser.fresh (exampleEnv 2 5))
      [stepWith OK, stepWith OK, stepWith OK])
    (stepWith LOST) [stepWith OK, stepWith OK] (by decide)
    (by rw [fuseAll_counter]; decide) rfl rfl (by simp [stepWith, poseAt])).2.1

/-! ### C15: smoothing in the unfiltered branch -/

/-- The reset history after a call of `fuse`: shifted by one slot, the incoming quality
stored in the last slot. -/
theorem fuse_orbQoSFilterReset (E : Env) (f : Fuser) (camVO orbVO : Pose) :
    (fuse E f camVO orbVO).orbQoSFilterReset =
      (shiftLeft f.orbQoSFilterReset (E.FILTER_WINDOW - 1)).assign (E.FILTER_WINDOW - 1)
        orbVO.accuracy := by
  simp only [fuse, fuseThroughFusion, beforeFusion, bufferQoS, sensorFusion, filterFusedPose_eq,
    filterOrbPose_fst, recoverOrbPose_fst, recoveryCheck_eq, ingest_eq, markRunning_eq]

/-- Slot `i` of the reset history after a call of `fuse`. -/
theorem fuse_resetHistory_slot (E : Env) (f : Fuser) (camVO orbVO : Pose) (i : Nat) :
    (fuse E f camVO orbVO).orbQoSFilterReset.slot i =
      if i < E.FILTER_WINDOW - 1 then f.orbQoSFilterReset.slot (i + 1)
      else if i = E.FILTER_WINDOW - 1 then orbVO.accuracy
      else f.orbQoSFilterReset.slot i := by
  rw [fuse_orbQoSFilterReset, shiftLeft_assign_slot]

/-- Slot `i < FILTER_WINDOW` of the reset history after a run: an older slot while fewer
than `FILTER_WINDOW - i` steps were taken, afterwards the incoming quality of the step
that wrote it. -/
theorem fuseAll_resetHistory_slot (E : Env) (f : Fuser) (inputs : List (Pose × Pose)) (i : Nat)
    (hi : i < E.FILTER_WINDOW) :
    (fuseAll E f inputs).orbQoSFilterReset.slot i =
      if i + inputs.length < E.FILTER_WINDOW then f.orbQoSFilterReset.slot (i + inputs.length)
      else (inputs.map (fun io => io.2.accuracy)).getD
        (i + inputs.length - E.FILTER_WINDOW) LOST := by
  induction inputs generalizing f with
  | nil => simp [fuseAll, hi]
  | cons io rest ih =>
    rw [fuseAll_cons, ih, List.length_cons, List.map_cons]
    by_cases h1 : i + rest.length < E.FILTER_WINDOW
    · rw [if_pos h1, fuse_resetHistory_slot]
      by_cases h2 : i + (rest.length + 1) < E.FILTER_WINDOW
      · rw [if_pos h2, if_pos (by omega)]
        rfl
      · rw [if_neg h2, if_neg (by omega), if_pos (by omega)]
        have h3 : i + (rest.length + 1) - E.FILTER_WINDOW = 0 := by omega
        rw [h3]
        rfl
    · rw [if_neg h1, if_neg (by omega)]
      have h3 : i + (rest.length + 1) - E.FILTER_WINDOW
          = (i + rest.length - E.FILTER_WINDOW) + 1 := by omega
      rw [h3, List.getD_cons_succ]

/-- The constant `REDUCTION_FACTOR` is never written by `fuse`. -/
theorem fuse_REDUCTION_FACTOR (E : Env) (f : Fuser) (camVO orbVO : Pose) :
    (fuse E f camVO orbVO).REDUCTION_FACTOR = f.REDUCTION_FACTOR := by
  simp only [fuse, fuseThroughFusion, beforeFusion, bufferQoS, sensorFusion, filterFusedPose_eq,
    filterOrbPose_fst, recoverOrbPose_fst, recoveryCheck_eq, ingest_eq, markRunning_eq]

/-- In every state reached from a fresh engine `REDUCTION_FACTOR` is 0.01. -/
theorem fuseAll_REDUCTION_FACTOR (E : Env) (inputs : List (Pose × Pose)) :
    (fuseAll E (Fuser.fresh E) inputs).REDUCTION_FACTOR = 1 / 100 := by
  rcases List.eq_nil_or_concat inputs with h | ⟨init, last, h⟩
  · rw [h]
    rfl
  · subst h
    induction init using List.reverseRecOn generalizing last with
    | nil =>
      rw [List.concat_eq_append, fuseAll_concat, fuse_REDUCTION_FACTOR]
      rfl
    | append_singleton l a ih =>
      rw [List.concat_eq_append, fuseAll_concat, fuse_REDUCTION_FACTOR]
      have := ih a
      rw [List.concat_eq_append] at this
      exact this

/-- The fused-pose buffer after a call of `fuse`: rotated in the median branch; in the
unfiltered branch extended while its size is not `FILTER_WINDOW`, rotated otherwise. -/
theorem fuse_poseBuffer_eq (E : Env) (f : Fuser) (camVO orbVO : Pose) :
    (fuse E f camVO orbVO).poseBuffer =
      if (fuseThroughFusion E f camVO orbVO).1.medianFilterReady = true ∧
          (fuseThroughFusion E f camVO orbVO).1.recoverSteps > E.FILTER_WINDOW then
        rotateBuffer E f.poseBuffer (fuse E f camVO orbVO).pose
      else if f.poseBuffer.size ≠ E.FILTER_WINDOW then
        f.poseBuffer.push_back (fuse E f camVO orbVO).pose
      else rotateBuffer E f.poseBuffer (fuse E f camVO orbVO).pose := by
  have hTp : (fuseThroughFusion E f camVO orbVO).1.poseBuffer = f.poseBuffer :=
    (beforeFusion_frame E f camVO orbVO).2.2.2.2.2.1
  rw [fuse_poseBuffer, fuse_pose, filterFusedPose_eq]
  simp only []
  unfold bufferRawPose
  simp only [hTp]

/-- The published pose after a call of `fuse`. -/
theorem fuse_poseFiltered_eq (E : Env) (f : Fuser) (camVO orbVO : Pose) :
    (fuse E f camVO orbVO).poseFiltered =
      if (fuseThroughFusion E f camVO orbVO).1.medianFilterReady = true ∧
          (fuseThroughFusion E f camVO orbVO).1.recoverSteps > E.FILTER_WINDOW then
        medianFilteredPose E f.poseFiltered
          (rotateBuffer E f.poseBuffer (fuse E f camVO orbVO).pose)
      else if f.counter > E.FILTER_WINDOW then
        if f.orbQoSFilterReset.slot 0 ≠ LOST then
          smoothedPose E (bufferRawPose E (fuseThroughFusion E f camVO orbVO).1)
        else f.poseFilteredPrev
      else (fuse E f camVO orbVO).pose := by
  obtain ⟨hc, -, -, hpf, hpp, hTp, -, -, -, -, -, -, hq, -⟩ := beforeFusion_frame E f camVO orbVO
  have h1 : (fuseThroughFusion E f camVO orbVO).1.poseBuffer = f.poseBuffer := hTp
  have h2 : (fuseThroughFusion E f camVO orbVO).1.poseFiltered = f.poseFiltered := hpf
  have h3 : (fuseThroughFusion E f camVO orbVO).1.counter = f.counter := hc
  have h4 : (fuseThroughFusion E f camVO orbVO).1.orbQoSFilterReset = f.orbQoSFilterReset := hq
  have h5 : (fuseThroughFusion E f camVO orbVO).1.poseFilteredPrev = f.poseFilteredPrev := hpp
  rw [fuse_poseFiltered, fuse_pose, filterFusedPose_eq]
  simp only [h1, h2, h3, h4, h5]

/-- Translation and rotation of the pose built by the smoothing block in a call of
`fuse` that takes the unfiltered branch. -/
theorem smoothedPose_of_unfiltered (E : Env) (f : Fuser) (camVO orbVO : Pose)
    (hbranch : ¬ ((fuseThroughFusion E f camVO orbVO).1.medianFilterReady = true ∧
      (fuseThroughFusion E f camVO orbVO).1.recoverSteps > E.FILTER_WINDOW)) :
    (smoothedPose E (bufferRawPose E (fuseThroughFusion E f camVO orbVO).1)).translation =
      ⟨f.poseFilteredPrev.translation.x
          + ((bufferedPrev E (fuse E f camVO orbVO).poseBuffer).translation.x
              - (fuse E f camVO orbVO).pose.translation.x) * f.REDUCTION_FACTOR,
       f.poseFilteredPrev.translation.y
          + ((bufferedPrev E (fuse E f camVO orbVO).poseBuffer).translation.y
              - (fuse E f camVO orbVO).pose.translation.y) * f.REDUCTION_FACTOR,
       f.poseFilteredPrev.translation.z
          + ((bufferedPrev E (fuse E f camVO orbVO).poseBuffer).translation.z
              - (fuse E f camVO orbVO).pose.translation.z) * f.REDUCTION_FACTOR⟩ ∧
    (smoothedPose E (bufferRawPose E (fuseThroughFusion E f camVO orbVO).1)).rotation =
      ⟨f.poseFilteredPrev.rotation.w
          + ((bufferedPrev E (fuse E f camVO orbVO).poseBuffer).rotation.w
              - (fuse E f camVO orbVO).pose.rotation.w) * f.REDUCTION_FACTOR,
       f.poseFilteredPrev.rotation.x
          + ((bufferedPrev E (fuse E f camVO orbVO).poseBuffer).rotation.x
              - (fuse E f camVO orbVO).pose.rotation.x) * f.REDUCTION_FACTOR,
       f.poseFilteredPrev.rotation.y
          + ((bufferedPrev E (fuse E f camVO orbVO).poseBuffer).rotation.y
              - (fuse E f camVO orbVO).pose.rotation.y) * f.REDUCTION_FACTOR,
       f.poseFilteredPrev.rotation.z
          + ((bufferedPrev E (fuse E f camVO orbVO).poseBuffer).rotation.z
              - (fuse E f camVO orbVO).pose.rotation.z) * f.REDUCTION_FACTOR⟩ := by
  obtain ⟨-, -, -, -, hpp, -, -, -, -, -, -, hrf, -, -⟩ := beforeFusion_frame E f camVO orbVO
  have h5 : (bufferRawPose E (fuseThroughFusion E f camVO orbVO).1).poseFilteredPrev
      = f.poseFilteredPrev := hpp
  have h6 : (bufferRawPose E (fuseThroughFusion E f camVO orbVO).1).REDUCTION_FACTOR
      = f.REDUCTION_FACTOR := hrf
  have h7 : (bufferRawPose E (fuseThroughFusion E f camVO orbVO).1).pose
      = (fuse E f camVO orbVO).pose := (fuse_pose E f camVO orbVO).symm
  have h8 : (bufferRawPose E (fuseThroughFusion E f camVO orbVO).1).poseBuffer
      = (fuse E f camVO orbVO).poseBuffer := by
    rw [fuse_poseBuffer, filterFusedPose_eq]
    simp only [if_neg hbranch]
  unfold smoothedPose
  simp only [Pose.setTranslation, Pose.setRotation, h5, h6, h7, h8, and_self]

/-- The count `recoverSteps` grows by at most one per call of `fuse`. -/
theorem fuse_recoverSteps_le (E : Env) (f : Fuser) (camVO orbVO : Pose) :
    (fuse E f camVO orbVO).recoverSteps ≤ f.recoverSteps + 1 := by
  rw [fuse_recoverSteps_eq]
  split_ifs <;> omega

/-- A call of `fuse` whose `recoverSteps` ends at most at `FILTER_WINDOW` takes the
unfiltered branch. -/
theorem unfiltered_of_recoverSteps (E : Env) (f : Fuser) (camVO orbVO : Pose)
    (h : (fuse E f camVO orbVO).recoverSteps ≤ E.FILTER_WINDOW) :
    ¬ ((fuseThroughFusion E f camVO orbVO).1.medianFilterReady = true ∧
      (fuseThroughFusion E f camVO orbVO).1.recoverSteps > E.FILTER_WINDOW) := by
  rintro ⟨-, h2⟩
  have h3 : (fuseThroughFusion E f camVO orbVO).1.recoverSteps
      = (fuse E f camVO orbVO).recoverSteps := (fuse_recoverSteps E f camVO orbVO).symm
  omega

/-- The state after `reacquisitionRun` with `RECOVERY_BUFFER = 2` and `FILTER_WINDOW = 4`:
five steps are completed, the recovery of step 4 is at most two steps old, the oldest
sample of the reset history is the LOST of step 2 and the newest the OK of step 5, and the
fused-pose buffer holds four poses, the last one being the raw fused pose of step 5. -/
theorem reacquisitionRun_state :
    (fuseAll (exampleEnv 2 4) (Fuser.fresh (exampleEnv 2 4)) reacquisitionRun).counter = 5 ∧
    (fuseAll (exampleEnv 2 4) (Fuser.fresh (exampleEnv 2 4)) reacquisitionRun).recoverSteps
      ≤ 2 ∧
    (fuseAll (exampleEnv 2 4) (Fuser.fresh (exampleEnv 2 4))
      reacquisitionRun).orbQoSFilterReset.slot 0 = LOST ∧
    (fuseAll (exampleEnv 2 4) (Fuser.fresh (exampleEnv 2 4))
      reacquisitionRun).orbQoSFilterReset.slot 3 = OK ∧
    (fuseAll (exampleEnv 2 4) (Fuser.fresh (exampleEnv 2 4)) reacquisitionRun).poseBuffer.size
      = 4 ∧
    (fuseAll (exampleEnv 2 4) (Fuser.fresh (exampleEnv 2 4)) reacquisitionRun).poseBuffer.slot 3
      = (fuseAll (exampleEnv 2 4) (Fuser.fresh (exampleEnv 2 4)) reacquisitionRun).pose := by
  have hc : (fuseAll (exampleEnv 2 4) (Fuser.fresh (exampleEnv 2 4)) reacquisitionRun).counter
      = 5 := by
    rw [fuseAll_counter]
    rfl
  have hr0 : (fuseAll (exampleEnv 2 4) (Fuser.fresh (exampleEnv 2 4))
      reacquisitionRun).orbQoSFilterReset.slot 0 = LOST := by
    rw [fuseAll_resetHistory_slot (exampleEnv 2 4) _ _ 0 (by decide)]
    rfl
  have hr3 : (fuseAll (exampleEnv 2 4) (Fuser.fresh (exampleEnv 2 4))
      reacquisitionRun).orbQoSFilterReset.slot 3 = OK := by
    rw [fuseAll_resetHistory_slot (exampleEnv 2 4) _ _ 3 (by decide)]
    rfl
  refine ⟨hc, ?_, hr0, hr3, ?_⟩ <;> clear hc hr0 hr3
  all_goals
    have hFW : (exampleEnv 2 4).FILTER_WINDOW = 4 := rfl
    have hrun : fuseAll (exampleEnv 2 4) (Fuser.fresh (exampleEnv 2 4)) reacquisitionRun
        = fuse (exampleEnv 2 4)
            (fuse (exampleEnv 2 4)
              (fuseAll (exampleEnv 2 4) (Fuser.freshWith (exampleEnv 2 4) (3 / 4) (7 / 10))
                [(poseAt 1 OK, poseAt 0 OK), (poseAt 2 OK, poseAt 0 LOST),
                  (poseAt 3 OK, poseAt 0 OK)])
              (poseAt 4 OK) (poseAt 0 OK))
            (poseAt 5 OK) (poseAt 0 OK) := by
      have hsplit : reacquisitionRun
          = [(poseAt 1 OK, poseAt 0 OK), (poseAt 2 OK, poseAt 0 LOST),
              (poseAt 3 OK, poseAt 0 OK)]
            ++ [(poseAt 4 OK, poseAt 0 OK)] ++ [(poseAt 5 OK, poseAt 0 OK)] := rfl
      rw [hsplit, fuseAll_concat, fuseAll_concat]
      rfl
    have hw3 := fuseAll_warmingUp (exampleEnv 2 4) _
      [(poseAt 1 OK, poseAt 0 OK), (poseAt 2 OK, poseAt 0 LOST), (poseAt 3 OK, poseAt 0 OK)]
      0 (freshWith_warmingUp (exampleEnv 2 4) (3 / 4) (7 / 10)) (by decide)
    have hc3 : (fuseAll (exampleEnv 2 4) (Fuser.freshWith (exampleEnv 2 4) (3 / 4) (7 / 10))
        [(poseAt 1 OK, poseAt 0 OK), (poseAt 2 OK, poseAt 0 LOST),
          (poseAt 3 OK, poseAt 0 OK)]).counter = 3 := by
      rw [fuseAll_counter]
      rfl
    have hh0 : (fuseAll (exampleEnv 2 4) (Fuser.freshWith (exampleEnv 2 4) (3 / 4) (7 / 10))
        [(poseAt 1 OK, poseAt 0 OK), (poseAt 2 OK, poseAt 0 LOST),
          (poseAt 3 OK, poseAt 0 OK)]).orbQoSPrev.slot 0 = LOST := by
      rw [fuseAll_history_slot (exampleEnv 2 4) _ _ 0 (by decide)]
      rfl
    have hh1 : (fuseAll (exampleEnv 2 4) (Fuser.freshWith (exampleEnv 2 4) (3 / 4) (7 / 10))
        [(poseAt 1 OK, poseAt 0 OK), (poseAt 2 OK, poseAt 0 LOST),
          (poseAt 3 OK, poseAt 0 OK)]).orbQoSPrev.slot 1 = OK := by
      rw [fuseAll_history_slot (exampleEnv 2 4) _ _ 1 (by decide)]
      rfl
    rw [hrun]
    clear hrun
    generalize fuseAll (exampleEnv 2 4) (Fuser.freshWith (exampleEnv 2 4) (3 / 4) (7 / 10))
      [(poseAt 1 OK, poseAt 0 OK), (poseAt 2 OK, poseAt 0 LOST), (poseAt 3 OK, poseAt 0 OK)]
      = g3 at hw3 hc3 hh0 hh1 ⊢
    have hfire : recoveryFires (exampleEnv 2 4) g3 (poseAt 0 OK) := by
      refine ⟨by rw [hc3]; decide, rfl, hh0, ?_⟩
      apply okCounter_of_ok_slots
      intro i hi1 hi2
      have hi : i = 1 := by
        have : (exampleEnv 2 4).RECOVERY_BUFFER = 2 := rfl
        omega
      rw [hi]
      exact hh1
    have hs4 := (fuse_of_recoveryFires (exampleEnv 2 4) g3 (poseAt 4 OK) (poseAt 0 OK)
      hfire).2.2.2
    have hb4 := fuse_poseBuffer_eq (exampleEnv 2 4) g3 (poseAt 4 OK) (poseAt 0 OK)
    rw [if_neg (unfiltered_of_recoverSteps _ _ _ _ (by rw [hs4, hFW]; decide)),
      if_pos (by rw [hw3.2.2.1, hFW]; decide)] at hb4
    have hp4 : (fuse (exampleEnv 2 4) g3 (poseAt 4 OK) (poseAt 0 OK)).poseBuffer.size = 4 := by
      rw [hb4]
      show g3.poseBuffer.size + 1 = 4
      rw [hw3.2.2.1]
      rfl
    clear hb4
    generalize fuse (exampleEnv 2 4) g3 (poseAt 4 OK) (poseAt 0 OK) = g4 at hs4 hp4 ⊢
    have hs5 := fuse_recoverSteps_le (exampleEnv 2 4) g4 (poseAt 5 OK) (poseAt 0 OK)
    rw [hs4] at hs5
    have hb5 := fuse_poseBuffer_eq (exampleEnv 2 4) g4 (poseAt 5 OK) (poseAt 0 OK)
    rw [if_neg (unfiltered_of_recoverSteps _ _ _ _ (by rw [hFW]; omega)),
      if_neg (by rw [hp4, hFW]; decide)] at hb5
  · exact hs5
  · refine ⟨?_, ?_⟩
    · rw [hb5, rotateBuffer_size, hp4]
    · rw [hb5, rotateBuffer_slot, hFW]
      simp

/-- The count `recoverSteps` is not touched after the re-anchoring block. -/
theorem fuseThroughFusion_recoverSteps (E : Env) (f : Fuser) (camVO orbVO : Pose) :
    (fuseThroughFusion E f camVO orbVO).1.recoverSteps = (fuse E f camVO orbVO).recoverSteps :=
  (fuse_recoverSteps E f camVO orbVO).symm

/-- The last step of a non-empty run leaves the engine RUNNING, with the previous raw
fused pose equal to the raw fused pose and the previous camera pose equal to the camera
pose of that step. -/
theorem fuseAll_concat_prev (E : Env) (f : Fuser) (inputs : List (Pose × Pose))
    (io : Pose × Pose) :
    (fuseAll E f (inputs ++ [io])).fuserStatus = Status.RUNNING ∧
    (fuseAll E f (inputs ++ [io])).posePrev = (fuseAll E f (inputs ++ [io])).pose ∧
    (fuseAll E f (inputs ++ [io])).camVOPrev = io.1 := by
  rw [fuseAll_concat]
  exact ⟨fuse_fuserStatus E _ _ _, fuse_posePrev E _ _ _, fuse_camVOPrev E _ _ _⟩

/-- C15 fails as stated: with `RECOVERY_BUFFER = 2` and `FILTER_WINDOW = 4`, after
`reacquisitionRun` (secondary qualities OK, LOST, OK, OK, OK; recovery in step 4) a sixth
step with the camera at `x = 6` and secondary quality LOST is taken with five completed
steps and takes the unfiltered branch (`recoverSteps <= FILTER_WINDOW`). The newest sample
of the reset history, slot `FILTER_WINDOW - 1`, is OK, yet the published pose repeats the
previous published pose, because slot 0 holds the LOST of step 2; the value
`previousPublished + (bufferedPrev - raw) * REDUCTION_FACTOR` lies 1/100 below it in x. -/
theorem smoothing_skipped_on_oldest_sample :
    (exampleEnv 2 4).FILTER_WINDOW
      < (fuseAll (exampleEnv 2 4) (Fuser.fresh (exampleEnv 2 4)) reacquisitionRun).counter ∧
    (fuseThroughFusion (exampleEnv 2 4)
      (fuseAll (exampleEnv 2 4) (Fuser.fresh (exampleEnv 2 4)) reacquisitionRun)
      (poseAt 6 OK) (poseAt 0 LOST)).1.recoverSteps ≤ (exampleEnv 2 4).FILTER_WINDOW ∧
    (fuseAll (exampleEnv 2 4) (Fuser.fresh (exampleEnv 2 4))
      reacquisitionRun).orbQoSFilterReset.slot ((exampleEnv 2 4).FILTER_WINDOW - 1) = OK ∧
    getFusedPose (fuse (exampleEnv 2 4)
      (fuseAll (exampleEnv 2 4) (Fuser.fresh (exampleEnv 2 4)) reacquisitionRun)
      (poseAt 6 OK) (poseAt 0 LOST))
      = getFusedPose (fuseAll (exampleEnv 2 4) (Fuser.fresh (exampleEnv 2 4))
          reacquisitionRun) ∧
    (getFusedPose (fuseAll (exampleEnv 2 4) (Fuser.fresh (exampleEnv 2 4))
        reacquisitionRun)).translation.x
      + ((bufferedPrev (exampleEnv 2 4) (fuse (exampleEnv 2 4)
            (fuseAll (exampleEnv 2 4) (Fuser.fresh (exampleEnv 2 4)) reacquisitionRun)
            (poseAt 6 OK) (poseAt 0 LOST)).poseBuffer).translation.x
          - (fuse (exampleEnv 2 4)
            (fuseAll (exampleEnv 2 4) (Fuser.fresh (exampleEnv 2 4)) reacquisitionRun)
            (poseAt 6 OK) (poseAt 0 LOST)).pose.translation.x)
        * (fuseAll (exampleEnv 2 4) (Fuser.fresh (exampleEnv 2 4))
            reacquisitionRun).REDUCTION_FACTOR
      = (getFusedPose (fuse (exampleEnv 2 4)
          (fuseAll (exampleEnv 2 4) (Fuser.fresh (exampleEnv 2 4)) reacquisitionRun)
          (poseAt 6 OK) (poseAt 0 LOST))).translation.x - 1 / 100 := by
  obtain ⟨hc, hs, hr0, hr3, hsz, hsl⟩ := reacquisitionRun_state
  have hpp := fuseAll_poseFilteredPrev (exampleEnv 2 4) reacquisitionRun
  have hrf := fuseAll_REDUCTION_FACTOR (exampleEnv 2 4) reacquisitionRun
  obtain ⟨hst, hprev, hcam⟩ := fuseAll_concat_prev (exampleEnv 2 4) (Fuser.fresh (exampleEnv 2 4))
    [(poseAt 1 OK, poseAt 0 OK), (poseAt 2 OK, poseAt 0 LOST), (poseAt 3 OK, poseAt 0 OK),
      (poseAt 4 OK, poseAt 0 OK)] (poseAt 5 OK, poseAt 0 OK)
  have hlist : [(poseAt 1 OK, poseAt 0 OK), (poseAt 2 OK, poseAt 0 LOST),
      (poseAt 3 OK, poseAt 0 OK), (poseAt 4 OK, poseAt 0 OK)] ++ [(poseAt 5 OK, poseAt 0 OK)]
      = reacquisitionRun := rfl
  rw [hlist] at hst hprev hcam
  have hFW : (exampleEnv 2 4).FILTER_WINDOW = 4 := rfl
  unfold getFusedPose at hpp ⊢
  generalize fuseAll (exampleEnv 2 4) (Fuser.fresh (exampleEnv 2 4)) reacquisitionRun = g5
    at hc hs hr0 hr3 hsz hsl hpp hrf hst hprev hcam ⊢
  have hs6 : (fuse (exampleEnv 2 4) g5 (poseAt 6 OK) (poseAt 0 LOST)).recoverSteps
      ≤ (exampleEnv 2 4).FILTER_WINDOW := by
    have := fuse_recoverSteps_le (exampleEnv 2 4) g5 (poseAt 6 OK) (poseAt 0 LOST)
    rw [hFW]
    omega
  have hbranch := unfiltered_of_recoverSteps (exampleEnv 2 4) g5 (poseAt 6 OK) (poseAt 0 LOST) hs6
  have hq : (beforeFusion (exampleEnv 2 4) g5 (poseAt 6 OK) (poseAt 0 LOST)).1.orbQoS = LOST := by
    rw [beforeFusion_orbQoS]
    split_ifs <;> rfl
  have hx : (fuse (exampleEnv 2 4) g5 (poseAt 6 OK) (poseAt 0 LOST)).pose.translation.x
      = g5.pose.translation.x + 1 := by
    rw [(fuse_pose_of_effective_lost (exampleEnv 2 4) g5 (poseAt 6 OK) (poseAt 0 LOST) hq).2.1]
    have h3 : g5.fuserStatus ≠ Status.UNINITIALIZED := by
      rw [hst]
      decide
    simp only [cameraDelta, if_neg h3, hcam, hprev]
    norm_num [poseAt]
  have hb : bufferedPrev (exampleEnv 2 4)
      (fuse (exampleEnv 2 4) g5 (poseAt 6 OK) (poseAt 0 LOST)).poseBuffer = g5.pose := by
    rw [fuse_poseBuffer_eq, if_neg hbranch, if_neg (by rw [hsz, hFW]; decide)]
    unfold bufferedPrev
    rw [rotateBuffer_size, hsz, if_pos (by decide), rotateBuffer_slot, hFW, if_pos (by decide)]
    exact hsl
  have hpub : (fuse (exampleEnv 2 4) g5 (poseAt 6 OK) (poseAt 0 LOST)).poseFiltered
      = g5.poseFiltered := by
    rw [fuse_poseFiltered_eq, if_neg hbranch, if_pos (by rw [hc, hFW]; decide),
      if_neg (not_not.mpr hr0), hpp]
  refine ⟨?_, ?_, ?_, ?_, ?_⟩
  · rw [hc, hFW]
    decide
  · rw [fuseThroughFusion_recoverSteps]
    exact hs6
  · rw [hFW]
    exact hr3
  · exact hpub
  · rw [hb, hx, hpub, hrf]
    ring

/-- C15 (amended): in a state reached from a fresh engine with more than `FILTER_WINDOW`
completed steps (`FILTER_WINDOW >= 1`), a `fuse` step that takes the unfiltered branch
tests slot 0 of `orbQoSFilterReset`, the oldest sample of the reset history: the
secondary quality that came in `FILTER_WINDOW` steps before this one. If it is LOST the
pose returned by `getFusedPose` after the step is the pose it returned before the step;
otherwise each translation and rotation component of it is
`previousPublished + (poseBuffer[size-2] - raw) * 0.01`. -/
theorem reset_smoothing_reads_oldest (E : Env) (inputs : List (Pose × Pose))
    (camVO orbVO : Pose) (hFW : 1 ≤ E.FILTER_WINDOW) (hcount : E.FILTER_WINDOW < inputs.length)
    (hbranch : ¬ ((fuseThroughFusion E (fuseAll E (Fuser.fresh E) inputs) camVO
        orbVO).1.medianFilterReady = true ∧
      (fuseThroughFusion E (fuseAll E (Fuser.fresh E) inputs) camVO orbVO).1.recoverSteps
        > E.FILTER_WINDOW)) :
    (fuseAll E (Fuser.fresh E) inputs).orbQoSFilterReset.slot 0
      = (inputs.map (fun io => io.2.accuracy)).getD (inputs.length - E.FILTER_WINDOW) LOST ∧
    ((fuseAll E (Fuser.fresh E) inputs).orbQoSFilterReset.slot 0 = LOST →
      getFusedPose (fuse E (fuseAll E (Fuser.fresh E) inputs) camVO orbVO)
        = getFusedPose (fuseAll E (Fuser.fresh E) inputs)) ∧
    ((fuseAll E (Fuser.fresh E) inputs).orbQoSFilterReset.slot 0 ≠ LOST →
      (getFusedPose (fuse E (fuseAll E (Fuser.fresh E) inputs) camVO orbVO)).translation =
        ⟨(getFusedPose (fuseAll E (Fuser.fresh E) inputs)).translation.x
            + ((bufferedPrev E (fuse E (fuseAll E (Fuser.fresh E) inputs) camVO
                  orbVO).poseBuffer).translation.x
                - (fuse E (fuseAll E (Fuser.fresh E) inputs) camVO orbVO).pose.translation.x)
              * (1 / 100),
         (getFusedPose (fuseAll E (Fuser.fresh E) inputs)).translation.y
            + ((bufferedPrev E (fuse E (fuseAll E (Fuser.fresh E) inputs) camVO
                  orbVO).poseBuffer).translation.y
                - (fuse E (fuseAll E (Fuser.fresh E) inputs) camVO orbVO).pose.translation.y)
              * (1 / 100),
         (getFusedPose (fuseAll E (Fuser.fresh E) inputs)).translation.z
            + ((bufferedPrev E (fuse E (fuseAll E (Fuser.fresh E) inputs) camVO
                  orbVO).poseBuffer).translation.z
                - (fuse E (fuseAll E (Fuser.fresh E) inputs) camVO orbVO).pose.translation.z)
              * (1 / 100)⟩ ∧
      (getFusedPose (fuse E (fuseAll E (Fuser.fresh E) inputs) camVO orbVO)).rotation =
        ⟨(getFusedPose (fuseAll E (Fuser.fresh E) inputs)).rotation.w
            + ((bufferedPrev E (fuse E (fuseAll E (Fuser.fresh E) inputs) camVO
                  orbVO).poseBuffer).rotation.w
                - (fuse E (fuseAll E (Fuser.fresh E) inputs) camVO orbVO).pose.rotation.w)
              * (1 / 100),
         (getFusedPose (fuseAll E (Fuser.fresh E) inputs)).rotation.x
            + ((bufferedPrev E (fuse E (fuseAll E (Fuser.fresh E) inputs) camVO
                  orbVO).poseBuffer).rotation.x
                - (fuse E (fuseAll E (Fuser.fresh E) inputs) camVO orbVO).pose.rotation.x)
              * (1 / 100),
         (getFusedPose (fuseAll E (Fuser.fresh E) inputs)).rotation.y
            + ((bufferedPrev E (fuse E (fuseAll E (Fuser.fresh E) inputs) camVO
                  orbVO).poseBuffer).rotation.y
                - (fuse E (fuseAll E (Fuser.fresh E) inputs) camVO orbVO).pose.rotation.y)
              * (1 / 100),
         (getFusedPose (fuseAll E (Fuser.fresh E) inputs)).rotation.z
            + ((bufferedPrev E (fuse E (fuseAll E (Fuser.fresh E) inputs) camVO
                  orbVO).poseBuffer).rotation.z
                - (fuse E (fuseAll E (Fuser.fresh E) inputs) camVO orbVO).pose.rotation.z)
              * (1 / 100)⟩) := by
  have hc : E.FILTER_WINDOW < (fuseAll E (Fuser.fresh E) inputs).counter := by
    rw [fuseAll_counter]
    have h0 : (Fuser.fresh E).counter = 0 := rfl
    omega
  have hpp := fuseAll_poseFilteredPrev E inputs
  have hrf := fuseAll_REDUCTION_FACTOR E inputs
  refine ⟨?_, ?_, ?_⟩
  · rw [fuseAll_resetHistory_slot E _ _ 0 (by omega), if_neg (by omega), Nat.zero_add]
  · intro h0
    unfold getFusedPose at hpp ⊢
    rw [fuse_poseFiltered_eq, if_neg hbranch, if_pos hc, if_neg (not_not.mpr h0), hpp]
  · intro h0
    obtain ⟨ht, hr⟩ := smoothedPose_of_unfiltered E _ camVO orbVO hbranch
    unfold getFusedPose at hpp ⊢
    rw [fuse_poseFiltered_eq, if_neg hbranch, if_pos hc, if_pos h0, ht, hr, hpp, hrf]
    exact ⟨rfl, rfl⟩

/-- Witness of `reset_smoothing_reads_oldest` with `RECOVERY_BUFFER = 2` and
`FILTER_WINDOW = 4`: the sixth step after `reacquisitionRun` repeats the published
pose. -/
theorem reset_smoothing_reads_oldest_witness :
    getFusedPose (fuse (exampleEnv 2 4)
      (fuseAll (exampleEnv 2 4) (Fuser.fresh (exampleEnv 2 4)) reacquisitionRun)
      (poseAt 6 OK) (poseAt 0 LOST))
      = getFusedPose (fuseAll (exampleEnv 2 4) (Fuser.fresh (exampleEnv 2 4))
          reacquisitionRun) :=
  (reset_smoothing_reads_oldest (exampleEnv 2 4) reacquisitionRun (poseAt 6 OK) (poseAt 0 LOST)
    (by decide) (by decide)
    (unfiltered_of_recoverSteps (exampleEnv 2 4) _ (poseAt 6 OK) (poseAt 0 LOST)
      (by
        have h1 := fuse_recoverSteps_le (exampleEnv 2 4)
          (fuseAll (exampleEnv 2 4) (Fuser.fresh (exampleEnv 2 4)) reacquisitionRun)
          (poseAt 6 OK) (poseAt 0 LOST)
        have h2 := reacquisitionRun_state.2.1
        have h3 : (exampleEnv 2 4).FILTER_WINDOW = 4 := rfl
        omega))).2.1 reacquisitionRun_state.2.2.1

end Perceptor
